import Mathlib

/-!
Verification development for goipay, a cryptocurrency payment gateway.

Shallow embedding of the coin mapping tables, the derivation cursor, the LTC transaction
verifier, the payment-processor facade and the user handlers, with the properties proved
about them.
-/

namespace Goipay

/-! ## Coin types -/

/-- Wire coin: pb_v1.CoinType is an int32. -/
abbrev PbCoinType := Int

/-- Storage coin: db.CoinType is a string type. -/
abbrev DbCoinType := String

/-- The mapping errors declared in internal/util/const.go. -/
inductive MapErr where
  | invalidProtoBufCoinTypeErr
  | invalidDbCoinTypeErr
  | invalidDbStatusTypeErr
deriving DecidableEq, Repr

/-! ## Wire coin numbers (internal/pb/v1/crypto.pb.go) -/

def CoinType_XMR : PbCoinType := 0
def CoinType_BTC : PbCoinType := 1
def CoinType_LTC : PbCoinType := 2
def CoinType_ETH : PbCoinType := 3
def CoinType_TON : PbCoinType := 4
def CoinType_USDT_ERC20 : PbCoinType := 5
def CoinType_USDC_ERC20 : PbCoinType := 6
def CoinType_DAI_ERC20 : PbCoinType := 7
def CoinType_WBTC_ERC20 : PbCoinType := 8
def CoinType_UNI_ERC20 : PbCoinType := 9
def CoinType_LINK_ERC20 : PbCoinType := 10
def CoinType_AAVE_ERC20 : PbCoinType := 11
def CoinType_CRV_ERC20 : PbCoinType := 12
def CoinType_MATIC_ERC20 : PbCoinType := 13
def CoinType_SHIB_ERC20 : PbCoinType := 14
def CoinType_BNB_ERC20 : PbCoinType := 15
def CoinType_ATOM_ERC20 : PbCoinType := 16
def CoinType_ARB_ERC20 : PbCoinType := 17
def CoinType_BNB : PbCoinType := 18
def CoinType_BSCUSD_BEP20 : PbCoinType := 19
def CoinType_USDC_BEP20 : PbCoinType := 20
def CoinType_DAI_BEP20 : PbCoinType := 21
def CoinType_BUSD_BEP20 : PbCoinType := 22
def CoinType_WBTC_BEP20 : PbCoinType := 23
def CoinType_BTCB_BEP20 : PbCoinType := 24
def CoinType_UNI_BEP20 : PbCoinType := 25
def CoinType_LINK_BEP20 : PbCoinType := 26
def CoinType_AAVE_BEP20 : PbCoinType := 27
def CoinType_MATIC_BEP20 : PbCoinType := 28
def CoinType_SHIB_BEP20 : PbCoinType := 29
def CoinType_ATOM_BEP20 : PbCoinType := 30
def CoinType_ARB_BEP20 : PbCoinType := 31
def CoinType_ETH_BEP20 : PbCoinType := 32
def CoinType_XRP_BEP20 : PbCoinType := 33
def CoinType_ADA_BEP20 : PbCoinType := 34
def CoinType_TRX_BEP20 : PbCoinType := 35
def CoinType_DOGE_BEP20 : PbCoinType := 36
def CoinType_LTC_BEP20 : PbCoinType := 37
def CoinType_BCH_BEP20 : PbCoinType := 38
def CoinType_TWT_BEP20 : PbCoinType := 39
def CoinType_AVAX_BEP20 : PbCoinType := 40
def CoinType_CAKE_BEP20 : PbCoinType := 41

/-! ## Storage coin values -/

/-- Modelled from the spec: package db is not under src; the storage enum value is taken to carry the
wire name of the coin (XMR). -/
def CoinTypeXMR : DbCoinType := "XMR"
/-- Modelled from the spec: package db is not under src; the storage enum value is taken to carry the
wire name of the coin (BTC). -/
def CoinTypeBTC : DbCoinType := "BTC"
/-- Modelled from the spec: package db is not under src; the storage enum value is taken to carry the
wire name of the coin (LTC). -/
def CoinTypeLTC : DbCoinType := "LTC"
/-- Modelled from the spec: package db is not under src; the storage enum value is taken to carry the
wire name of the coin (ETH). -/
def CoinTypeETH : DbCoinType := "ETH"
/-- Modelled from the spec: package db is not under src; the storage enum value is taken to carry the
wire name of the coin (TON). -/
def CoinTypeTON : DbCoinType := "TON"
/-- Modelled from the spec: package db is not under src; the storage enum value is taken to carry the
wire name of the coin (USDT_ERC20). -/
def CoinTypeUSDTERC20 : DbCoinType := "USDT_ERC20"
/-- Modelled from the spec: package db is not under src; the storage enum value is taken to carry the
wire name of the coin (USDC_ERC20). -/
def CoinTypeUSDCERC20 : DbCoinType := "USDC_ERC20"
/-- Modelled from the spec: package db is not under src; the storage enum value is taken to carry the
wire name of the coin (DAI_ERC20). -/
def CoinTypeDAIERC20 : DbCoinType := "DAI_ERC20"
/-- Modelled from the spec: package db is not under src; the storage enum value is taken to carry the
wire name of the coin (WBTC_ERC20). -/
def CoinTypeWBTCERC20 : DbCoinType := "WBTC_ERC20"
/-- Modelled from the spec: package db is not under src; the storage enum value is taken to carry the
wire name of the coin (UNI_ERC20). -/
def CoinTypeUNIERC20 : DbCoinType := "UNI_ERC20"
/-- Modelled from the spec: package db is not under src; the storage enum value is taken to carry the
wire name of the coin (LINK_ERC20). -/
def CoinTypeLINKERC20 : DbCoinType := "LINK_ERC20"
/-- Modelled from the spec: package db is not under src; the storage enum value is taken to carry the
wire name of the coin (AAVE_ERC20). -/
def CoinTypeAAVEERC20 : DbCoinType := "AAVE_ERC20"
/-- Modelled from the spec: package db is not under src; the storage enum value is taken to carry the
wire name of the coin (CRV_ERC20). -/
def CoinTypeCRVERC20 : DbCoinType := "CRV_ERC20"
/-- Modelled from the spec: package db is not under src; the storage enum value is taken to carry the
wire name of the coin (MATIC_ERC20). -/
def CoinTypeMATICERC20 : DbCoinType := "MATIC_ERC20"
/-- Modelled from the spec: package db is not under src; the storage enum value is taken to carry the
wire name of the coin (SHIB_ERC20). -/
def CoinTypeSHIBERC20 : DbCoinType := "SHIB_ERC20"
/-- Modelled from the spec: package db is not under src; the storage enum value is taken to carry the
wire name of the coin (BNB_ERC20). -/
def CoinTypeBNBERC20 : DbCoinType := "BNB_ERC20"
/-- Modelled from the spec: package db is not under src; the storage enum value is taken to carry the
wire name of the coin (ATOM_ERC20). -/
def CoinTypeATOMERC20 : DbCoinType := "ATOM_ERC20"
/-- Modelled from the spec: package db is not under src; the storage enum value is taken to carry the
wire name of the coin (ARB_ERC20). -/
def CoinTypeARBERC20 : DbCoinType := "ARB_ERC20"
/-- Modelled from the spec: package db is not under src; the storage enum value is taken to carry the
wire name of the coin (BNB). -/
def CoinTypeBNB : DbCoinType := "BNB"
/-- Modelled from the spec: package db is not under src; the storage enum value is taken to carry the
wire name of the coin (BSCUSD_BEP20). -/
def CoinTypeBSCUSDBEP20 : DbCoinType := "BSCUSD_BEP20"
/-- Modelled from the spec: package db is not under src; the storage enum value is taken to carry the
wire name of the coin (USDC_BEP20). -/
def CoinTypeUSDCBEP20 : DbCoinType := "USDC_BEP20"
/-- Modelled from the spec: package db is not under src; the storage enum value is taken to carry the
wire name of the coin (DAI_BEP20). -/
def CoinTypeDAIBEP20 : DbCoinType := "DAI_BEP20"
/-- Modelled from the spec: package db is not under src; the storage enum value is taken to carry the
wire name of the coin (BUSD_BEP20). -/
def CoinTypeBUSDBEP20 : DbCoinType := "BUSD_BEP20"
/-- Modelled from the spec: package db is not under src; the storage enum value is taken to carry the
wire name of the coin (WBTC_BEP20). -/
def CoinTypeWBTCBEP20 : DbCoinType := "WBTC_BEP20"
/-- Modelled from the spec: package db is not under src; the storage enum value is taken to carry the
wire name of the coin (BTCB_BEP20). -/
def CoinTypeBTCBBEP20 : DbCoinType := "BTCB_BEP20"
/-- Modelled from the spec: package db is not under src; the storage enum value is taken to carry the
wire name of the coin (UNI_BEP20). -/
def CoinTypeUNIBEP20 : DbCoinType := "UNI_BEP20"
/-- Modelled from the spec: package db is not under src; the storage enum value is taken to carry the
wire name of the coin (LINK_BEP20). -/
def CoinTypeLINKBEP20 : DbCoinType := "LINK_BEP20"
/-- Modelled from the spec: package db is not under src; the storage enum value is taken to carry the
wire name of the coin (AAVE_BEP20). -/
def CoinTypeAAVEBEP20 : DbCoinType := "AAVE_BEP20"
/-- Modelled from the spec: package db is not under src; the storage enum value is taken to carry the
wire name of the coin (MATIC_BEP20). -/
def CoinTypeMATICBEP20 : DbCoinType := "MATIC_BEP20"
/-- Modelled from the spec: package db is not under src; the storage enum value is taken to carry the
wire name of the coin (SHIB_BEP20). -/
def CoinTypeSHIBBEP20 : DbCoinType := "SHIB_BEP20"
/-- Modelled from the spec: package db is not under src; the storage enum value is taken to carry the
wire name of the coin (ATOM_BEP20). -/
def CoinTypeATOMBEP20 : DbCoinType := "ATOM_BEP20"
/-- Modelled from the spec: package db is not under src; the storage enum value is taken to carry the
wire name of the coin (ARB_BEP20). -/
def CoinTypeARBBEP20 : DbCoinType := "ARB_BEP20"
/-- Modelled from the spec: package db is not under src; the storage enum value is taken to carry the
wire name of the coin (ETH_BEP20). -/
def CoinTypeETHBEP20 : DbCoinType := "ETH_BEP20"
/-- Modelled from the spec: package db is not under src; the storage enum value is taken to carry the
wire name of the coin (XRP_BEP20). -/
def CoinTypeXRPBEP20 : DbCoinType := "XRP_BEP20"
/-- Modelled from the spec: package db is not under src; the storage enum value is taken to carry the
wire name of the coin (ADA_BEP20). -/
def CoinTypeADABEP20 : DbCoinType := "ADA_BEP20"
/-- Modelled from the spec: package db is not under src; the storage enum value is taken to carry the
wire name of the coin (TRX_BEP20). -/
def CoinTypeTRXBEP20 : DbCoinType := "TRX_BEP20"
/-- Modelled from the spec: package db is not under src; the storage enum value is taken to carry the
wire name of the coin (DOGE_BEP20). -/
def CoinTypeDOGEBEP20 : DbCoinType := "DOGE_BEP20"
/-- Modelled from the spec: package db is not under src; the storage enum value is taken to carry the
wire name of the coin (LTC_BEP20). -/
def CoinTypeLTCBEP20 : DbCoinType := "LTC_BEP20"
/-- Modelled from the spec: package db is not under src; the storage enum value is taken to carry the
wire name of the coin (BCH_BEP20). -/
def CoinTypeBCHBEP20 : DbCoinType := "BCH_BEP20"
/-- Modelled from the spec: package db is not under src; the storage enum value is taken to carry the
wire name of the coin (TWT_BEP20). -/
def CoinTypeTWTBEP20 : DbCoinType := "TWT_BEP20"
/-- Modelled from the spec: package db is not under src; the storage enum value is taken to carry the
wire name of the coin (AVAX_BEP20). -/
def CoinTypeAVAXBEP20 : DbCoinType := "AVAX_BEP20"
/-- Modelled from the spec: package db is not under src; the storage enum value is taken to carry the
wire name of the coin (CAKE_BEP20). -/
def CoinTypeCAKEBEP20 : DbCoinType := "CAKE_BEP20"

/-- Table pbCoins of internal/util/mapping_test.go. -/
def pbCoins : List PbCoinType :=
  [CoinType_XMR,
   CoinType_BTC,
   CoinType_LTC,
   CoinType_ETH,
   CoinType_TON,
   CoinType_USDT_ERC20,
   CoinType_USDC_ERC20,
   CoinType_DAI_ERC20,
   CoinType_WBTC_ERC20,
   CoinType_UNI_ERC20,
   CoinType_LINK_ERC20,
   CoinType_AAVE_ERC20,
   CoinType_CRV_ERC20,
   CoinType_MATIC_ERC20,
   CoinType_SHIB_ERC20,
   CoinType_BNB_ERC20,
   CoinType_ATOM_ERC20,
   CoinType_ARB_ERC20,
   CoinType_BNB,
   CoinType_BSCUSD_BEP20,
   CoinType_USDC_BEP20,
   CoinType_DAI_BEP20,
   CoinType_BUSD_BEP20,
   CoinType_WBTC_BEP20,
   CoinType_BTCB_BEP20,
   CoinType_UNI_BEP20,
   CoinType_LINK_BEP20,
   CoinType_AAVE_BEP20,
   CoinType_MATIC_BEP20,
   CoinType_SHIB_BEP20,
   CoinType_ATOM_BEP20,
   CoinType_ARB_BEP20,
   CoinType_ETH_BEP20,
   CoinType_XRP_BEP20,
   CoinType_ADA_BEP20,
   CoinType_TRX_BEP20,
   CoinType_DOGE_BEP20,
   CoinType_LTC_BEP20,
   CoinType_BCH_BEP20,
   CoinType_TWT_BEP20,
   CoinType_AVAX_BEP20,
   CoinType_CAKE_BEP20]

/-- Table dbCoins of internal/util/mapping_test.go. -/
def dbCoins : List DbCoinType :=
  [CoinTypeXMR,
   CoinTypeBTC,
   CoinTypeLTC,
   CoinTypeETH,
   CoinTypeTON,
   CoinTypeUSDTERC20,
   CoinTypeUSDCERC20,
   CoinTypeDAIERC20,
   CoinTypeWBTCERC20,
   CoinTypeUNIERC20,
   CoinTypeLINKERC20,
   CoinTypeAAVEERC20,
   CoinTypeCRVERC20,
   CoinTypeMATICERC20,
   CoinTypeSHIBERC20,
   CoinTypeBNBERC20,
   CoinTypeATOMERC20,
   CoinTypeARBERC20,
   CoinTypeBNB,
   CoinTypeBSCUSDBEP20,
   CoinTypeUSDCBEP20,
   CoinTypeDAIBEP20,
   CoinTypeBUSDBEP20,
   CoinTypeWBTCBEP20,
   CoinTypeBTCBBEP20,
   CoinTypeUNIBEP20,
   CoinTypeLINKBEP20,
   CoinTypeAAVEBEP20,
   CoinTypeMATICBEP20,
   CoinTypeSHIBBEP20,
   CoinTypeATOMBEP20,
   CoinTypeARBBEP20,
   CoinTypeETHBEP20,
   CoinTypeXRPBEP20,
   CoinTypeADABEP20,
   CoinTypeTRXBEP20,
   CoinTypeDOGEBEP20,
   CoinTypeLTCBEP20,
   CoinTypeBCHBEP20,
   CoinTypeTWTBEP20,
   CoinTypeAVAXBEP20,
   CoinTypeCAKEBEP20]

/-- Modelled from the spec: PbCoinToDbCoin lives in internal/util/mapping.go, which is not under src.
Every supported wire coin maps to the storage coin of the same name (the pairing of the tables
pbCoins and dbCoins of mapping_test.go); any other value fails with invalidProtoBufCoinTypeErr. -/
def PbCoinToDbCoin (coin : PbCoinType) : Except MapErr DbCoinType :=
  if coin = CoinType_XMR then .ok CoinTypeXMR
  else if coin = CoinType_BTC then .ok CoinTypeBTC
  else if coin = CoinType_LTC then .ok CoinTypeLTC
  else if coin = CoinType_ETH then .ok CoinTypeETH
  else if coin = CoinType_TON then .ok CoinTypeTON
  else if coin = CoinType_USDT_ERC20 then .ok CoinTypeUSDTERC20
  else if coin = CoinType_USDC_ERC20 then .ok CoinTypeUSDCERC20
  else if coin = CoinType_DAI_ERC20 then .ok CoinTypeDAIERC20
  else if coin = CoinType_WBTC_ERC20 then .ok CoinTypeWBTCERC20
  else if coin = CoinType_UNI_ERC20 then .ok CoinTypeUNIERC20
  else if coin = CoinType_LINK_ERC20 then .ok CoinTypeLINKERC20
  else if coin = CoinType_AAVE_ERC20 then .ok CoinTypeAAVEERC20
  else if coin = CoinType_CRV_ERC20 then .ok CoinTypeCRVERC20
  else if coin = CoinType_MATIC_ERC20 then .ok CoinTypeMATICERC20
  else if coin = CoinType_SHIB_ERC20 then .ok CoinTypeSHIBERC20
  else if coin = CoinType_BNB_ERC20 then .ok CoinTypeBNBERC20
  else if coin = CoinType_ATOM_ERC20 then .ok CoinTypeATOMERC20
  else if coin = CoinType_ARB_ERC20 then .ok CoinTypeARBERC20
  else if coin = CoinType_BNB then .ok CoinTypeBNB
  else if coin = CoinType_BSCUSD_BEP20 then .ok CoinTypeBSCUSDBEP20
  else if coin = CoinType_USDC_BEP20 then .ok CoinTypeUSDCBEP20
  else if coin = CoinType_DAI_BEP20 then .ok CoinTypeDAIBEP20
  else if coin = CoinType_BUSD_BEP20 then .ok CoinTypeBUSDBEP20
  else if coin = CoinType_WBTC_BEP20 then .ok CoinTypeWBTCBEP20
  else if coin = CoinType_BTCB_BEP20 then .ok CoinTypeBTCBBEP20
  else if coin = CoinType_UNI_BEP20 then .ok CoinTypeUNIBEP20
  else if coin = CoinType_LINK_BEP20 then .ok CoinTypeLINKBEP20
  else if coin = CoinType_AAVE_BEP20 then .ok CoinTypeAAVEBEP20
  else if coin = CoinType_MATIC_BEP20 then .ok CoinTypeMATICBEP20
  else if coin = CoinType_SHIB_BEP20 then .ok CoinTypeSHIBBEP20
  else if coin = CoinType_ATOM_BEP20 then .ok CoinTypeATOMBEP20
  else if coin = CoinType_ARB_BEP20 then .ok CoinTypeARBBEP20
  else if coin = CoinType_ETH_BEP20 then .ok CoinTypeETHBEP20
  else if coin = CoinType_XRP_BEP20 then .ok CoinTypeXRPBEP20
  else if coin = CoinType_ADA_BEP20 then .ok CoinTypeADABEP20
  else if coin = CoinType_TRX_BEP20 then .ok CoinTypeTRXBEP20
  else if coin = CoinType_DOGE_BEP20 then .ok CoinTypeDOGEBEP20
  else if coin = CoinType_LTC_BEP20 then .ok CoinTypeLTCBEP20
  else if coin = CoinType_BCH_BEP20 then .ok CoinTypeBCHBEP20
  else if coin = CoinType_TWT_BEP20 then .ok CoinTypeTWTBEP20
  else if coin = CoinType_AVAX_BEP20 then .ok CoinTypeAVAXBEP20
  else if coin = CoinType_CAKE_BEP20 then .ok CoinTypeCAKEBEP20
  else .error MapErr.invalidProtoBufCoinTypeErr

/-- Modelled from the spec: DbCoinToPbCoin lives in internal/util/mapping.go, which is not under src.
Every storage coin maps back to the wire coin of the same name; any other string fails with
invalidDbCoinTypeErr. -/
def DbCoinToPbCoin (coin : DbCoinType) : Except MapErr PbCoinType :=
  if coin = CoinTypeXMR then .ok CoinType_XMR
  else if coin = CoinTypeBTC then .ok CoinType_BTC
  else if coin = CoinTypeLTC then .ok CoinType_LTC
  else if coin = CoinTypeETH then .ok CoinType_ETH
  else if coin = CoinTypeTON then .ok CoinType_TON
  else if coin = CoinTypeUSDTERC20 then .ok CoinType_USDT_ERC20
  else if coin = CoinTypeUSDCERC20 then .ok CoinType_USDC_ERC20
  else if coin = CoinTypeDAIERC20 then .ok CoinType_DAI_ERC20
  else if coin = CoinTypeWBTCERC20 then .ok CoinType_WBTC_ERC20
  else if coin = CoinTypeUNIERC20 then .ok CoinType_UNI_ERC20
  else if coin = CoinTypeLINKERC20 then .ok CoinType_LINK_ERC20
  else if coin = CoinTypeAAVEERC20 then .ok CoinType_AAVE_ERC20
  else if coin = CoinTypeCRVERC20 then .ok CoinType_CRV_ERC20
  else if coin = CoinTypeMATICERC20 then .ok CoinType_MATIC_ERC20
  else if coin = CoinTypeSHIBERC20 then .ok CoinType_SHIB_ERC20
  else if coin = CoinTypeBNBERC20 then .ok CoinType_BNB_ERC20
  else if coin = CoinTypeATOMERC20 then .ok CoinType_ATOM_ERC20
  else if coin = CoinTypeARBERC20 then .ok CoinType_ARB_ERC20
  else if coin = CoinTypeBNB then .ok CoinType_BNB
  else if coin = CoinTypeBSCUSDBEP20 then .ok CoinType_BSCUSD_BEP20
  else if coin = CoinTypeUSDCBEP20 then .ok CoinType_USDC_BEP20
  else if coin = CoinTypeDAIBEP20 then .ok CoinType_DAI_BEP20
  else if coin = CoinTypeBUSDBEP20 then .ok CoinType_BUSD_BEP20
  else if coin = CoinTypeWBTCBEP20 then .ok CoinType_WBTC_BEP20
  else if coin = CoinTypeBTCBBEP20 then .ok CoinType_BTCB_BEP20
  else if coin = CoinTypeUNIBEP20 then .ok CoinType_UNI_BEP20
  else if coin = CoinTypeLINKBEP20 then .ok CoinType_LINK_BEP20
  else if coin = CoinTypeAAVEBEP20 then .ok CoinType_AAVE_BEP20
  else if coin = CoinTypeMATICBEP20 then .ok CoinType_MATIC_BEP20
  else if coin = CoinTypeSHIBBEP20 then .ok CoinType_SHIB_BEP20
  else if coin = CoinTypeATOMBEP20 then .ok CoinType_ATOM_BEP20
  else if coin = CoinTypeARBBEP20 then .ok CoinType_ARB_BEP20
  else if coin = CoinTypeETHBEP20 then .ok CoinType_ETH_BEP20
  else if coin = CoinTypeXRPBEP20 then .ok CoinType_XRP_BEP20
  else if coin = CoinTypeADABEP20 then .ok CoinType_ADA_BEP20
  else if coin = CoinTypeTRXBEP20 then .ok CoinType_TRX_BEP20
  else if coin = CoinTypeDOGEBEP20 then .ok CoinType_DOGE_BEP20
  else if coin = CoinTypeLTCBEP20 then .ok CoinType_LTC_BEP20
  else if coin = CoinTypeBCHBEP20 then .ok CoinType_BCH_BEP20
  else if coin = CoinTypeTWTBEP20 then .ok CoinType_TWT_BEP20
  else if coin = CoinTypeAVAXBEP20 then .ok CoinType_AVAX_BEP20
  else if coin = CoinTypeCAKEBEP20 then .ok CoinType_CAKE_BEP20
  else .error MapErr.invalidDbCoinTypeErr

/-! ## Storage model

Package db (the generated queries) is not under src. Its tables and queries are modelled from the
spec (§3, §6) and from the integration tests under test/integration/db. -/

/-- Nullable UUID column: pgtype.UUID with its 16 bytes and its Valid flag. -/
structure PgUUID where
  Bytes : List Nat
  Valid : Bool
deriving DecidableEq, Repr

/-- The null UUID (zero value of pgtype.UUID). -/
def PgUUID.null : PgUUID := ⟨[], false⟩

/-- A valid UUID whose last byte is n and whose other bytes are zero. -/
def PgUUID.ofByte (n : Nat) : PgUUID := ⟨List.replicate 15 0 ++ [n], true⟩

/-- Errors a query can come back with: pgx.ErrNoRows, the PostgreSQL codes the integration
tests check (23505, 23503), the integer overflow code 22003, and a lost connection. -/
inductive SqlErr where
  | noRows
  | uniqueViolation
  | foreignKeyViolation
  | numericValueOutOfRange
  | connection
deriving DecidableEq, Repr

def INT32_MAX : Int := 2147483647

def INT32_MIN : Int := -2147483648

/-- Whether v fits the int32 columns last_major_index, last_minor_index. -/
def inInt32 (v : Int) : Bool := decide (INT32_MIN ≤ v) && decide (v ≤ INT32_MAX)

/-- Row of xmr_crypto_data. -/
structure XmrCryptoDatum where
  ID : PgUUID
  PrivViewKey : String
  PubSpendKey : String
  LastMajorIndex : Int
  LastMinorIndex : Int
deriving DecidableEq, Repr

/-- Modelled from the spec: the cursor bump of find-keys-and-incremented-indices (package db is not
under src): minor increments, and when minor is INT32_MAX the major is carried and minor restarts
at 0. The columns are int32 (the test table of TestFindKeysAndIncrementedIndicesXMRCryptoDataById),
so a bump whose result does not fit int32 is a failed query (integer out of range). -/
def incrementedIndices (major minor : Int) : Except SqlErr (Int × Int) :=
  let next : Int × Int := if minor = INT32_MAX then (major + 1, 0) else (major, minor + 1)
  if inInt32 next.1 && inInt32 next.2 then .ok next else .error SqlErr.numericValueOutOfRange

/-- Bump the cursor of the row with the given id in the table; the id is the primary key, so the
first matching row is the only one. Returns the updated row and the updated table. -/
def bumpXmrRow (id : PgUUID) : List XmrCryptoDatum → Except SqlErr (XmrCryptoDatum × List XmrCryptoDatum)
  | [] => .error SqlErr.noRows
  | r :: rs =>
    if r.ID = id then
      match incrementedIndices r.LastMajorIndex r.LastMinorIndex with
      | .ok (maj, min) =>
        let r' : XmrCryptoDatum := { r with LastMajorIndex := maj, LastMinorIndex := min }
        .ok (r', r' :: rs)
      | .error e => .error e
    else
      match bumpXmrRow id rs with
      | .ok (r', rs') => .ok (r', r :: rs')
      | .error e => .error e

/-- Row of crypto_data: the owning user and the nullable references to the per-chain key rows. -/
structure CryptoDatum where
  UserID : PgUUID
  XmrID : PgUUID
  BtcID : PgUUID
  LtcID : PgUUID
  EthID : PgUUID
  BnbID : PgUUID
deriving DecidableEq, Repr

/-- Row of crypto_addresses (db.CryptoAddress). -/
structure CryptoAddress where
  Address : String
  Coin : DbCoinType
  IsOccupied : Bool
  UserID : PgUUID
deriving DecidableEq, Repr

/-- Storage invoice status: db.InvoiceStatusType is a string type. -/
abbrev DbInvoiceStatusType := String

def InvoiceStatusTypePENDING : DbInvoiceStatusType := "PENDING"

def InvoiceStatusTypePENDINGMEMPOOL : DbInvoiceStatusType := "PENDING_MEMPOOL"

def InvoiceStatusTypeEXPIRED : DbInvoiceStatusType := "EXPIRED"

def InvoiceStatusTypeCONFIRMED : DbInvoiceStatusType := "CONFIRMED"

/-- Row of invoices (db.Invoice), with the columns the modelled code reads or writes; times are
in seconds. The amount, confirmation and transaction-id columns are carried by no modelled
operation and are left out. -/
structure Invoice where
  ID : PgUUID
  CryptoAddress : String
  Coin : DbCoinType
  Status : DbInvoiceStatusType
  CreatedAt : Int
  ExpiresAt : Int
  UserID : PgUUID
deriving DecidableEq, Repr

/-- Row of ltc_crypto_data and of bnb_crypto_data: the extended public key and the derivation
cursor (§3, UTXO/EVM keys). -/
structure MasterKeyDatum where
  ID : PgUUID
  MasterPubKey : String
  LastMajorIndex : Int
  LastMinorIndex : Int
deriving DecidableEq, Repr

/-- The persistence store: one list of rows per table (§6). -/
structure Store where
  users : List PgUUID
  cryptoData : List CryptoDatum
  xmrCryptoData : List XmrCryptoDatum
  cryptoAddresses : List CryptoAddress
  invoices : List Invoice
  ltcCryptoData : List MasterKeyDatum
  bnbCryptoData : List MasterKeyDatum
deriving DecidableEq, Repr

/-- The store with no row in any table. -/
def Store.empty : Store := ⟨[], [], [], [], [], [], []⟩

/-- Modelled from the spec: the query find-keys-and-incremented-indices for XMR (package db is not
under src): atomically reads and bumps the (major, minor) cursor of the key row and returns the
row with the bumped cursor. -/
def FindKeysAndIncrementedIndicesXMRCryptoDataById (id : PgUUID) (s : Store) :
    Except SqlErr (XmrCryptoDatum × Store) :=
  match bumpXmrRow id s.xmrCryptoData with
  | .ok (r, rows) => .ok (r, { s with xmrCryptoData := rows })
  | .error e => .error e

/-- The stored cursor of the key row with the given id, if the row exists. -/
def storedCursor (id : PgUUID) (s : Store) : Option (Int × Int) :=
  (s.xmrCryptoData.find? (fun r => decide (r.ID = id))).map
    (fun r => (r.LastMajorIndex, r.LastMinorIndex))

/-- Run n successive allocations on the key row id: each one is a call of
find-keys-and-incremented-indices; returns the index pairs the n calls returned, in order, and
the final store. -/
def allocateIndices (id : PgUUID) : Nat → Store → Except SqlErr (List (Int × Int) × Store)
  | 0, s => .ok ([], s)
  | n + 1, s =>
    match FindKeysAndIncrementedIndicesXMRCryptoDataById id s with
    | .error e => .error e
    | .ok (r, s1) =>
      match allocateIndices id n s1 with
      | .error e => .error e
      | .ok (l, s2) => .ok ((r.LastMajorIndex, r.LastMinorIndex) :: l, s2)

/-- Lexicographic order on (major, minor) index pairs. -/
def cursorLt (a b : Int × Int) : Prop := a.1 < b.1 ∨ (a.1 = b.1 ∧ a.2 < b.2)

instance (a b : Int × Int) : Decidable (cursorLt a b) := by unfold cursorLt; infer_instance

/-- A store whose only row is an XMR key row with id PgUUID.ofByte 1 and the given stored cursor
(the fixture of TestFindKeysAndIncrementedIndicesXMRCryptoDataById). -/
def xmrStore (major minor : Int) : Store :=
  { Store.empty with xmrCryptoData := [⟨PgUUID.ofByte 1, "priv", "pub", major, minor⟩] }

/-! ## LTC transaction verification (internal/processor/ltc.go)

The transaction type listener.LTCTx is not under src; it is modelled with the fields
verifyLTCTxHandler reads. Values are float64 in the source: the model is generic in the value
type and uses only its zero and its addition, in the order the source applies them. -/

/-- Script of an output: the single address and the legacy address list. -/
structure ScriptPubKeyResult where
  Address : String
  Addresses : List String
deriving DecidableEq, Repr

/-- One output of a transaction. -/
structure Vout (α : Type) where
  Value : α
  ScriptPubKey : ScriptPubKeyResult

/-- An LTC transaction with its outputs. -/
structure LTCTx (α : Type) where
  Vout : List (Vout α)

/-- The condition of the if statement in verifyLTCTxHandler: the output pays the address. -/
def voutPays {α : Type} (txOut : Vout α) (cryptoAddress : String) : Bool :=
  decide (txOut.ScriptPubKey.Address = cryptoAddress) ||
    (decide (txOut.ScriptPubKey.Addresses.length = 1) &&
      decide (txOut.ScriptPubKey.Addresses.get? 0 = some cryptoAddress))

/-- The for loop of verifyLTCTxHandler from index i on, with the running amount; the first
argument bounds the number of iterations left. -/
def verifyLTCTxLoop {α : Type} [Add α] (vout : List (Vout α)) (cryptoAddress : String) :
    Nat → Nat → α → α
  | 0, _, amount => amount
  | fuel + 1, i, amount =>
    match vout.get? i with
    | none => amount
    | some txOut =>
      if voutPays txOut cryptoAddress then
        verifyLTCTxLoop vout cryptoAddress fuel (i + 1) (amount + txOut.Value)
      else
        verifyLTCTxLoop vout cryptoAddress fuel (i + 1) amount

/-- The function verifyLTCTxHandler: the amount and the error (none is the nil error). -/
def verifyLTCTxHandler {α : Type} [Add α] [Zero α] (tx : LTCTx α) (invoice : Invoice) :
    α × Option String :=
  (verifyLTCTxLoop tx.Vout invoice.CryptoAddress tx.Vout.length 0 0, none)

/-- The sum the claim describes: the values of the outputs paying the address, added in order
starting from 0. -/
def creditedSum {α : Type} [Add α] [Zero α] (vout : List (Vout α)) (cryptoAddress : String) : α :=
  ((vout.filter (fun o =>
      decide (o.ScriptPubKey.Address = cryptoAddress ∨
        (o.ScriptPubKey.Addresses.length = 1 ∧
          ∀ a ∈ o.ScriptPubKey.Addresses, a = cryptoAddress)))).map (fun o => o.Value)).foldl
    (fun acc v => acc + v) 0

/-- Invoice paid at the address "A" (fixture). -/
def ltcInvoice : Invoice :=
  ⟨PgUUID.ofByte 9, "A", CoinTypeLTC, InvoiceStatusTypePENDING, 0, 3600, PgUUID.ofByte 1⟩

/-- Transaction with four outputs: paid by Address, paid by a one-element Addresses list, a
two-element Addresses list containing the address, and an output to another address. -/
def ltcTxSample : LTCTx Int :=
  ⟨[⟨5, ⟨"A", []⟩⟩, ⟨7, ⟨"", ["A"]⟩⟩, ⟨11, ⟨"", ["A", "B"]⟩⟩, ⟨13, ⟨"B", []⟩⟩]⟩

/-- Transaction none of whose outputs pays the address "A". -/
def ltcTxNoPay : LTCTx Int :=
  ⟨[⟨11, ⟨"", ["A", "B"]⟩⟩, ⟨13, ⟨"B", []⟩⟩]⟩

/-! ## Transactions and queries

The handlers run their queries inside one transaction obtained from util.InitDbQueriesWithTx (not
under src). A transaction works on a private copy of the committed store; Commit publishes the
copy, the deferred Rollback discards it. The environment fixes what the code cannot control:
whether the transaction can be begun and committed, which queries are hit by a storage failure,
and the external helpers that are not under src. -/

/-- The queries of package db issued by the modelled code. -/
inductive Query where
  | CreateUser
  | CreateUserWithId
  | UserExistsById
  | CreateCryptoData
  | FindCryptoDataByUserId
  | DeleteAllCryptoAddressByUserIdAndCoin
  | CreateXMRCryptoData
  | SetXMRCryptoDataByUserId
  | UpdateKeysXMRCryptoDataById
  | ShiftExpiresAtForNonConfirmedInvoices
  | FindAllPendingInvoices
  | FindKeysAndIncrementedIndicesLTCCryptoDataById
  | FindKeysAndIncrementedIndicesBNBCryptoDataById
  | CreateCryptoAddress
deriving DecidableEq, Repr

/-- What the handlers take from outside the code under src. -/
structure Env where
  /-- Whether util.InitDbQueriesWithTx fails to begin a transaction. -/
  beginFails : Bool
  /-- Whether tx.Commit fails (the callers drop its error). -/
  commitFails : Bool
  /-- Whether the given query is hit by a storage failure (lost connection). -/
  fault : Query → Bool
  /-- The helper util.StringToPgUUID (internal/util/mapping.go): none is its error. -/
  StringToPgUUID : String → Option PgUUID
  /-- The helper util.PgUUIDToString (internal/util/mapping.go). -/
  PgUUIDToString : PgUUID → String
  /-- The id the database generates for a new row, given the current store. -/
  newUUID : Store → PgUUID
  /-- Whether utils.NewPrivateKey of go-monero accepts the key. -/
  NewPrivateKey : String → Bool
  /-- Whether utils.NewPublicKey of go-monero accepts the key. -/
  NewPublicKey : String → Bool

/-- A running transaction: its working copy of the store and the queries issued so far. -/
structure Tx where
  store : Store
  log : List Query
deriving DecidableEq, Repr

/-- Issue a query in the transaction: it is logged; a storage failure makes it fail with no
effect; otherwise it acts on the working copy. -/
def Tx.run {α : Type} (env : Env) ( name : Query) (q : Store → Except SqlErr (α × Store))
    (tx : Tx) : Except SqlErr α × Tx :=
  let tx1 : Tx := { tx with log := tx.log ++ [name] }
  if env.fault name then (.error SqlErr.connection, tx1)
  else
    match q tx.store with
    | .ok (a, s') => (.ok a, { tx1 with store := s' })
    | .error e => (.error e, tx1)

/-- The committed store after tx.Commit: the working copy, unless the commit fails. -/
def Tx.commit (env : Env) (db : Store) (tx : Tx) : Store :=
  if env.commitFails then db else tx.store

/-- Modelled from the spec: query CreateUser (package db is not under src): inserts a user with a
server-generated id and returns the id; ids are unique. -/
def CreateUser (env : Env) (s : Store) : Except SqlErr (PgUUID × Store) :=
  let id := env.newUUID s
  if id ∈ s.users then .error SqlErr.uniqueViolation
  else .ok (id, { s with users := s.users ++ [id] })

/-- Modelled from the spec: query CreateUserWithId (package db is not under src): inserts a user
with the client-supplied id, which must be unique, and returns the id. -/
def CreateUserWithId (id : PgUUID) (s : Store) : Except SqlErr (PgUUID × Store) :=
  if id ∈ s.users then .error SqlErr.uniqueViolation
  else .ok (id, { s with users := s.users ++ [id] })

/-- Modelled from the spec: query UserExistsById (package db is not under src). -/
def UserExistsById (id : PgUUID) (s : Store) : Except SqlErr (Bool × Store) :=
  .ok (decide (id ∈ s.users), s)

/-- Parameters of CreateCryptoData as the code and the tests build them. -/
structure CreateCryptoDataParams where
  XmrID : PgUUID := PgUUID.null
  UserID : PgUUID
deriving DecidableEq, Repr

/-- Modelled from the spec: query CreateCryptoData (package db is not under src): inserts the
crypto-data row of a user; the user must exist and a non-null XMR reference must point to an
existing key row (code 23503 in TestCreateCryptoData), and a user has one row only. -/
def CreateCryptoData (arg : CreateCryptoDataParams) (s : Store) :
    Except SqlErr (CryptoDatum × Store) :=
  if arg.UserID ∉ s.users then .error SqlErr.foreignKeyViolation
  else if arg.XmrID.Valid && !(s.xmrCryptoData.any (fun r => decide (r.ID = arg.XmrID))) then
    .error SqlErr.foreignKeyViolation
  else if s.cryptoData.any (fun c => decide (c.UserID = arg.UserID)) then
    .error SqlErr.uniqueViolation
  else
    let row : CryptoDatum :=
      ⟨arg.UserID, arg.XmrID, PgUUID.null, PgUUID.null, PgUUID.null, PgUUID.null⟩
    .ok (row, { s with cryptoData := s.cryptoData ++ [row] })

/-- Modelled from the spec: query FindCryptoDataByUserId (package db is not under src): the
crypto-data row of the user, or pgx.ErrNoRows (TestFindCryptoDataByUserId). -/
def FindCryptoDataByUserId (userId : PgUUID) (s : Store) : Except SqlErr (CryptoDatum × Store) :=
  match s.cryptoData.find? (fun c => decide (c.UserID = userId)) with
  | some c => .ok (c, s)
  | none => .error SqlErr.noRows

/-- Parameters of DeleteAllCryptoAddressByUserIdAndCoin. -/
structure DeleteAllCryptoAddressByUserIdAndCoinParams where
  Coin : DbCoinType
  UserID : PgUUID
deriving DecidableEq, Repr

/-- Modelled from the spec: query DeleteAllCryptoAddressByUserIdAndCoin (package db is not under
src; the spec does not list it): as its name says, it deletes every crypto_addresses row of the
given user and coin, and returns the deleted rows. -/
def DeleteAllCryptoAddressByUserIdAndCoin (arg : DeleteAllCryptoAddressByUserIdAndCoinParams)
    (s : Store) : Except SqlErr (List CryptoAddress × Store) :=
  .ok (s.cryptoAddresses.filter (fun a => decide (a.UserID = arg.UserID ∧ a.Coin = arg.Coin)),
    { s with cryptoAddresses :=
        s.cryptoAddresses.filter (fun a => !decide (a.UserID = arg.UserID ∧ a.Coin = arg.Coin)) })

/-- Parameters of CreateXMRCryptoData. -/
structure CreateXMRCryptoDataParams where
  PrivViewKey : String
  PubSpendKey : String
deriving DecidableEq, Repr

/-- Modelled from the spec: query CreateXMRCryptoData (package db is not under src): inserts an
XMR key row with a generated id and the cursor (0, 0); each key is unique in the table (code
23505 in TestCreateXMRCryptoData). -/
def CreateXMRCryptoData (env : Env) (arg : CreateXMRCryptoDataParams) (s : Store) :
    Except SqlErr (XmrCryptoDatum × Store) :=
  let id := env.newUUID s
  if s.xmrCryptoData.any (fun r => decide (r.ID = id) || decide (r.PrivViewKey = arg.PrivViewKey)
      || decide (r.PubSpendKey = arg.PubSpendKey)) then
    .error SqlErr.uniqueViolation
  else
    let row : XmrCryptoDatum := ⟨id, arg.PrivViewKey, arg.PubSpendKey, 0, 0⟩
    .ok (row, { s with xmrCryptoData := s.xmrCryptoData ++ [row] })

/-- Parameters of SetXMRCryptoDataByUserId. -/
structure SetXMRCryptoDataByUserIdParams where
  UserID : PgUUID
  XmrID : PgUUID
deriving DecidableEq, Repr

/-- Modelled from the spec: query SetXMRCryptoDataByUserId (package db is not under src): sets the
XMR reference of the user's crypto-data row; the reference must point to an existing key row
(code 23503 in TestSetXMRCryptoDataByUserId); pgx.ErrNoRows when the user has no row. -/
def SetXMRCryptoDataByUserId (arg : SetXMRCryptoDataByUserIdParams) (s : Store) :
    Except SqlErr (CryptoDatum × Store) :=
  match s.cryptoData.find? (fun c => decide (c.UserID = arg.UserID)) with
  | none => .error SqlErr.noRows
  | some c =>
    if arg.XmrID.Valid && !(s.xmrCryptoData.any (fun r => decide (r.ID = arg.XmrID))) then
      .error SqlErr.foreignKeyViolation
    else
      .ok ({ c with XmrID := arg.XmrID },
        { s with cryptoData := s.cryptoData.map (fun d =>
            if d.UserID = arg.UserID then { d with XmrID := arg.XmrID } else d) })

/-- Parameters of UpdateKeysXMRCryptoDataById. -/
structure UpdateKeysXMRCryptoDataByIdParams where
  ID : PgUUID
  PrivViewKey : String
  PubSpendKey : String
deriving DecidableEq, Repr

/-- Modelled from the spec: query UpdateKeysXMRCryptoDataById (package db is not under src):
replaces the two keys of the key row with the given id; each key stays unique in the table;
pgx.ErrNoRows when there is no such row. -/
def UpdateKeysXMRCryptoDataById (arg : UpdateKeysXMRCryptoDataByIdParams) (s : Store) :
    Except SqlErr (XmrCryptoDatum × Store) :=
  match s.xmrCryptoData.find? (fun r => decide (r.ID = arg.ID)) with
  | none => .error SqlErr.noRows
  | some r =>
    if s.xmrCryptoData.any (fun x => decide (x.ID ≠ arg.ID) &&
        (decide (x.PrivViewKey = arg.PrivViewKey) || decide (x.PubSpendKey = arg.PubSpendKey)))
    then .error SqlErr.uniqueViolation
    else
      .ok ({ r with PrivViewKey := arg.PrivViewKey, PubSpendKey := arg.PubSpendKey },
        { s with xmrCryptoData := s.xmrCryptoData.map (fun x =>
            if x.ID = arg.ID then
              { x with PrivViewKey := arg.PrivViewKey, PubSpendKey := arg.PubSpendKey }
            else x) })

/-- The grace window persist_cache_timeout of internal/processor/main.go (1 minute), in seconds. -/
def persist_cache_timeout : Int := 60

/-- Modelled from the spec: query ShiftExpiresAtForNonConfirmedInvoices (package db is not under
src): shifts expires-at of every non-confirmed invoice forward by the grace window and returns
the shifted rows. -/
def ShiftExpiresAtForNonConfirmedInvoices (s : Store) : Except SqlErr (List Invoice × Store) :=
  let shift : Invoice → Invoice := fun i =>
    if i.Status = InvoiceStatusTypeCONFIRMED then i
    else { i with ExpiresAt := i.ExpiresAt + persist_cache_timeout }
  .ok (((s.invoices.filter (fun i => decide (i.Status ≠ InvoiceStatusTypeCONFIRMED))).map shift),
    { s with invoices := s.invoices.map shift })

/-- Modelled from the spec: query FindAllPendingInvoices (package db is not under src): all
non-terminal invoices, those with status PENDING or PENDING_MEMPOOL. -/
def FindAllPendingInvoices (s : Store) : Except SqlErr (List Invoice × Store) :=
  .ok (s.invoices.filter (fun i =>
    decide (i.Status = InvoiceStatusTypePENDING ∨ i.Status = InvoiceStatusTypePENDINGMEMPOOL)), s)

/-! ## Payment-processor facade (internal/processor/main.go)

The interface cryptoProcessor and its implementations are not under src; a processor is a record
of the four methods main.go calls. The processors act on a world σ (their in-memory indexes, the
store, the channels), passed explicitly. The field cryptoProcessors is a Go map: a range loop
visits each entry once, in an order the language leaves open, so the loops take the visiting order
as an argument and the properties are proved for every order. -/

/-- The error value unimplementedError. -/
def unimplementedError : String := "coin is either unimplemented or not set up"

/-- The request dto.NewInvoiceRequest, with the fields mapping_test.go builds. -/
structure NewInvoiceRequest where
  UserId : String
  Coin : DbCoinType
  Amount : Float
  Timeout : Nat
  Confirmations : Nat

/-- The interface cryptoProcessor, with the map key the processor is registered under. -/
structure CryptoProcessor (σ : Type) where
  coin : DbCoinType
  supportsCoin : DbCoinType → Bool
  handleInvoicePbReq : NewInvoiceRequest → σ → (Option Invoice × Option String) × σ
  handleInvoice : Invoice → σ → σ
  load : σ → Option String × σ

/-- What a call of HandleNewInvoice leaves: the returned pair, the world, and the calls of
handleInvoicePbReq it made (processor key and request), in order. -/
structure HandleNewInvoiceOutcome (σ : Type) where
  invoice : Option Invoice
  err : Option String
  world : σ
  calls : List (DbCoinType × NewInvoiceRequest)

/-- The method PaymentProcessor.HandleNewInvoice; order is the order in which the range loop visits
the processors. -/
def HandleNewInvoice {σ : Type} : List (CryptoProcessor σ) → NewInvoiceRequest → σ →
    HandleNewInvoiceOutcome σ
  | [], _, w => ⟨none, some unimplementedError, w, []⟩
  | cp :: rest, req, w =>
    if cp.supportsCoin req.Coin then
      let r := cp.handleInvoicePbReq req w
      ⟨r.1.1, r.1.2, r.2, [(cp.coin, req)]⟩
    else HandleNewInvoice rest req w

/-- The inner range loop of loadPersistedPendingInvoices for one invoice: the world afterwards and
the calls of handleInvoice made (processor key and invoice), in order. -/
def handleInvoiceAll {σ : Type} : List (CryptoProcessor σ) → Invoice → σ →
    σ × List (DbCoinType × Invoice)
  | [], _, w => (w, [])
  | cp :: rest, inv, w =>
    if cp.supportsCoin inv.Coin then
      let r := handleInvoiceAll rest inv (cp.handleInvoice inv w)
      (r.1, (cp.coin, inv) :: r.2)
    else handleInvoiceAll rest inv w

/-- The outer loop of loadPersistedPendingInvoices over the fetched invoices, from index i on;
order i is the order in which the inner range loop visits the processors for invoices[i]. -/
def handlePending {σ : Type} (order : Nat → List (CryptoProcessor σ)) :
    Nat → List Invoice → σ → σ × List (DbCoinType × Invoice)
  | _, [], w => (w, [])
  | i, inv :: rest, w =>
    let r1 := handleInvoiceAll (order i) inv w
    let r2 := handlePending order (i + 1) rest r1.1
    (r2.1, r1.2 ++ r2.2)

/-- What a call of loadPersistedPendingInvoices leaves: the returned error, the committed store,
the world, the queries issued, and the calls of handleInvoice made. -/
structure LoadOutcome (σ : Type) where
  err : Option SqlErr
  db : Store
  world : σ
  queries : List Query
  handled : List (DbCoinType × Invoice)

/-- The method PaymentProcessor.loadPersistedPendingInvoices. -/
def loadPersistedPendingInvoices {σ : Type} (env : Env) (order : Nat → List (CryptoProcessor σ))
    (db : Store) (w : σ) : LoadOutcome σ :=
  if env.beginFails then ⟨some SqlErr.connection, db, w, [], []⟩
  else
    let tx0 : Tx := ⟨db, []⟩
    match tx0.run env Query.ShiftExpiresAtForNonConfirmedInvoices
        ShiftExpiresAtForNonConfirmedInvoices with
    | (.error e, tx1) => ⟨some e, db, w, tx1.log, []⟩
    | (.ok _, tx1) =>
      match tx1.run env Query.FindAllPendingInvoices FindAllPendingInvoices with
      | (.error e, tx2) => ⟨some e, db, w, tx2.log, []⟩
      | (.ok invoices, tx2) =>
        let r := handlePending order 0 invoices w
        ⟨none, tx2.commit env db, r.1, tx2.log, r.2⟩

/-! ## User handlers (internal/handler/v1/user.go) -/

/-- The gRPC status codes the handlers and the spec (§7) name. -/
inductive Code where
  | OK
  | InvalidArgument
  | NotFound
  | AlreadyExists
  | Internal
  | Unimplemented
  | Unavailable
deriving DecidableEq, Repr

/-- A gRPC status error: status.Error(code, msg). -/
structure Status where
  code : Code
  msg : String
deriving DecidableEq, Repr

def DefaultFailedSqlTxInitMsg : String := "An error occurred while initiating an SQL transaction."

def DefaultFailedSqlQueryMsg : String := "An error occurred while executing a SQL query."

def InvalidUserIdInvalidUUIDMsg : String := "Invalid userId (invalid UUID)."

def InvalidUserIdUserExistsMsg : String := "Invalid userId (user exists)."

/-- Message of the user-not-found status; its text in the source is not under src. -/
def UserNotFoundMsg : String := "user not found"

/-- The message pb_v1.RegisterUserRequest: the optional client-supplied user id. -/
structure RegisterUserRequest where
  UserId : Option String
deriving DecidableEq, Repr

/-- The message pb_v1.RegisterUserResponse. -/
structure RegisterUserResponse where
  UserId : String
deriving DecidableEq, Repr

/-- The message pb_v1.XmrKeysUpdateRequest. -/
structure XmrKeysUpdateRequest where
  PrivViewKey : String
  PubSpendKey : String
deriving DecidableEq, Repr

/-- The message pb_v1.UpdateCryptoKeysRequest, with the fields UpdateCryptoKeys reads. -/
structure UpdateCryptoKeysRequest where
  UserId : String
  XmrReq : Option XmrKeysUpdateRequest
deriving DecidableEq, Repr

/-- The message pb_v1.UpdateCryptoKeysResponse (empty). -/
structure UpdateCryptoKeysResponse where
deriving DecidableEq, Repr

/-- What a handler call leaves: the response or the status error, the committed store after the
call, and the queries issued in its transaction. -/
structure Outcome (α : Type) where
  result : Except Status α
  db : Store
  queries : List Query

/-- The method UserGrpc.createUser. -/
def createUser (env : Env) (inp : RegisterUserRequest) (tx : Tx) : Except Status PgUUID × Tx :=
  match inp.UserId with
  | none =>
    match tx.run env Query.CreateUser (CreateUser env) with
    | (.error _, tx1) => (.error ⟨Code.Internal, DefaultFailedSqlQueryMsg⟩, tx1)
    | (.ok userId, tx1) => (.ok userId, tx1)
  | some s =>
    match env.StringToPgUUID s with
    | none => (.error ⟨Code.InvalidArgument, InvalidUserIdInvalidUUIDMsg⟩, tx)
    | some userIdReq =>
      match tx.run env Query.CreateUserWithId (CreateUserWithId userIdReq) with
      | (.error _, tx1) => (.error ⟨Code.Internal, DefaultFailedSqlQueryMsg⟩, tx1)
      | (.ok userId, tx1) => (.ok userId, tx1)

/-- The method UserGrpc.RegisterUser. Every return before tx.Commit leaves the committed store as
it was (the deferred tx.Rollback). -/
def RegisterUser (env : Env) (inp : RegisterUserRequest) (db : Store) :
    Outcome RegisterUserResponse :=
  if env.beginFails then ⟨.error ⟨Code.Internal, DefaultFailedSqlTxInitMsg⟩, db, []⟩
  else
    match createUser env inp ⟨db, []⟩ with
    | (.error st, tx1) => ⟨.error st, db, tx1.log⟩
    | (.ok userId, tx1) =>
      match tx1.run env Query.CreateCryptoData (CreateCryptoData { UserID := userId }) with
      | (.error _, tx2) => ⟨.error ⟨Code.Internal, DefaultFailedSqlQueryMsg⟩, db, tx2.log⟩
      | (.ok _, tx2) => ⟨.ok ⟨env.PgUUIDToString userId⟩, tx2.commit env db, tx2.log⟩

/-- Modelled from the spec: helper checkIfUserExistsUUID of the handler package (not under src):
Internal when the lookup fails, NotFound when the user is absent (§7), nil otherwise. -/
def checkIfUserExistsUUID (env : Env) (userId : PgUUID) (tx : Tx) : Option Status × Tx :=
  match tx.run env Query.UserExistsById (UserExistsById userId) with
  | (.error _, tx1) => (some ⟨Code.Internal, DefaultFailedSqlQueryMsg⟩, tx1)
  | (.ok true, tx1) => (none, tx1)
  | (.ok false, tx1) => (some ⟨Code.NotFound, UserNotFoundMsg⟩, tx1)

/-- The method UserGrpc.handleXmrCryptoDataUpdate; none is the nil error. -/
def handleXmrCryptoDataUpdate (env : Env) (inp : XmrKeysUpdateRequest) (cryptData : CryptoDatum)
    (tx : Tx) : Option Status × Tx :=
  if !env.NewPrivateKey inp.PrivViewKey then
    (some ⟨Code.InvalidArgument, "Invalid XMR private view key."⟩, tx)
  else if !env.NewPublicKey inp.PubSpendKey then
    (some ⟨Code.InvalidArgument, "Invalid XMR public spend key."⟩, tx)
  else
    match tx.run env Query.DeleteAllCryptoAddressByUserIdAndCoin
        (DeleteAllCryptoAddressByUserIdAndCoin ⟨CoinTypeXMR, cryptData.UserID⟩) with
    | (.error _, tx1) => (some ⟨Code.Internal, DefaultFailedSqlQueryMsg⟩, tx1)
    | (.ok _, tx1) =>
      if !cryptData.XmrID.Valid then
        match tx1.run env Query.CreateXMRCryptoData
            (CreateXMRCryptoData env ⟨inp.PrivViewKey, inp.PubSpendKey⟩) with
        | (.error _, tx2) => (some ⟨Code.Internal, DefaultFailedSqlQueryMsg⟩, tx2)
        | (.ok xmrData, tx2) =>
          match tx2.run env Query.SetXMRCryptoDataByUserId
              (SetXMRCryptoDataByUserId ⟨cryptData.UserID, xmrData.ID⟩) with
          | (.error _, tx3) => (some ⟨Code.Internal, DefaultFailedSqlQueryMsg⟩, tx3)
          | (.ok _, tx3) => (none, tx3)
      else
        match tx1.run env Query.UpdateKeysXMRCryptoDataById
            (UpdateKeysXMRCryptoDataById ⟨cryptData.XmrID, inp.PrivViewKey, inp.PubSpendKey⟩) with
        | (.error _, tx2) => (some ⟨Code.Internal, DefaultFailedSqlQueryMsg⟩, tx2)
        | (.ok _, tx2) => (none, tx2)

/-- The method UserGrpc.UpdateCryptoKeys. -/
def UpdateCryptoKeys (env : Env) (inp : UpdateCryptoKeysRequest) (db : Store) :
    Outcome UpdateCryptoKeysResponse :=
  if env.beginFails then ⟨.error ⟨Code.Internal, DefaultFailedSqlTxInitMsg⟩, db, []⟩
  else
    match env.StringToPgUUID inp.UserId with
    | none => ⟨.error ⟨Code.InvalidArgument, InvalidUserIdInvalidUUIDMsg⟩, db, []⟩
    | some userId =>
      match checkIfUserExistsUUID env userId ⟨db, []⟩ with
      | (some st, tx1) => ⟨.error st, db, tx1.log⟩
      | (none, tx1) =>
        match tx1.run env Query.FindCryptoDataByUserId (FindCryptoDataByUserId userId) with
        | (.error _, tx2) => ⟨.error ⟨Code.Internal, DefaultFailedSqlQueryMsg⟩, db, tx2.log⟩
        | (.ok cryptData, tx2) =>
          match inp.XmrReq with
          | some xmrReq =>
            match handleXmrCryptoDataUpdate env xmrReq cryptData tx2 with
            | (some st, tx3) => ⟨.error st, db, tx3.log⟩
            | (none, tx3) => ⟨.ok ⟨⟩, tx3.commit env db, tx3.log⟩
          | none => ⟨.ok ⟨⟩, tx2.commit env db, tx2.log⟩

/-! ## Fixtures

A concrete environment, processor and stores, on which the properties are evaluated. -/

/-- Value of a hexadecimal digit. -/
def hexVal (c : Char) : Option Nat :=
  if '0' ≤ c ∧ c ≤ '9' then some (c.toNat - 48)
  else if 'a' ≤ c ∧ c ≤ 'f' then some (c.toNat - 87)
  else if 'A' ≤ c ∧ c ≤ 'F' then some (c.toNat - 55)
  else none

/-- Decode pairs of hexadecimal digits into bytes. -/
def hexBytes : List Char → Option (List Nat)
  | [] => some []
  | [_] => none
  | a :: b :: rest =>
    match hexVal a, hexVal b, hexBytes rest with
    | some x, some y, some r => some ((16 * x + y) :: r)
    | _, _, _ => none

/-- A UUID parser for the fixtures: 36 characters, dashes at positions 8, 13, 18 and 23, and 32
hexadecimal digits. -/
def parseUUID (s : String) : Option PgUUID :=
  let cs := s.toList
  if cs.length = 36 ∧ cs.get? 8 = some '-' ∧ cs.get? 13 = some '-' ∧ cs.get? 18 = some '-' ∧
      cs.get? 23 = some '-' then
    match hexBytes (cs.filter (fun c => c != '-')) with
    | some bs => if bs.length = 16 then some ⟨bs, true⟩ else none
    | none => none
  else none

/-- The hexadecimal digit of a value below 16. -/
def hexDigit (n : Nat) : Char :=
  if n < 10 then Char.ofNat (48 + n) else Char.ofNat (87 + n)

/-- A UUID printer for the fixtures: lower-case hexadecimal with dashes. -/
def formatUUID (u : PgUUID) : String :=
  let hex : List Char := u.Bytes.flatMap (fun b => [hexDigit (b / 16), hexDigit (b % 16)])
  String.mk (hex.take 8 ++ ['-'] ++ (hex.drop 8).take 4 ++ ['-'] ++ (hex.drop 12).take 4 ++ ['-']
    ++ (hex.drop 16).take 4 ++ ['-'] ++ hex.drop 20)

/-- The environment in which nothing fails: the transaction begins and commits, no query is hit
by a storage failure, keys of 64 characters are accepted, and generated ids count the rows. -/
def env0 : Env where
  beginFails := false
  commitFails := false
  fault := fun _ => false
  StringToPgUUID := parseUUID
  PgUUIDToString := formatUUID
  newUUID := fun s => PgUUID.ofByte (s.users.length + s.xmrCryptoData.length + 100)
  NewPrivateKey := fun k => decide (k.length = 64)
  NewPublicKey := fun k => decide (k.length = 64)

/-- The string form of PgUUID.ofByte 1. -/
def user1Str : String := "00000000-0000-0000-0000-000000000001"

/-- A processor for one coin over a world that records the invoices it watches. -/
def sampleProcessor (coin : DbCoinType) : CryptoProcessor (List Invoice) where
  coin := coin
  supportsCoin := fun c => decide (c = coin)
  handleInvoicePbReq := fun req w =>
    let inv : Invoice :=
      ⟨PgUUID.ofByte (w.length + 50), "addr", req.Coin, InvoiceStatusTypePENDING, 0, req.Timeout,
        PgUUID.ofByte 1⟩
    ((some inv, none), inv :: w)
  handleInvoice := fun inv w => inv :: w
  load := fun w => (none, w)

/-- A request for an invoice in the given coin. -/
def sampleRequest (coin : DbCoinType) : NewInvoiceRequest :=
  ⟨user1Str, coin, 0.5, 3600, 1⟩

/-- A store with the user PgUUID.ofByte 1, its crypto-data row without keys, one XMR address and
one LTC address of that user, and the pending LTC invoice ltcInvoice. -/
def sampleStore : Store :=
  { Store.empty with
    users := [PgUUID.ofByte 1]
    cryptoData :=
      [⟨PgUUID.ofByte 1, PgUUID.null, PgUUID.null, PgUUID.null, PgUUID.null, PgUUID.null⟩]
    cryptoAddresses :=
      [⟨"xmr-address", CoinTypeXMR, false, PgUUID.ofByte 1⟩, ⟨"A", CoinTypeLTC, true, PgUUID.ofByte 1⟩]
    invoices := [ltcInvoice] }

/-- A well-formed pair of XMR keys for env0 (64 characters each). -/
def sampleXmrKeys : XmrKeysUpdateRequest :=
  ⟨String.mk (List.replicate 64 'a'), String.mk (List.replicate 64 'b')⟩

/-- The environment env0, except that no transaction can be begun. -/
def envNoBegin : Env := { env0 with beginFails := true }

/-- The environment env0, except that the query CreateCryptoData is hit by a storage failure. -/
def envCryptoDataFault : Env :=
  { env0 with fault := fun q => decide (q = Query.CreateCryptoData) }

/-! ## Invoice status mapping (internal/util/mapping.go) -/

/-- Wire invoice status pb_v1.InvoiceStatusType; its declaration is not under src, the four
values are the ones mapping_test.go names. -/
inductive PbInvoiceStatusType where
  | PENDING
  | PENDING_MEMPOOL
  | EXPIRED
  | CONFIRMED
deriving DecidableEq, Repr

/-- Table dbInvoiceStatuses of internal/util/mapping_test.go. -/
def dbInvoiceStatuses : List DbInvoiceStatusType :=
  [InvoiceStatusTypePENDING, InvoiceStatusTypePENDINGMEMPOOL, InvoiceStatusTypeEXPIRED,
   InvoiceStatusTypeCONFIRMED]

/-- Table pbInvoiceStatuses of internal/util/mapping_test.go. -/
def pbInvoiceStatuses : List PbInvoiceStatusType :=
  [PbInvoiceStatusType.PENDING, PbInvoiceStatusType.PENDING_MEMPOOL, PbInvoiceStatusType.EXPIRED,
   PbInvoiceStatusType.CONFIRMED]

/-- Modelled from the spec: DbInvoiceStatusToPbInvoiceStatus lives in internal/util/mapping.go,
which is not under src. Each of the four storage statuses (§3) maps to the wire status of the
same name; any other string fails with invalidDbStatusTypeErr. -/
def DbInvoiceStatusToPbInvoiceStatus (status : DbInvoiceStatusType) :
    Except MapErr PbInvoiceStatusType :=
  if status = InvoiceStatusTypePENDING then .ok PbInvoiceStatusType.PENDING
  else if status = InvoiceStatusTypePENDINGMEMPOOL then .ok PbInvoiceStatusType.PENDING_MEMPOOL
  else if status = InvoiceStatusTypeEXPIRED then .ok PbInvoiceStatusType.EXPIRED
  else if status = InvoiceStatusTypeCONFIRMED then .ok PbInvoiceStatusType.CONFIRMED
  else .error MapErr.invalidDbStatusTypeErr

/-! ## UUID conversion (internal/util/mapping.go) -/

/-- Lower-case hexadecimal encoding of a byte sequence, two digits per byte. -/
def hexOfBytes (bs : List Nat) : List Char :=
  bs.flatMap (fun b => [hexDigit (b / 16), hexDigit (b % 16)])

/-- The canonical lower-case string form of a UUID with the given 16 bytes: the groups of 4, 2,
2, 2 and 6 bytes in hexadecimal, joined by dashes (what uuid.NewString and UUID.String produce in
mapping_test.go). -/
def uuidString (bytes : List Nat) : String :=
  String.mk (hexOfBytes (bytes.take 4) ++ '-' :: (hexOfBytes ((bytes.drop 4).take 2) ++
    '-' :: (hexOfBytes ((bytes.drop 6).take 2) ++ '-' :: (hexOfBytes ((bytes.drop 8).take 2) ++
    '-' :: hexOfBytes (bytes.drop 10)))))

/-- Modelled from the spec: StringToPgUUID lives in internal/util/mapping.go, which is not under
src. It scans the string into a pgtype.UUID: a 36-character string with dashes after 8, 12, 16 and
20 hexadecimal digits yields the 16 bytes with Valid = true; anything else is an error
(TestStringToPgUUID: a UUID string without its first character fails). -/
def StringToPgUUID (s : String) : Except String PgUUID :=
  match parseUUID s with
  | some u => .ok u
  | none => .error "cannot parse UUID"

/-- Modelled from the spec: PgUUIDToString lives in internal/util/mapping.go, which is not under
src. It prints the 16 bytes in lower-case hexadecimal with dashes (TestPgUUIDToString). -/
def PgUUIDToString (u : PgUUID) : String := formatUUID u

/-- The environment env0, except that tx.Commit fails. -/
def envCommitFails : Env := { env0 with commitFails := true }

/-! ## Address allocation (internal/processor/ltc.go, internal/processor/bnb.go)

The handlers get their query handle q from the caller (the base processor, not under src), so
they run on the transaction they are given and return it. Key parsing, child derivation and
address encoding are done by external libraries (hdkeychain, ltcutil, go-ethereum) and by the
helper deriveNextETHBasedECPubKeyHelper (not under src): they are fields of a record the handlers
take as an argument. -/

/-- Bump the cursor of the extended-key row with the given id (primary key): the updated row and
the updated table. -/
def bumpMasterKeyRow (id : PgUUID) :
    List MasterKeyDatum → Except SqlErr (MasterKeyDatum × List MasterKeyDatum)
  | [] => .error SqlErr.noRows
  | r :: rs =>
    if r.ID = id then
      match incrementedIndices r.LastMajorIndex r.LastMinorIndex with
      | .ok (maj, min) =>
        let r' : MasterKeyDatum := { r with LastMajorIndex := maj, LastMinorIndex := min }
        .ok (r', r' :: rs)
      | .error e => .error e
    else
      match bumpMasterKeyRow id rs with
      | .ok (r', rs') => .ok (r', r :: rs')
      | .error e => .error e

/-- Modelled from the spec: the query find-keys-and-incremented-indices for LTC (package db is not
under src): atomically reads and bumps the cursor of the key row and returns the row with the
bumped cursor. -/
def FindKeysAndIncrementedIndicesLTCCryptoDataById (id : PgUUID) (s : Store) :
    Except SqlErr (MasterKeyDatum × Store) :=
  match bumpMasterKeyRow id s.ltcCryptoData with
  | .ok (r, rows) => .ok (r, { s with ltcCryptoData := rows })
  | .error e => .error e

/-- Modelled from the spec: the query find-keys-and-incremented-indices for BNB (package db is not
under src). -/
def FindKeysAndIncrementedIndicesBNBCryptoDataById (id : PgUUID) (s : Store) :
    Except SqlErr (MasterKeyDatum × Store) :=
  match bumpMasterKeyRow id s.bnbCryptoData with
  | .ok (r, rows) => .ok (r, { s with bnbCryptoData := rows })
  | .error e => .error e

/-- Parameters of CreateCryptoAddress (db.CreateCryptoAddressParams). -/
structure CreateCryptoAddressParams where
  Address : String
  Coin : DbCoinType
  IsOccupied : Bool
  UserID : PgUUID
deriving DecidableEq, Repr

/-- Modelled from the spec: query CreateCryptoAddress (package db is not under src): inserts the
address row and returns it; the owning user must exist and the address string is unique within
its chain (§3). -/
def CreateCryptoAddress (arg : CreateCryptoAddressParams) (s : Store) :
    Except SqlErr (CryptoAddress × Store) :=
  if arg.UserID ∉ s.users then .error SqlErr.foreignKeyViolation
  else if s.cryptoAddresses.any (fun a => decide (a.Address = arg.Address ∧ a.Coin = arg.Coin))
  then .error SqlErr.uniqueViolation
  else
    let row : CryptoAddress := ⟨arg.Address, arg.Coin, arg.IsOccupied, arg.UserID⟩
    .ok (row, { s with cryptoAddresses := s.cryptoAddresses ++ [row] })

/-- The type listener.NetworkType (not under src): the four LTC networks ltc.go names, and any
other value of the type. -/
inductive NetworkType where
  | MainnetLTC
  | TestnetLTC
  | SignetLTC
  | RegtestLTC
  | other (tag : Nat)
deriving DecidableEq, Repr

/-- The network parameters of ltcd's chaincfg that ltc.go selects from. -/
inductive ChainParams where
  | MainNetParams
  | TestNet4Params
  | SigNetParams
  | RegressionNetParams
deriving DecidableEq, Repr

/-- The errors the address handlers return: util.InvalidNetworkTypeErr, the error of a query, or
the error of a key-derivation library call. -/
inductive HandlerErr where
  | InvalidNetworkTypeErr
  | sql (e : SqlErr)
  | keychain
deriving DecidableEq, Repr

/-- The external key-derivation functions; none is their error. -/
structure Keychain where
  /-- Extended keys of hdkeychain. -/
  ExtendedKey : Type
  /-- Elliptic-curve public keys. -/
  PublicKey : Type
  /-- The function hdkeychain.NewKeyFromString. -/
  NewKeyFromString : String → Option ExtendedKey
  /-- The method ExtendedKey.Derive with its uint32 child index. -/
  Derive : ExtendedKey → Nat → Option ExtendedKey
  /-- The method ExtendedKey.ECPubKey. -/
  ECPubKey : ExtendedKey → Option PublicKey
  /-- The calls ltcutil.Hash160, ltcutil.NewAddressWitnessPubKeyHash and EncodeAddress. -/
  witnessPubKeyHashAddress : PublicKey → ChainParams → Option String
  /-- The helper deriveNextETHBasedECPubKeyHelper: the indices major, minor and the master key. -/
  deriveNextETHBasedECPubKeyHelper : Nat → Nat → String → Option PublicKey
  /-- The calls crypto.PubkeyToAddress and Hex. -/
  pubkeyToAddressHex : PublicKey → String

/-- The Go conversion uint32(v) of an int32 value. -/
def uint32 (v : Int) : Nat := (v % 4294967296).toNat

/-- The struct generateNextAddressHandlerData, with the fields the handlers read. -/
structure generateNextAddressHandlerData where
  userId : PgUUID
  network : NetworkType
deriving DecidableEq, Repr

/-- The network switch of generateNextLTCAddressHandler; none is util.InvalidNetworkTypeErr. -/
def ltcChainParams : NetworkType → Option ChainParams
  | NetworkType.MainnetLTC => some ChainParams.MainNetParams
  | NetworkType.TestnetLTC => some ChainParams.TestNet4Params
  | NetworkType.SignetLTC => some ChainParams.SigNetParams
  | NetworkType.RegtestLTC => some ChainParams.RegressionNetParams
  | NetworkType.other _ => none

/-- The function generateNextLTCAddressHandler, on the transaction behind q. -/
def generateNextLTCAddressHandler (env : Env) (kc : Keychain)
    (data : generateNextAddressHandlerData) (tx : Tx) : Except HandlerErr CryptoAddress × Tx :=
  match ltcChainParams data.network with
  | none => (.error HandlerErr.InvalidNetworkTypeErr, tx)
  | some net =>
    match tx.run env Query.FindCryptoDataByUserId (FindCryptoDataByUserId data.userId) with
    | (.error e, tx1) => (.error (HandlerErr.sql e), tx1)
    | (.ok cd, tx1) =>
      match tx1.run env Query.FindKeysAndIncrementedIndicesLTCCryptoDataById
          (FindKeysAndIncrementedIndicesLTCCryptoDataById cd.LtcID) with
      | (.error e, tx2) => (.error (HandlerErr.sql e), tx2)
      | (.ok keysAndIndices, tx2) =>
        match kc.NewKeyFromString keysAndIndices.MasterPubKey with
        | none => (.error HandlerErr.keychain, tx2)
        | some mPub =>
          match kc.Derive mPub (uint32 keysAndIndices.LastMajorIndex) with
          | none => (.error HandlerErr.keychain, tx2)
          | some majMPub =>
            match kc.Derive majMPub (uint32 keysAndIndices.LastMinorIndex) with
            | none => (.error HandlerErr.keychain, tx2)
            | some minMPub =>
              match kc.ECPubKey minMPub with
              | none => (.error HandlerErr.keychain, tx2)
              | some pubKey =>
                match kc.witnessPubKeyHashAddress pubKey net with
                | none => (.error HandlerErr.keychain, tx2)
                | some newAddr =>
                  match tx2.run env Query.CreateCryptoAddress
                      (CreateCryptoAddress ⟨newAddr, CoinTypeLTC, true, data.userId⟩) with
                  | (.error e, tx3) => (.error (HandlerErr.sql e), tx3)
                  | (.ok addr, tx3) => (.ok addr, tx3)

/-- The function generateNextBNBAddressHandler, on the transaction behind q. -/
def generateNextBNBAddressHandler (env : Env) (kc : Keychain)
    (data : generateNextAddressHandlerData) (tx : Tx) : Except HandlerErr CryptoAddress × Tx :=
  match tx.run env Query.FindCryptoDataByUserId (FindCryptoDataByUserId data.userId) with
  | (.error e, tx1) => (.error (HandlerErr.sql e), tx1)
  | (.ok cd, tx1) =>
    match tx1.run env Query.FindKeysAndIncrementedIndicesBNBCryptoDataById
        (FindKeysAndIncrementedIndicesBNBCryptoDataById cd.BnbID) with
    | (.error e, tx2) => (.error (HandlerErr.sql e), tx2)
    | (.ok keysAndIndices, tx2) =>
      match kc.deriveNextETHBasedECPubKeyHelper (uint32 keysAndIndices.LastMajorIndex)
          (uint32 keysAndIndices.LastMinorIndex) keysAndIndices.MasterPubKey with
      | none => (.error HandlerErr.keychain, tx2)
      | some pubKey =>
        match tx2.run env Query.CreateCryptoAddress
            (CreateCryptoAddress ⟨kc.pubkeyToAddressHex pubKey, CoinTypeBNB, true, data.userId⟩)
          with
        | (.error e, tx3) => (.error (HandlerErr.sql e), tx3)
        | (.ok addr, tx3) => (.ok addr, tx3)

/-- One step of the derivation cursor (§8): the minor index increments per address; when it has
reached INT32_MAX the major index rolls and the minor index restarts at 0. -/
def nextCursor (major minor : Int) : Int × Int :=
  if minor < INT32_MAX then (major, minor + 1) else (major + 1, 0)

/-- The derivation cursor of the key record with the given id was advanced exactly once between
two states of a key table, and nothing else in the table changed: the table afterwards is the
table before in which the record with that id (the first one, the id being the primary key) has
its cursor one step further. -/
def cursorAdvancedOnce (id : PgUUID) (before after : List MasterKeyDatum) : Prop :=
  ∃ pre r post, before = pre ++ r :: post ∧ (∀ x ∈ pre, x.ID ≠ id) ∧ r.ID = id ∧
    after = pre ++
      { r with
        LastMajorIndex := (nextCursor r.LastMajorIndex r.LastMinorIndex).1
        LastMinorIndex := (nextCursor r.LastMajorIndex r.LastMinorIndex).2 } :: post

/-- The derivation cursor of the key record of a user was advanced exactly once: the user has a
crypto-data row in the store s, the row find-crypto-data-by-user returns, and the cursor of the
key record that row references through keyId (LtcID for LTC, BnbID for BNB) was advanced exactly
once between the two states of the chain's key table. -/
def userCursorAdvancedOnce (userId : PgUUID) (keyId : CryptoDatum → PgUUID) (s : Store)
    (before after : List MasterKeyDatum) : Prop :=
  ∃ cd, cd ∈ s.cryptoData ∧ cd.UserID = userId ∧
    FindCryptoDataByUserId userId s = .ok (cd, s) ∧
    cursorAdvancedOnce (keyId cd) before after

/-- A keychain for the examples: extended keys and public keys are strings, a master key is
accepted when it starts with the letter L or x, a child is derived by appending the index to the
path (hardened indices, from 2^31 on, cannot be derived from a public key), and an address is the
network prefix followed by the key path. -/
def kc0 : Keychain where
  ExtendedKey := List Char
  PublicKey := List Char
  NewKeyFromString := fun s =>
    if s.toList.head? = some 'L' ∨ s.toList.head? = some 'x' then some s.toList else none
  Derive := fun k i =>
    if i < 2147483648 then some (k ++ '/' :: List.replicate i 'i') else none
  ECPubKey := fun k => some k
  witnessPubKeyHashAddress := fun k net =>
    match net with
    | ChainParams.MainNetParams => some (String.mk ("ltc1".toList ++ k))
    | ChainParams.TestNet4Params => some (String.mk ("tltc1".toList ++ k))
    | ChainParams.SigNetParams => some (String.mk ("sltc1".toList ++ k))
    | ChainParams.RegressionNetParams => some (String.mk ("rltc1".toList ++ k))
  deriveNextETHBasedECPubKeyHelper := fun major minor key =>
    if (key.toList.head? = some 'L' ∨ key.toList.head? = some 'x') ∧ major < 2147483648 ∧
        minor < 2147483648 then
      some (key.toList ++ '/' :: List.replicate major 'i' ++ '/' :: List.replicate minor 'i')
    else none
  pubkeyToAddressHex := fun k => String.mk ("0x".toList ++ k)

/-- A store with the user PgUUID.ofByte 1, whose crypto-data row references the LTC key row 7 and
the BNB key row 8, both with the cursor (0, 0), and no address. -/
def keyStore : Store :=
  { Store.empty with
    users := [PgUUID.ofByte 1]
    cryptoData :=
      [⟨PgUUID.ofByte 1, PgUUID.null, PgUUID.null, PgUUID.ofByte 7, PgUUID.null, PgUUID.ofByte 8⟩]
    ltcCryptoData := [⟨PgUUID.ofByte 7, "Ltub", 0, 0⟩]
    bnbCryptoData := [⟨PgUUID.ofByte 8, "xpub", 0, 0⟩] }

/-- The store keyStore in which the LTC main-net address at the indices (0, 1) of the key Ltub
and the BNB address at (0, 1) of the key xpub are already registered (the same extended public
keys were used before). -/
def keyStoreTaken : Store :=
  { keyStore with
    cryptoAddresses :=
      [⟨"ltc1Ltub//i", CoinTypeLTC, false, PgUUID.ofByte 1⟩,
       ⟨"0xxpub//i", CoinTypeBNB, false, PgUUID.ofByte 1⟩] }

/-- A store with two users: user 2, registered first, whose crypto-data row references the LTC key
row 9 and the BNB key row 10, and user 1, whose row references the LTC key row 7 and the BNB key
row 8; every cursor is (0, 0). -/
def keyStoreTwoUsers : Store :=
  { Store.empty with
    users := [PgUUID.ofByte 2, PgUUID.ofByte 1]
    cryptoData :=
      [⟨PgUUID.ofByte 2, PgUUID.null, PgUUID.null, PgUUID.ofByte 9, PgUUID.null, PgUUID.ofByte 10⟩,
       ⟨PgUUID.ofByte 1, PgUUID.null, PgUUID.null, PgUUID.ofByte 7, PgUUID.null, PgUUID.ofByte 8⟩]
    ltcCryptoData := [⟨PgUUID.ofByte 9, "Ltub2", 0, 0⟩, ⟨PgUUID.ofByte 7, "Ltub", 0, 0⟩]
    bnbCryptoData := [⟨PgUUID.ofByte 10, "xpub2", 0, 0⟩, ⟨PgUUID.ofByte 8, "xpub", 0, 0⟩] }

/-- The store keyStore in which the LTC key record of user 1 holds a string that is not an
extended public key. -/
def keyStoreBadKey : Store :=
  { keyStore with ltcCryptoData := [⟨PgUUID.ofByte 7, "bad", 0, 0⟩] }

/-- The crypto-data row of user 1 in keyStoreTwoUsers, in keyStore and in keyStoreTaken. -/
def user1KeyCryptoData : CryptoDatum :=
  ⟨PgUUID.ofByte 1, PgUUID.null, PgUUID.null, PgUUID.ofByte 7, PgUUID.null, PgUUID.ofByte 8⟩

/-! ## Construction of the facade (NewPaymentProcessor, internal/processor/main.go) -/

/-- One daemon of dto.DaemonsConfig, with the fields the constructors read. -/
structure DaemonConfig where
  Url : String
  User : String
  Pass : String
deriving DecidableEq, Repr

/-- The configuration dto.DaemonsConfig. -/
structure DaemonsConfig where
  Xmr : DaemonConfig
  Btc : DaemonConfig
  Ltc : DaemonConfig
  Eth : DaemonConfig
  Bnb : DaemonConfig
deriving DecidableEq, Repr

/-- The five chains NewPaymentProcessor knows, in the order of its if blocks. -/
inductive Chain where
  | XMR
  | BTC
  | LTC
  | ETH
  | BNB
deriving DecidableEq, Repr

/-- The chains in the order of the if blocks of NewPaymentProcessor. -/
def allChains : List Chain := [Chain.XMR, Chain.BTC, Chain.LTC, Chain.ETH, Chain.BNB]

/-- The configuration entry of a chain. -/
def DaemonsConfig.of (c : DaemonsConfig) : Chain → DaemonConfig
  | Chain.XMR => c.Xmr
  | Chain.BTC => c.Btc
  | Chain.LTC => c.Ltc
  | Chain.ETH => c.Eth
  | Chain.BNB => c.Bnb

/-- The native coin of a chain. -/
def nativeCoin : Chain → DbCoinType
  | Chain.XMR => CoinTypeXMR
  | Chain.BTC => CoinTypeBTC
  | Chain.LTC => CoinTypeLTC
  | Chain.ETH => CoinTypeETH
  | Chain.BNB => CoinTypeBNB

/-- What the processor constructors take from outside the code under src: each field is the
outcome of connecting to the daemon of the chain and building the base processor
(newBaseCryptoProcessor and the daemon clients are not under src), an error or the processor
with its methods. -/
structure Constructors (σ : Type) where
  newXmrProcessor : DaemonsConfig → Except String (CryptoProcessor σ)
  newBtcProcessor : DaemonsConfig → Except String (CryptoProcessor σ)
  newLtcProcessor : DaemonsConfig → Except String (CryptoProcessor σ)
  newEthProcessor : DaemonsConfig → Except String (CryptoProcessor σ)
  newBnbProcessor : DaemonsConfig → Except String (CryptoProcessor σ)

/-- The outcome the record gives for the constructor of a chain. -/
def Constructors.outcome {σ : Type} (ctors : Constructors σ) :
    Chain → DaemonsConfig → Except String (CryptoProcessor σ)
  | Chain.XMR => ctors.newXmrProcessor
  | Chain.BTC => ctors.newBtcProcessor
  | Chain.LTC => ctors.newLtcProcessor
  | Chain.ETH => ctors.newEthProcessor
  | Chain.BNB => ctors.newBnbProcessor

/-- Modelled from the spec: the constructor of a chain (newXmrProcessor, newBtcProcessor and
newEthProcessor are not under src, and newLtcProcessor and newBnbProcessor end in
newBaseCryptoProcessor, which is not under src either). It returns the error of the outcome, or
the processor of the chain: one instance per configured chain (§4.3), whose coin, the key it is
registered under, is the native coin of its chain (§4.3.1). -/
def Constructors.of {σ : Type} (ctors : Constructors σ) (ch : Chain) (c : DaemonsConfig) :
    Except String (CryptoProcessor σ) :=
  match ctors.outcome ch c with
  | .error e => .error e
  | .ok p => .ok { p with coin := nativeCoin ch }

/-- The Go map assignment m[k] = v on a map kept as a list of entries: an entry with the same
key is replaced. -/
def mapInsert {σ : Type} (k : DbCoinType) (v : CryptoProcessor σ)
    (m : List (DbCoinType × CryptoProcessor σ)) : List (DbCoinType × CryptoProcessor σ) :=
  m.filter (fun e => !decide (e.1 = k)) ++ [(k, v)]

/-- The if blocks of NewPaymentProcessor for the given chains, in order: a chain with a
non-empty URL has its constructor called; an error is returned at once, a processor is stored
under its coin. -/
def buildProcessors {σ : Type} (ctors : Constructors σ) (c : DaemonsConfig) :
    List Chain → List (DbCoinType × CryptoProcessor σ) →
    Except String (List (DbCoinType × CryptoProcessor σ))
  | [], m => .ok m
  | ch :: rest, m =>
    if (c.of ch).Url ≠ "" then
      match ctors.of ch c with
      | .error e => .error e
      | .ok p => buildProcessors ctors c rest (mapInsert p.coin p m)
    else buildProcessors ctors c rest m

/-- The struct PaymentProcessor, with its processor map (channels, context and logger are left
out). -/
structure PaymentProcessor (σ : Type) where
  cryptoProcessors : List (DbCoinType × CryptoProcessor σ)

/-- The errors NewPaymentProcessor returns: of a constructor, of the reload of the pending
invoices, or of the load of a processor. -/
inductive InitErr where
  | ctor (e : String)
  | persisted (e : SqlErr)
  | processorLoad (e : String)
deriving DecidableEq, Repr

/-- The last loop of PaymentProcessor.load: load of each processor, stopping at the first error. -/
def loadAll {σ : Type} : List (CryptoProcessor σ) → σ → Option String × σ
  | [], w => (none, w)
  | v :: rest, w =>
    match v.load w with
    | (some e, w1) => (some e, w1)
    | (none, w1) => loadAll rest w1

/-- The method PaymentProcessor.load, after it has started the dispatcher goroutine: the reload
of the pending invoices, then the load of every processor. The arguments order and loadOrder give
the visiting orders of the range loops over the values of the processor map. -/
def PaymentProcessor.load {σ : Type} (env : Env)
    (order : List (CryptoProcessor σ) → Nat → List (CryptoProcessor σ))
    (loadOrder : List (CryptoProcessor σ) → List (CryptoProcessor σ))
    (pp : PaymentProcessor σ) (db : Store) (w : σ) : Option InitErr × Store × σ :=
  let procs := pp.cryptoProcessors.map (fun e => e.2)
  let r := loadPersistedPendingInvoices env (order procs) db w
  match r.err with
  | some e => (some (InitErr.persisted e), r.db, r.world)
  | none =>
    match loadAll (loadOrder procs) r.world with
    | (some e, w1) => (some (InitErr.processorLoad e), r.db, w1)
    | (none, w1) => (none, r.db, w1)

/-- What NewPaymentProcessor leaves: the facade or the error, the committed store and the world. -/
structure NewPaymentProcessorOutcome (σ : Type) where
  result : Except InitErr (PaymentProcessor σ)
  db : Store
  world : σ

/-- The function NewPaymentProcessor. -/
def NewPaymentProcessor {σ : Type} (env : Env) (ctors : Constructors σ)
    (order : List (CryptoProcessor σ) → Nat → List (CryptoProcessor σ))
    (loadOrder : List (CryptoProcessor σ) → List (CryptoProcessor σ))
    (c : DaemonsConfig) (db : Store) (w : σ) : NewPaymentProcessorOutcome σ :=
  match buildProcessors ctors c allChains [] with
  | .error e => ⟨.error (InitErr.ctor e), db, w⟩
  | .ok m =>
    let pp : PaymentProcessor σ := ⟨m⟩
    match pp.load env order loadOrder db w with
    | (some e, db1, w1) => ⟨.error e, db1, w1⟩
    | (none, db1, w1) => ⟨.ok pp, db1, w1⟩

/-- Constructors for the examples: the sample processor of each chain; the BTC daemon cannot be
reached. -/
def sampleConstructors : Constructors (List Invoice) where
  newXmrProcessor := fun _ => .ok (sampleProcessor CoinTypeXMR)
  newBtcProcessor := fun _ => .error "dial tcp: connection refused"
  newLtcProcessor := fun _ => .ok (sampleProcessor CoinTypeLTC)
  newEthProcessor := fun _ => .ok (sampleProcessor CoinTypeETH)
  newBnbProcessor := fun _ => .ok (sampleProcessor CoinTypeBNB)

/-- A configuration with the XMR and LTC daemons set and the other URLs empty. -/
def configXmrLtc : DaemonsConfig :=
  ⟨⟨"http://xmr:18081", "", ""⟩, ⟨"", "", ""⟩, ⟨"http://ltc:9332", "user", "pass"⟩, ⟨"", "", ""⟩,
    ⟨"", "", ""⟩⟩

/-- A configuration with the XMR and BTC daemons set. -/
def configXmrBtc : DaemonsConfig :=
  ⟨⟨"http://xmr:18081", "", ""⟩, ⟨"http://btc:8332", "user", "pass"⟩, ⟨"", "", ""⟩, ⟨"", "", ""⟩,
    ⟨"", "", ""⟩⟩

/-! ## Generated enum tables (internal/pb/v1/crypto.pb.go) -/

/-- The map CoinType_name, as the list of its entries in source order. -/
def CoinType_name : List (Int × String) :=
  [(0, "XMR"), (1, "BTC"), (2, "LTC"), (3, "ETH"),
   (4, "TON"), (5, "USDT_ERC20"), (6, "USDC_ERC20"), (7, "DAI_ERC20"),
   (8, "WBTC_ERC20"), (9, "UNI_ERC20"), (10, "LINK_ERC20"), (11, "AAVE_ERC20"),
   (12, "CRV_ERC20"), (13, "MATIC_ERC20"), (14, "SHIB_ERC20"), (15, "BNB_ERC20"),
   (16, "ATOM_ERC20"), (17, "ARB_ERC20"), (18, "BNB"), (19, "BSCUSD_BEP20"),
   (20, "USDC_BEP20"), (21, "DAI_BEP20"), (22, "BUSD_BEP20"), (23, "WBTC_BEP20"),
   (24, "BTCB_BEP20"), (25, "UNI_BEP20"), (26, "LINK_BEP20"), (27, "AAVE_BEP20"),
   (28, "MATIC_BEP20"), (29, "SHIB_BEP20"), (30, "ATOM_BEP20"), (31, "ARB_BEP20"),
   (32, "ETH_BEP20"), (33, "XRP_BEP20"), (34, "ADA_BEP20"), (35, "TRX_BEP20"),
   (36, "DOGE_BEP20"), (37, "LTC_BEP20"), (38, "BCH_BEP20"), (39, "TWT_BEP20"),
   (40, "AVAX_BEP20"), (41, "CAKE_BEP20")]

/-- The map CoinType_value, as the list of its entries in source order. -/
def CoinType_value : List (String × Int) :=
  [("XMR", 0), ("BTC", 1), ("LTC", 2), ("ETH", 3),
   ("TON", 4), ("USDT_ERC20", 5), ("USDC_ERC20", 6), ("DAI_ERC20", 7),
   ("WBTC_ERC20", 8), ("UNI_ERC20", 9), ("LINK_ERC20", 10), ("AAVE_ERC20", 11),
   ("CRV_ERC20", 12), ("MATIC_ERC20", 13), ("SHIB_ERC20", 14), ("BNB_ERC20", 15),
   ("ATOM_ERC20", 16), ("ARB_ERC20", 17), ("BNB", 18), ("BSCUSD_BEP20", 19),
   ("USDC_BEP20", 20), ("DAI_BEP20", 21), ("BUSD_BEP20", 22), ("WBTC_BEP20", 23),
   ("BTCB_BEP20", 24), ("UNI_BEP20", 25), ("LINK_BEP20", 26), ("AAVE_BEP20", 27),
   ("MATIC_BEP20", 28), ("SHIB_BEP20", 29), ("ATOM_BEP20", 30), ("ARB_BEP20", 31),
   ("ETH_BEP20", 32), ("XRP_BEP20", 33), ("ADA_BEP20", 34), ("TRX_BEP20", 35),
   ("DOGE_BEP20", 36), ("LTC_BEP20", 37), ("BCH_BEP20", 38), ("TWT_BEP20", 39),
   ("AVAX_BEP20", 40), ("CAKE_BEP20", 41)]

/-- The declared CoinType constants, in the order of the const block. -/
def coinTypeConstants : List PbCoinType :=
  [CoinType_XMR, CoinType_BTC, CoinType_LTC, CoinType_ETH,
   CoinType_TON, CoinType_USDT_ERC20, CoinType_USDC_ERC20, CoinType_DAI_ERC20,
   CoinType_WBTC_ERC20, CoinType_UNI_ERC20, CoinType_LINK_ERC20, CoinType_AAVE_ERC20,
   CoinType_CRV_ERC20, CoinType_MATIC_ERC20, CoinType_SHIB_ERC20, CoinType_BNB_ERC20,
   CoinType_ATOM_ERC20, CoinType_ARB_ERC20, CoinType_BNB, CoinType_BSCUSD_BEP20,
   CoinType_USDC_BEP20, CoinType_DAI_BEP20, CoinType_BUSD_BEP20, CoinType_WBTC_BEP20,
   CoinType_BTCB_BEP20, CoinType_UNI_BEP20, CoinType_LINK_BEP20, CoinType_AAVE_BEP20,
   CoinType_MATIC_BEP20, CoinType_SHIB_BEP20, CoinType_ATOM_BEP20, CoinType_ARB_BEP20,
   CoinType_ETH_BEP20, CoinType_XRP_BEP20, CoinType_ADA_BEP20, CoinType_TRX_BEP20,
   CoinType_DOGE_BEP20, CoinType_LTC_BEP20, CoinType_BCH_BEP20, CoinType_TWT_BEP20,
   CoinType_AVAX_BEP20, CoinType_CAKE_BEP20]

/-- The environment env0, except that the expiry-shift query is hit by a storage failure. -/
def envShiftFault : Env :=
  { env0 with fault := fun q => decide (q = Query.ShiftExpiresAtForNonConfirmedInvoices) }

/-- The environment env0, except that the pending-invoice query is hit by a storage failure. -/
def envFetchFault : Env :=
  { env0 with fault := fun q => decide (q = Query.FindAllPendingInvoices) }

/-- The crypto-data row of user 1 in sampleStore: no key is registered. -/
def user1CryptoData : CryptoDatum :=
  ⟨PgUUID.ofByte 1, PgUUID.null, PgUUID.null, PgUUID.null, PgUUID.null, PgUUID.null⟩

/-- The crypto-data row of user 1 in xmrKeyStore: it references the XMR key row 5. -/
def user1CryptoDataXmr : CryptoDatum :=
  ⟨PgUUID.ofByte 1, PgUUID.ofByte 5, PgUUID.null, PgUUID.null, PgUUID.null, PgUUID.null⟩

/-- A store in which user 1 has registered XMR keys before: the key row 5 with the cursor (0, 3). -/
def xmrKeyStore : Store :=
  { Store.empty with
    users := [PgUUID.ofByte 1]
    cryptoData := [user1CryptoDataXmr]
    xmrCryptoData := [⟨PgUUID.ofByte 5, "old-priv", "old-pub", 0, 3⟩] }

/-! ## Typed concurrent map (internal/util/sync.go)

SyncMapTypeSafe wraps a sync.Map, whose keys and values have the interface type any, and converts
the values back with the type assertion v.(V). The model is the sequential behaviour of the
methods: the map is the list of its entries, with keys of a comparable type. A value of type V
put into the map is converted to any; when V is an interface type and the value is its nil value,
the result is the nil interface, on which a type assertion fails (Go specification: x.(T) asserts
that x is not nil). A failed assertion is a run-time panic, rendered as none. -/

/-- A value of the interface type any, as seen by the assertion v.(V). -/
inductive AnyValue (V : Type) where
  /-- A non-nil interface holding a value of type V. -/
  | typed (v : V)
  /-- The nil interface. -/
  | nilInterface
  /-- An interface holding a value of another type. -/
  | foreign
deriving DecidableEq, Repr

/-- What the model needs to know about the value type V: its zero value, and which of its values
are nil interface values (none when V is not an interface type). -/
structure GoValueType (V : Type) where
  zero : V
  isNilInterface : V → Bool

/-- The conversion of a value of type V to the interface type any. -/
def toAny {V : Type} (T : GoValueType V) (v : V) : AnyValue V :=
  if T.isNilInterface v then AnyValue.nilInterface else AnyValue.typed v

/-- The type assertion v.(V); none is the run-time panic. -/
def assertType {V : Type} : AnyValue V → Option V
  | AnyValue.typed v => some v
  | AnyValue.nilInterface => none
  | AnyValue.foreign => none

/-- The struct SyncMapTypeSafe: the entries of its field m. -/
structure SyncMapTypeSafe (K V : Type) where
  m : List (K × AnyValue V)

/-- The method sync.Map.Load on the entries. -/
def syncMapLoad {K V : Type} [DecidableEq K] (k : K) : List (K × AnyValue V) → Option (AnyValue V)
  | [] => none
  | e :: rest => if e.1 = k then some e.2 else syncMapLoad k rest

/-- The method sync.Map.Delete on the entries. -/
def syncMapDelete {K V : Type} [DecidableEq K] (k : K) (l : List (K × AnyValue V)) :
    List (K × AnyValue V) :=
  l.filter (fun e => !decide (e.1 = k))

/-- The method sync.Map.Store on the entries. -/
def syncMapStore {K V : Type} [DecidableEq K] (k : K) (a : AnyValue V)
    (l : List (K × AnyValue V)) : List (K × AnyValue V) :=
  (k, a) :: syncMapDelete k l

/-- The method SyncMapTypeSafe.Store. -/
def SyncMapTypeSafe.Store {K V : Type} [DecidableEq K] (T : GoValueType V)
    (m : SyncMapTypeSafe K V) (key : K) (value : V) : SyncMapTypeSafe K V :=
  ⟨syncMapStore key (toAny T value) m.m⟩

/-- The method SyncMapTypeSafe.Delete. -/
def SyncMapTypeSafe.Delete {K V : Type} [DecidableEq K] (m : SyncMapTypeSafe K V) (key : K) :
    SyncMapTypeSafe K V :=
  ⟨syncMapDelete key m.m⟩

/-- The method SyncMapTypeSafe.Load: the pair (value, ok), or none for a panic. -/
def SyncMapTypeSafe.Load {K V : Type} [DecidableEq K] (T : GoValueType V)
    (m : SyncMapTypeSafe K V) (key : K) : Option (V × Bool) :=
  match syncMapLoad key m.m with
  | none => some (T.zero, false)
  | some v =>
    match assertType v with
    | some x => some (x, true)
    | none => none

/-- The method SyncMapTypeSafe.LoadAndDelete: the pair (value, loaded), or none for a panic, and
the map afterwards. -/
def SyncMapTypeSafe.LoadAndDelete {K V : Type} [DecidableEq K] (T : GoValueType V)
    (m : SyncMapTypeSafe K V) (key : K) : Option (V × Bool) × SyncMapTypeSafe K V :=
  match syncMapLoad key m.m with
  | none => (some (T.zero, false), ⟨syncMapDelete key m.m⟩)
  | some v =>
    match assertType v with
    | some x => (some (x, true), ⟨syncMapDelete key m.m⟩)
    | none => (none, ⟨syncMapDelete key m.m⟩)

/-- The method SyncMapTypeSafe.LoadOrStore: the pair (actual, loaded), or none for a panic, and
the map afterwards. -/
def SyncMapTypeSafe.LoadOrStore {K V : Type} [DecidableEq K] (T : GoValueType V)
    (m : SyncMapTypeSafe K V) (key : K) (value : V) : Option (V × Bool) × SyncMapTypeSafe K V :=
  match syncMapLoad key m.m with
  | some a =>
    match assertType a with
    | some x => (some (x, true), m)
    | none => (none, m)
  | none =>
    match assertType (toAny T value) with
    | some x => (some (x, false), ⟨syncMapStore key (toAny T value) m.m⟩)
    | none => (none, ⟨syncMapStore key (toAny T value) m.m⟩)

/-- The map has only been modified through its typed methods: every entry holds the conversion
of a value of type V. -/
def SyncMapTypeSafe.typedOnly {K V : Type} (T : GoValueType V) (m : SyncMapTypeSafe K V) : Prop :=
  ∀ e ∈ m.m, ∃ v : V, e.2 = toAny T v

/-- The value type error: an interface type, whose nil value is rendered as none. -/
def errorType : GoValueType (Option String) := ⟨none, fun v => v.isNone⟩

/-- The value type of the subscriber registry, chan db.Invoice (channels rendered by their
number, 0 for the nil channel): not an interface type. -/
def chanType : GoValueType Nat := ⟨0, fun _ => false⟩

/-- The empty map. -/
def SyncMapTypeSafe.empty {K V : Type} : SyncMapTypeSafe K V := ⟨[]⟩

/-! ## Theorems -/

/-! ### Derivation cursor lemmas -/

theorem incrementedIndices_ok_lt {major minor a b : Int}
    (h : incrementedIndices major minor = .ok (a, b)) : cursorLt (major, minor) (a, b) := by
  unfold incrementedIndices at h
  by_cases hm : minor = INT32_MAX
  · simp only [if_pos hm] at h
    split at h
    · simp only [Except.ok.injEq, Prod.mk.injEq] at h
      left; show major < a; omega
    · cases h
  · simp only [if_neg hm] at h
    split at h
    · simp only [Except.ok.injEq, Prod.mk.injEq] at h
      right; exact ⟨h.1, by show minor < b; omega⟩
    · cases h

theorem bumpXmrRow_of_ok (id : PgUUID) :
    ∀ (rows : List XmrCryptoDatum) (r : XmrCryptoDatum) (rows' : List XmrCryptoDatum),
      bumpXmrRow id rows = .ok (r, rows') →
      ∃ r0, rows.find? (fun x => decide (x.ID = id)) = some r0 ∧
        incrementedIndices r0.LastMajorIndex r0.LastMinorIndex
          = .ok (r.LastMajorIndex, r.LastMinorIndex) ∧
        rows'.find? (fun x => decide (x.ID = id)) = some r := by
  intro rows
  induction rows with
  | nil => intro r rows' h; simp [bumpXmrRow] at h
  | cons x xs ih =>
    intro r rows' h
    unfold bumpXmrRow at h
    by_cases hx : x.ID = id
    · rw [if_pos hx] at h
      cases hinc : incrementedIndices x.LastMajorIndex x.LastMinorIndex with
      | error e => rw [hinc] at h; cases h
      | ok ab =>
        obtain ⟨a, b⟩ := ab
        rw [hinc] at h
        simp only [Except.ok.injEq, Prod.mk.injEq] at h
        obtain ⟨hr, hrows⟩ := h
        subst hr; subst hrows
        refine ⟨x, by simp [List.find?, hx], by simpa using hinc, by simp [List.find?, hx]⟩
    · rw [if_neg hx] at h
      cases hrec : bumpXmrRow id xs with
      | error e => rw [hrec] at h; cases h
      | ok p =>
        obtain ⟨r1, rs1⟩ := p
        rw [hrec] at h
        simp only [Except.ok.injEq, Prod.mk.injEq] at h
        obtain ⟨hr, hrows⟩ := h
        subst hr; subst hrows
        obtain ⟨r0, h1, h2, h3⟩ := ih r1 rs1 hrec
        exact ⟨r0, by simp [List.find?, hx, h1], h2, by simp [List.find?, hx, h3]⟩

theorem bumpXmrRow_of_find (id : PgUUID) :
    ∀ (rows : List XmrCryptoDatum) (r0 : XmrCryptoDatum) (a b : Int),
      rows.find? (fun x => decide (x.ID = id)) = some r0 →
      incrementedIndices r0.LastMajorIndex r0.LastMinorIndex = .ok (a, b) →
      ∃ rows', bumpXmrRow id rows
        = .ok ({ r0 with LastMajorIndex := a, LastMinorIndex := b }, rows') := by
  intro rows
  induction rows with
  | nil => intro r0 a b h; simp at h
  | cons x xs ih =>
    intro r0 a b hfind hinc
    unfold bumpXmrRow
    by_cases hx : x.ID = id
    · simp [List.find?, hx] at hfind
      subst hfind
      rw [if_pos hx, hinc]
      exact ⟨_, rfl⟩
    · simp [List.find?, hx] at hfind
      obtain ⟨rows', h⟩ := ih r0 a b hfind hinc
      rw [if_neg hx, h]
      exact ⟨_, rfl⟩

theorem bumpXmrRow_of_find_error (id : PgUUID) :
    ∀ (rows : List XmrCryptoDatum) (r0 : XmrCryptoDatum) (e : SqlErr),
      rows.find? (fun x => decide (x.ID = id)) = some r0 →
      incrementedIndices r0.LastMajorIndex r0.LastMinorIndex = .error e →
      bumpXmrRow id rows = .error e := by
  intro rows
  induction rows with
  | nil => intro r0 e h; simp at h
  | cons x xs ih =>
    intro r0 e hfind hinc
    unfold bumpXmrRow
    by_cases hx : x.ID = id
    · simp [List.find?, hx] at hfind
      subst hfind
      rw [if_pos hx, hinc]
    · simp [List.find?, hx] at hfind
      rw [if_neg hx, ih r0 e hfind hinc]

/-- C1: every supported wire coin c (0..41) sits at some position of the table pbCoins,
PbCoinToDbCoin c succeeds with the storage coin at the same position of dbCoins, and
DbCoinToPbCoin maps that storage coin back to c. -/
theorem pbCoin_dbCoin_roundtrip (c : PbCoinType) (h0 : 0 ≤ c) (h1 : c ≤ 41) :
    ∃ i d, pbCoins.get? i = some c ∧ dbCoins.get? i = some d ∧
      PbCoinToDbCoin c = Except.ok d ∧ DbCoinToPbCoin d = Except.ok c := by
  refine ⟨c.toNat, ?_⟩
  interval_cases c <;> exact ⟨_, rfl, rfl, rfl, rfl⟩

/-- Witness for C1 at the wire coin BNB (18). -/
theorem pbCoin_dbCoin_roundtrip_witness :
    ∃ i d, pbCoins.get? i = some CoinType_BNB ∧ dbCoins.get? i = some d ∧
      PbCoinToDbCoin CoinType_BNB = Except.ok d ∧ DbCoinToPbCoin d = Except.ok CoinType_BNB :=
  pbCoin_dbCoin_roundtrip CoinType_BNB (by decide) (by decide)

theorem inInt32_iff (v : Int) : inInt32 v = true ↔ (-2147483648 ≤ v ∧ v ≤ 2147483647) := by
  simp [inInt32, INT32_MIN, INT32_MAX]

theorem incrementedIndices_step {major minor : Int}
    (hM : inInt32 major = true) (hm : inInt32 minor = true)
    (hcarry : minor = INT32_MAX → major < INT32_MAX) :
    incrementedIndices major minor
      = .ok (if minor < INT32_MAX then (major, minor + 1) else (major + 1, 0)) := by
  rw [inInt32_iff] at hM hm
  unfold incrementedIndices
  by_cases h : minor = INT32_MAX
  · have hlt : ¬ minor < INT32_MAX := by omega
    have h1 := hcarry h
    have hA : inInt32 (major + 1) = true := by
      rw [inInt32_iff]; simp only [INT32_MAX] at h1; omega
    have hB : inInt32 (0 : Int) = true := by decide
    simp [h, hA, hB]
  · have hlt : minor < INT32_MAX := by simp only [INT32_MAX] at h ⊢; omega
    have hA : inInt32 major = true := by rw [inInt32_iff]; exact hM
    have hB : inInt32 (minor + 1) = true := by
      rw [inInt32_iff]; simp only [INT32_MAX] at hlt; omega
    simp [h, hlt, hA, hB]

theorem storedCursor_query_ok {id : PgUUID} {s : Store} {major minor : Int} {c : Int × Int}
    (hc : storedCursor id s = some (major, minor))
    (hinc : incrementedIndices major minor = .ok c) :
    ∃ r s', FindKeysAndIncrementedIndicesXMRCryptoDataById id s = .ok (r, s') ∧
      (r.LastMajorIndex, r.LastMinorIndex) = c ∧ storedCursor id s' = some c := by
  obtain ⟨a, b⟩ := c
  unfold storedCursor at hc
  cases hf : s.xmrCryptoData.find? (fun r => decide (r.ID = id)) with
  | none => rw [hf] at hc; cases hc
  | some r0 =>
    rw [hf] at hc
    simp only [Option.map_some', Option.some.injEq, Prod.mk.injEq] at hc
    obtain ⟨h1, h2⟩ := hc
    rw [← h1, ← h2] at hinc
    obtain ⟨rows', hb⟩ := bumpXmrRow_of_find id _ r0 a b hf hinc
    obtain ⟨_, _, _, h3⟩ := bumpXmrRow_of_ok id _ _ _ hb
    refine ⟨{ r0 with LastMajorIndex := a, LastMinorIndex := b },
      { s with xmrCryptoData := rows' }, ?_, rfl, ?_⟩
    · unfold FindKeysAndIncrementedIndicesXMRCryptoDataById
      rw [hb]
    · unfold storedCursor
      show Option.map _ (rows'.find? _) = _
      rw [h3]; rfl

theorem storedCursor_of_query_ok {id : PgUUID} {s s' : Store} {r : XmrCryptoDatum}
    (h : FindKeysAndIncrementedIndicesXMRCryptoDataById id s = .ok (r, s')) :
    ∃ major minor, storedCursor id s = some (major, minor) ∧
      incrementedIndices major minor = .ok (r.LastMajorIndex, r.LastMinorIndex) ∧
      storedCursor id s' = some (r.LastMajorIndex, r.LastMinorIndex) := by
  unfold FindKeysAndIncrementedIndicesXMRCryptoDataById at h
  cases hb : bumpXmrRow id s.xmrCryptoData with
  | error e => rw [hb] at h; cases h
  | ok p =>
    obtain ⟨r1, rows'⟩ := p
    rw [hb] at h
    simp only [Except.ok.injEq, Prod.mk.injEq] at h
    obtain ⟨hr, hs⟩ := h
    subst hr; subst hs
    obtain ⟨r0, h1, h2, h3⟩ := bumpXmrRow_of_ok id _ _ _ hb
    refine ⟨r0.LastMajorIndex, r0.LastMinorIndex, ?_, h2, ?_⟩
    · unfold storedCursor; rw [h1]; rfl
    · unfold storedCursor
      show Option.map _ (rows'.find? _) = _
      rw [h3]; rfl

theorem cursorLt_trans {a b c : Int × Int} (h1 : cursorLt a b) (h2 : cursorLt b c) :
    cursorLt a c := by
  unfold cursorLt at *
  omega

theorem cursorLt_irrefl (a : Int × Int) : ¬ cursorLt a a := by
  unfold cursorLt
  omega

theorem allocateIndices_pairwise (id : PgUUID) :
    ∀ (n : Nat) (s s' : Store) (c : Int × Int) (l : List (Int × Int)),
      storedCursor id s = some c → allocateIndices id n s = .ok (l, s') →
      l.length = n ∧ List.Pairwise cursorLt (c :: l) := by
  intro n
  induction n with
  | zero =>
    intro s s' c l _ h
    simp only [allocateIndices, Except.ok.injEq, Prod.mk.injEq] at h
    rw [← h.1]
    simp
  | succ n ih =>
    intro s s' c l hc h
    unfold allocateIndices at h
    cases hq : FindKeysAndIncrementedIndicesXMRCryptoDataById id s with
    | error e => rw [hq] at h; cases h
    | ok p =>
      obtain ⟨r, s1⟩ := p
      rw [hq] at h
      simp only at h
      cases hrec : allocateIndices id n s1 with
      | error e => rw [hrec] at h; cases h
      | ok q =>
        obtain ⟨l1, s2⟩ := q
        rw [hrec] at h
        simp only [Except.ok.injEq, Prod.mk.injEq] at h
        obtain ⟨hl, _⟩ := h
        obtain ⟨M, m, h1, h2, h3⟩ := storedCursor_of_query_ok hq
        rw [hc] at h1
        simp only [Option.some.injEq] at h1
        have hlt : cursorLt c (r.LastMajorIndex, r.LastMinorIndex) := by
          rw [h1]; exact incrementedIndices_ok_lt h2
        obtain ⟨hlen, hpw⟩ := ih s1 s2 _ l1 h3 hrec
        rw [← hl]
        refine ⟨by simp [hlen], ?_⟩
        rw [List.pairwise_cons]
        refine ⟨?_, hpw⟩
        intro x hx
        rw [List.pairwise_cons] at hpw
        rcases List.mem_cons.mp hx with hx | hx
        · rw [hx]; exact hlt
        · exact cursorLt_trans hlt (hpw.1 x hx)

theorem allocateIndices_succeeds (id : PgUUID) :
    ∀ (n : Nat) (s : Store) (major minor : Int),
      storedCursor id s = some (major, minor) →
      inInt32 major = true → inInt32 minor = true →
      (n : Int) ≤ (2147483647 - major) * 2147483648 + (2147483647 - minor) →
      ∃ l s', allocateIndices id n s = .ok (l, s') := by
  intro n
  induction n with
  | zero => intro s _ _ _ _ _ _; exact ⟨[], s, rfl⟩
  | succ n ih =>
    intro s major minor hc hM hm hn
    have hM' := (inInt32_iff major).mp hM
    have hm' := (inInt32_iff minor).mp hm
    have hcarry : minor = INT32_MAX → major < INT32_MAX := by
      intro h; simp only [INT32_MAX] at h ⊢; push_cast at hn; omega
    have hstep := incrementedIndices_step hM hm hcarry
    obtain ⟨r, s1, hq, hr, hs1⟩ := storedCursor_query_ok hc hstep
    have hnext : ∃ l s', allocateIndices id n s1 = .ok (l, s') := by
      by_cases hlt : minor < INT32_MAX
      · rw [if_pos hlt] at hs1
        simp only [INT32_MAX] at hlt
        refine ih s1 major (minor + 1) hs1 hM ?_ ?_
        · rw [inInt32_iff]; omega
        · push_cast at hn; omega
      · rw [if_neg hlt] at hs1
        simp only [INT32_MAX] at hlt hcarry
        have hmax : minor = 2147483647 := by omega
        have := hcarry hmax
        refine ih s1 (major + 1) 0 hs1 ?_ (by decide) ?_
        · rw [inInt32_iff]; omega
        · push_cast at hn; omega
    obtain ⟨l, s2, hrec⟩ := hnext
    refine ⟨(r.LastMajorIndex, r.LastMinorIndex) :: l, s2, ?_⟩
    unfold allocateIndices
    rw [hq]
    simp only
    rw [hrec]

/-! ### C2, C3: the derivation cursor -/

/-- C2 (as amended): find-keys-and-incremented-indices on a key row whose stored int32 cursor is
(major, minor) succeeds, returns and stores (major, minor+1) when minor < INT32_MAX, and
(major+1, 0) when minor = INT32_MAX and major < INT32_MAX. -/
theorem findKeysAndIncrementedIndices_bump (id : PgUUID) (s : Store) (major minor : Int)
    (hc : storedCursor id s = some (major, minor))
    (hM : inInt32 major = true) (hm : inInt32 minor = true)
    (hcarry : minor = INT32_MAX → major < INT32_MAX) :
    ∃ r s', FindKeysAndIncrementedIndicesXMRCryptoDataById id s = .ok (r, s') ∧
      (r.LastMajorIndex, r.LastMinorIndex)
        = (if minor < INT32_MAX then (major, minor + 1) else (major + 1, 0)) ∧
      storedCursor id s' = some (r.LastMajorIndex, r.LastMinorIndex) := by
  obtain ⟨r, s', h1, h2, h3⟩ := storedCursor_query_ok hc (incrementedIndices_step hM hm hcarry)
  exact ⟨r, s', h1, h2, by rw [h2]; exact h3⟩

/-- Witness for C2: the four rows of the test table, (0,0), (0,124), (0,INT32_MAX), (1,2). -/
theorem findKeysAndIncrementedIndices_bump_witness :
    (∃ r s', FindKeysAndIncrementedIndicesXMRCryptoDataById (PgUUID.ofByte 1) (xmrStore 0 0)
        = .ok (r, s') ∧ (r.LastMajorIndex, r.LastMinorIndex) = (0, 1) ∧
        storedCursor (PgUUID.ofByte 1) s' = some (r.LastMajorIndex, r.LastMinorIndex)) ∧
    (∃ r s', FindKeysAndIncrementedIndicesXMRCryptoDataById (PgUUID.ofByte 1) (xmrStore 0 124)
        = .ok (r, s') ∧ (r.LastMajorIndex, r.LastMinorIndex) = (0, 125) ∧
        storedCursor (PgUUID.ofByte 1) s' = some (r.LastMajorIndex, r.LastMinorIndex)) ∧
    (∃ r s', FindKeysAndIncrementedIndicesXMRCryptoDataById (PgUUID.ofByte 1)
        (xmrStore 0 INT32_MAX)
        = .ok (r, s') ∧ (r.LastMajorIndex, r.LastMinorIndex) = (1, 0) ∧
        storedCursor (PgUUID.ofByte 1) s' = some (r.LastMajorIndex, r.LastMinorIndex)) ∧
    (∃ r s', FindKeysAndIncrementedIndicesXMRCryptoDataById (PgUUID.ofByte 1) (xmrStore 1 2)
        = .ok (r, s') ∧ (r.LastMajorIndex, r.LastMinorIndex) = (1, 3) ∧
        storedCursor (PgUUID.ofByte 1) s' = some (r.LastMajorIndex, r.LastMinorIndex)) :=
  ⟨findKeysAndIncrementedIndices_bump (PgUUID.ofByte 1) (xmrStore 0 0) 0 0 rfl rfl rfl
      (by decide),
   findKeysAndIncrementedIndices_bump (PgUUID.ofByte 1) (xmrStore 0 124) 0 124 rfl rfl rfl
      (by decide),
   findKeysAndIncrementedIndices_bump (PgUUID.ofByte 1) (xmrStore 0 INT32_MAX) 0 INT32_MAX
      rfl rfl rfl (by decide),
   findKeysAndIncrementedIndices_bump (PgUUID.ofByte 1) (xmrStore 1 2) 1 2 rfl rfl rfl
      (by decide)⟩

/-- C2, counterexample to the claim as stated: with the stored cursor (INT32_MAX, INT32_MAX)
the operation does not return (major+1, 0): the carried major does not fit the int32 column and
the query fails. -/
theorem findKeysAndIncrementedIndices_carry_overflow :
    storedCursor (PgUUID.ofByte 1) (xmrStore INT32_MAX INT32_MAX)
      = some (INT32_MAX, INT32_MAX) ∧
    FindKeysAndIncrementedIndicesXMRCryptoDataById (PgUUID.ofByte 1)
        (xmrStore INT32_MAX INT32_MAX)
      = .error SqlErr.numericValueOutOfRange ∧
    ¬ ∃ r s', FindKeysAndIncrementedIndicesXMRCryptoDataById (PgUUID.ofByte 1)
        (xmrStore INT32_MAX INT32_MAX) = .ok (r, s') ∧
        (r.LastMajorIndex, r.LastMinorIndex) = (INT32_MAX + 1, 0) := by
  have h : FindKeysAndIncrementedIndicesXMRCryptoDataById (PgUUID.ofByte 1)
      (xmrStore INT32_MAX INT32_MAX) = .error SqlErr.numericValueOutOfRange := rfl
  refine ⟨rfl, h, ?_⟩
  rintro ⟨r, s', h1, _⟩
  rw [h] at h1
  cases h1

/-- C3: from a stored int32 cursor (major, minor) with major < INT32_MAX, a cursor advance
succeeds and yields a pair strictly greater in lexicographic order; the pairs returned by any n
successive allocations on the key row are strictly increasing from the stored cursor on, hence
pairwise distinct; and any run of at most 2^31 allocations succeeds. -/
theorem cursor_advance_strictly_increasing (id : PgUUID) (s : Store) (major minor : Int)
    (hc : storedCursor id s = some (major, minor))
    (hM : inInt32 major = true) (hm : inInt32 minor = true) (hmaj : major < INT32_MAX) :
    (∃ r s', FindKeysAndIncrementedIndicesXMRCryptoDataById id s = .ok (r, s') ∧
      cursorLt (major, minor) (r.LastMajorIndex, r.LastMinorIndex) ∧
      storedCursor id s' = some (r.LastMajorIndex, r.LastMinorIndex)) ∧
    (∀ n l s', allocateIndices id n s = .ok (l, s') →
      l.length = n ∧ List.Pairwise cursorLt ((major, minor) :: l) ∧ l.Nodup) ∧
    (∀ n : Nat, n ≤ 2147483648 → ∃ l s', allocateIndices id n s = .ok (l, s')) := by
  refine ⟨?_, ?_, ?_⟩
  · have hstep := incrementedIndices_step hM hm (fun _ => hmaj)
    obtain ⟨r, s', h1, h2, h3⟩ := storedCursor_query_ok hc hstep
    refine ⟨r, s', h1, ?_, by rw [h2]; exact h3⟩
    rw [h2]
    exact incrementedIndices_ok_lt hstep
  · intro n l s' h
    obtain ⟨hlen, hpw⟩ := allocateIndices_pairwise id n s s' _ l hc h
    refine ⟨hlen, hpw, ?_⟩
    rw [List.pairwise_cons] at hpw
    refine hpw.2.imp ?_
    intro a b hab heq
    rw [heq] at hab
    exact cursorLt_irrefl b hab
  · intro n hn
    have hM' := (inInt32_iff major).mp hM
    have hm' := (inInt32_iff minor).mp hm
    simp only [INT32_MAX] at hmaj
    refine allocateIndices_succeeds id n s major minor hc hM hm ?_
    have : (n : Int) ≤ 2147483648 := by exact_mod_cast hn
    omega

/-- Witness for C3 at the fresh key row with cursor (0, 0). -/
theorem cursor_advance_strictly_increasing_witness :
    (∃ r s', FindKeysAndIncrementedIndicesXMRCryptoDataById (PgUUID.ofByte 1) (xmrStore 0 0)
        = .ok (r, s') ∧
      cursorLt (0, 0) (r.LastMajorIndex, r.LastMinorIndex) ∧
      storedCursor (PgUUID.ofByte 1) s' = some (r.LastMajorIndex, r.LastMinorIndex)) ∧
    (∀ n l s', allocateIndices (PgUUID.ofByte 1) n (xmrStore 0 0) = .ok (l, s') →
      l.length = n ∧ List.Pairwise cursorLt ((0, 0) :: l) ∧ l.Nodup) ∧
    (∀ n : Nat, n ≤ 2147483648 →
      ∃ l s', allocateIndices (PgUUID.ofByte 1) n (xmrStore 0 0) = .ok (l, s')) :=
  cursor_advance_strictly_increasing (PgUUID.ofByte 1) (xmrStore 0 0) 0 0 rfl rfl rfl
    (by decide)

/-! ### C4: LTC verification -/

theorem voutPays_iff {α : Type} (o : Vout α) (addr : String) :
    voutPays o addr = true ↔
      (o.ScriptPubKey.Address = addr ∨
        (o.ScriptPubKey.Addresses.length = 1 ∧ ∀ a ∈ o.ScriptPubKey.Addresses, a = addr)) := by
  unfold voutPays
  rcases o with ⟨v, ⟨a, as⟩⟩
  simp only [Bool.or_eq_true, Bool.and_eq_true, decide_eq_true_eq]
  constructor
  · rintro (h | ⟨h1, h2⟩)
    · exact Or.inl h
    · right
      refine ⟨h1, ?_⟩
      match as, h1, h2 with
      | [x], _, h2 =>
        simp at h2
        intro y hy
        simp at hy
        rw [hy, h2]
  · rintro (h | ⟨h1, h2⟩)
    · exact Or.inl h
    · right
      refine ⟨h1, ?_⟩
      match as, h1, h2 with
      | [x], _, h2 =>
        have := h2 x (by simp)
        simp [this]

theorem verifyLTCTxLoop_eq {α : Type} [Add α] (vout : List (Vout α)) (addr : String) :
    ∀ (fuel i : Nat) (amount : α), fuel = vout.length - i →
      verifyLTCTxLoop vout addr fuel i amount
        = (((vout.drop i).filter (fun o => voutPays o addr)).map (fun o => o.Value)).foldl
            (fun acc v => acc + v) amount := by
  intro fuel
  induction fuel with
  | zero =>
    intro i amount h
    have hi : vout.length ≤ i := by omega
    simp [verifyLTCTxLoop, List.drop_eq_nil_of_le hi]
  | succ fuel ih =>
    intro i amount h
    have hi : i < vout.length := by omega
    obtain ⟨x, hget, hdrop⟩ : ∃ x, vout.get? i = some x ∧ vout.drop i = x :: vout.drop (i + 1) :=
      ⟨vout.get ⟨i, hi⟩, List.get?_eq_get hi, List.drop_eq_getElem_cons hi⟩
    unfold verifyLTCTxLoop
    rw [hget, hdrop]
    simp only
    by_cases hp : voutPays x addr = true
    · rw [if_pos hp, ih (i + 1) _ (by omega), List.filter_cons]
      simp only [hp, if_true, List.map_cons, List.foldl_cons]
    · rw [if_neg hp, ih (i + 1) _ (by omega), List.filter_cons]
      simp only [hp, if_false, Bool.false_eq_true]

/-- C4: for every LTC transaction and invoice, verifyLTCTxHandler returns the nil error and the
sum, over the vout entries in order starting from 0, of the Value of exactly the outputs whose
ScriptPubKey.Address is the invoice address or whose Addresses list has exactly one element,
equal to the invoice address; with no such output the amount is 0. -/
theorem verifyLTCTxHandler_sum {α : Type} [Add α] [Zero α] (tx : LTCTx α) (invoice : Invoice) :
    verifyLTCTxHandler tx invoice = (creditedSum tx.Vout invoice.CryptoAddress, none) ∧
    ((∀ o ∈ tx.Vout, ¬ (o.ScriptPubKey.Address = invoice.CryptoAddress ∨
        (o.ScriptPubKey.Addresses.length = 1 ∧
          ∀ a ∈ o.ScriptPubKey.Addresses, a = invoice.CryptoAddress))) →
      verifyLTCTxHandler tx invoice = ((0 : α), none)) := by
  have hfilter : (fun o : Vout α => voutPays o invoice.CryptoAddress)
      = (fun o : Vout α => decide (o.ScriptPubKey.Address = invoice.CryptoAddress ∨
        (o.ScriptPubKey.Addresses.length = 1 ∧
          ∀ a ∈ o.ScriptPubKey.Addresses, a = invoice.CryptoAddress))) := by
    funext o
    rw [Bool.eq_iff_iff, voutPays_iff]
    simp
  have hmain : verifyLTCTxHandler tx invoice
      = (creditedSum tx.Vout invoice.CryptoAddress, none) := by
    unfold verifyLTCTxHandler creditedSum
    rw [verifyLTCTxLoop_eq tx.Vout invoice.CryptoAddress tx.Vout.length 0 0 (by simp)]
    rw [List.drop_zero, hfilter]
  refine ⟨hmain, ?_⟩
  intro hno
  rw [hmain]
  unfold creditedSum
  have : tx.Vout.filter (fun o : Vout α =>
      decide (o.ScriptPubKey.Address = invoice.CryptoAddress ∨
        (o.ScriptPubKey.Addresses.length = 1 ∧
          ∀ a ∈ o.ScriptPubKey.Addresses, a = invoice.CryptoAddress))) = [] := by
    rw [List.filter_eq_nil_iff]
    intro o ho
    simpa using hno o ho
  rw [this]
  rfl

/-- Witness for C4: the sample transaction credits 5 + 7 = 12 to "A" (the two-address output and
the output to "B" are not counted), and a transaction with no paying output yields 0. -/
theorem verifyLTCTxHandler_sum_witness :
    verifyLTCTxHandler ltcTxSample ltcInvoice = ((12 : Int), none) ∧
    verifyLTCTxHandler ltcTxNoPay ltcInvoice = ((0 : Int), none) :=
  ⟨(verifyLTCTxHandler_sum ltcTxSample ltcInvoice).1.trans (by decide),
   (verifyLTCTxHandler_sum ltcTxNoPay ltcInvoice).2 (by decide)⟩

/-! ### C5: HandleNewInvoice -/

/-- C5: for every visiting order of the configured processors: when no processor accepts the
requested coin, HandleNewInvoice returns (nil, unimplementedError), leaves the world as it was and
calls handleInvoicePbReq on no processor; when some processor accepts it, HandleNewInvoice calls
handleInvoicePbReq exactly once, on a configured processor that accepts the coin, and returns
that call's result and world unchanged. -/
theorem handleNewInvoice_dispatch {σ : Type} (order : List (CryptoProcessor σ))
    (req : NewInvoiceRequest) (w : σ) :
    ((∀ cp ∈ order, cp.supportsCoin req.Coin = false) →
      HandleNewInvoice order req w = ⟨none, some unimplementedError, w, []⟩) ∧
    ((∃ cp ∈ order, cp.supportsCoin req.Coin = true) →
      ∃ cp ∈ order, cp.supportsCoin req.Coin = true ∧
        HandleNewInvoice order req w
          = ⟨(cp.handleInvoicePbReq req w).1.1, (cp.handleInvoicePbReq req w).1.2,
              (cp.handleInvoicePbReq req w).2, [(cp.coin, req)]⟩) := by
  induction order with
  | nil =>
    refine ⟨fun _ => rfl, ?_⟩
    rintro ⟨cp, hcp, _⟩
    cases hcp
  | cons cp rest ih =>
    by_cases h : cp.supportsCoin req.Coin = true
    · refine ⟨?_, ?_⟩
      · intro hall
        have := hall cp (List.mem_cons_self _ _)
        rw [h] at this
        cases this
      · intro _
        refine ⟨cp, List.mem_cons_self _ _, h, ?_⟩
        simp only [HandleNewInvoice, h, if_true]
    · have hstep : HandleNewInvoice (cp :: rest) req w = HandleNewInvoice rest req w := by
        simp only [HandleNewInvoice, h, if_false, Bool.false_eq_true]
      refine ⟨?_, ?_⟩
      · intro hall
        rw [hstep]
        exact ih.1 (fun c hc => hall c (List.mem_cons_of_mem _ hc))
      · rintro ⟨c, hc, hsup⟩
        have hc' : c ∈ rest := by
          rcases List.mem_cons.mp hc with hc | hc
          · rw [hc] at hsup; exact absurd hsup h
          · exact hc
        obtain ⟨c2, hc2, hs2, heq⟩ := ih.2 ⟨c, hc', hsup⟩
        exact ⟨c2, List.mem_cons_of_mem _ hc2, hs2, by rw [hstep, heq]⟩

/-- Witness for C5: with an XMR and an LTC processor configured, a TON request is answered with
unimplementedError and no call, and an LTC request is served by one call of a processor that
accepts LTC. -/
theorem handleNewInvoice_dispatch_witness :
    HandleNewInvoice [sampleProcessor CoinTypeXMR, sampleProcessor CoinTypeLTC]
        (sampleRequest CoinTypeTON) []
      = ⟨none, some unimplementedError, [], []⟩ ∧
    ∃ cp ∈ [sampleProcessor CoinTypeXMR, sampleProcessor CoinTypeLTC],
      cp.supportsCoin (sampleRequest CoinTypeLTC).Coin = true ∧
      HandleNewInvoice [sampleProcessor CoinTypeXMR, sampleProcessor CoinTypeLTC]
          (sampleRequest CoinTypeLTC) []
        = ⟨(cp.handleInvoicePbReq (sampleRequest CoinTypeLTC) []).1.1,
            (cp.handleInvoicePbReq (sampleRequest CoinTypeLTC) []).1.2,
            (cp.handleInvoicePbReq (sampleRequest CoinTypeLTC) []).2,
            [(cp.coin, sampleRequest CoinTypeLTC)]⟩ :=
  ⟨(handleNewInvoice_dispatch [sampleProcessor CoinTypeXMR, sampleProcessor CoinTypeLTC]
      (sampleRequest CoinTypeTON) []).1 (by
        intro cp hcp
        simp only [List.mem_cons, List.mem_singleton, List.not_mem_nil, or_false] at hcp
        rcases hcp with h | h <;> subst h <;> decide),
   (handleNewInvoice_dispatch [sampleProcessor CoinTypeXMR, sampleProcessor CoinTypeLTC]
      (sampleRequest CoinTypeLTC) []).2
      ⟨sampleProcessor CoinTypeLTC, by simp, by decide⟩⟩

/-! ### C6: reload of the pending invoices -/

theorem handleInvoiceAll_calls {σ : Type} (inv : Invoice) :
    ∀ (order : List (CryptoProcessor σ)) (w : σ),
      (handleInvoiceAll order inv w).2
        = (order.filter (fun cp => cp.supportsCoin inv.Coin)).map (fun cp => (cp.coin, inv)) := by
  intro order
  induction order with
  | nil => intro w; rfl
  | cons cp rest ih =>
    intro w
    by_cases h : cp.supportsCoin inv.Coin = true
    · simp only [handleInvoiceAll, h, if_true, List.filter_cons, List.map_cons, ih]
    · simp only [handleInvoiceAll, h, if_false, Bool.false_eq_true, List.filter_cons, ih]

theorem handlePending_mem {σ : Type} (order : Nat → List (CryptoProcessor σ))
    (c : DbCoinType) (inv : Invoice) :
    ∀ (invoices : List Invoice) (i : Nat) (w : σ),
      (c, inv) ∈ (handlePending order i invoices w).2 ↔
        ∃ k, invoices.get? k = some inv ∧
          ∃ cp ∈ order (i + k), cp.coin = c ∧ cp.supportsCoin inv.Coin = true := by
  intro invoices
  induction invoices with
  | nil =>
    intro i w
    simp [handlePending]
  | cons x rest ih =>
    intro i w
    simp only [handlePending, List.mem_append, handleInvoiceAll_calls, List.mem_map,
      List.mem_filter, Prod.mk.injEq, ih]
    constructor
    · rintro (⟨cp, ⟨hcp, hsup⟩, hc, hx⟩ | ⟨k, hk, cp, hcp, hc, hsup⟩)
      · subst hx
        exact ⟨0, rfl, cp, by simpa using hcp, hc, hsup⟩
      · refine ⟨k + 1, by simpa using hk, cp, ?_, hc, hsup⟩
        have : i + (k + 1) = i + 1 + k := by omega
        rw [this]; exact hcp
    · rintro ⟨k, hk, cp, hcp, hc, hsup⟩
      cases k with
      | zero =>
        left
        simp only [List.get?_cons_zero, Option.some.injEq] at hk
        subst hk
        exact ⟨cp, ⟨by simpa using hcp, hsup⟩, hc, rfl⟩
      | succ k =>
        right
        refine ⟨k, by simpa using hk, cp, ?_, hc, hsup⟩
        have : i + (k + 1) = i + 1 + k := by omega
        rw [← this]; exact hcp

/-- C6 (as amended): after loadPersistedPendingInvoices returns without error, every invoice
returned by the pending-invoice query has been handed through handleInvoice to every configured
processor whose supportsCoin accepts its coin, and every call of handleInvoice hands an invoice
of the query to a configured processor that accepts its coin; an invoice whose coin no configured
processor accepts is handed to none. -/
theorem loadPersistedPendingInvoices_handled {σ : Type} (env : Env)
    (procs : List (CryptoProcessor σ)) (order : Nat → List (CryptoProcessor σ))
    (db : Store) (w : σ) (hvisit : ∀ i, (order i).Perm procs)
    (hok : (loadPersistedPendingInvoices env order db w).err = none) :
    ∃ rows s1 invoices,
      ShiftExpiresAtForNonConfirmedInvoices db = .ok (rows, s1) ∧
      FindAllPendingInvoices s1 = .ok (invoices, s1) ∧
      (∀ inv ∈ invoices, ∀ cp ∈ procs, cp.supportsCoin inv.Coin = true →
        (cp.coin, inv) ∈ (loadPersistedPendingInvoices env order db w).handled) ∧
      (∀ c inv, (c, inv) ∈ (loadPersistedPendingInvoices env order db w).handled →
        inv ∈ invoices ∧ ∃ cp ∈ procs, cp.coin = c ∧ cp.supportsCoin inv.Coin = true) := by
  have hb : env.beginFails = false := by
    by_contra hb
    simp [loadPersistedPendingInvoices, hb] at hok
  have hf1 : env.fault Query.ShiftExpiresAtForNonConfirmedInvoices = false := by
    by_contra hf
    simp [loadPersistedPendingInvoices, hb, Tx.run, hf] at hok
  have hf2 : env.fault Query.FindAllPendingInvoices = false := by
    by_contra hf
    simp [loadPersistedPendingInvoices, hb, Tx.run, hf1, hf,
      ShiftExpiresAtForNonConfirmedInvoices] at hok
  have hhandled : (loadPersistedPendingInvoices env order db w).handled
      = (handlePending order 0
          ((db.invoices.map (fun i =>
              if i.Status = InvoiceStatusTypeCONFIRMED then i
              else { i with ExpiresAt := i.ExpiresAt + persist_cache_timeout })).filter
            (fun i => decide (i.Status = InvoiceStatusTypePENDING ∨
              i.Status = InvoiceStatusTypePENDINGMEMPOOL))) w).2 := by
    simp [loadPersistedPendingInvoices, hb, Tx.run, hf1, hf2,
      ShiftExpiresAtForNonConfirmedInvoices, FindAllPendingInvoices]
  refine ⟨_, _, _, rfl, rfl, ?_, ?_⟩
  · intro inv hinv cp hcp hsup
    rw [hhandled, handlePending_mem]
    obtain ⟨k, hk⟩ := List.get?_of_mem hinv
    exact ⟨k, hk, cp, ((hvisit (0 + k)).mem_iff).mpr hcp, rfl, hsup⟩
  · intro c inv hmem
    rw [hhandled, handlePending_mem] at hmem
    obtain ⟨k, hk, cp, hcp, hc, hsup⟩ := hmem
    exact ⟨List.get?_mem hk, cp, ((hvisit (0 + k)).mem_iff).mp hcp, hc, hsup⟩

/-- Witness for C6: with an XMR and an LTC processor configured, the pending LTC invoice of the
sample store is handed to the LTC processor. -/
theorem loadPersistedPendingInvoices_handled_witness :
    ∃ rows s1 invoices,
      ShiftExpiresAtForNonConfirmedInvoices sampleStore = .ok (rows, s1) ∧
      FindAllPendingInvoices s1 = .ok (invoices, s1) ∧
      (∀ inv ∈ invoices, ∀ cp ∈ [sampleProcessor CoinTypeXMR, sampleProcessor CoinTypeLTC],
        cp.supportsCoin inv.Coin = true →
        (cp.coin, inv) ∈ (loadPersistedPendingInvoices env0
          (fun _ => [sampleProcessor CoinTypeXMR, sampleProcessor CoinTypeLTC])
          sampleStore []).handled) ∧
      (∀ c inv, (c, inv) ∈ (loadPersistedPendingInvoices env0
          (fun _ => [sampleProcessor CoinTypeXMR, sampleProcessor CoinTypeLTC])
          sampleStore []).handled →
        inv ∈ invoices ∧ ∃ cp ∈ [sampleProcessor CoinTypeXMR, sampleProcessor CoinTypeLTC],
          cp.coin = c ∧ cp.supportsCoin inv.Coin = true) :=
  loadPersistedPendingInvoices_handled env0
    [sampleProcessor CoinTypeXMR, sampleProcessor CoinTypeLTC]
    (fun _ => [sampleProcessor CoinTypeXMR, sampleProcessor CoinTypeLTC])
    sampleStore [] (fun _ => List.Perm.refl _) rfl

/-- C6, counterexample to the claim as stated: with only the XMR chain enabled and a pending LTC
invoice in the store, loadPersistedPendingInvoices returns without error, the pending-invoice
query returns the LTC invoice, and handleInvoice is called on no processor. -/
theorem loadPersistedPendingInvoices_drops_unsupported :
    (loadPersistedPendingInvoices env0 (fun _ => [sampleProcessor CoinTypeXMR])
      sampleStore []).err = none ∧
    (∃ rows s1, ShiftExpiresAtForNonConfirmedInvoices sampleStore = .ok (rows, s1) ∧
      FindAllPendingInvoices s1
        = .ok ([{ ltcInvoice with ExpiresAt := ltcInvoice.ExpiresAt + 60 }], s1)) ∧
    (loadPersistedPendingInvoices env0 (fun _ => [sampleProcessor CoinTypeXMR])
      sampleStore []).handled = [] :=
  ⟨rfl, ⟨_, _, rfl, rfl⟩, rfl⟩

/-! ### Transactions: what a successful query leaves -/

theorem Tx.run_ok {α : Type} {env : Env} {name : Query}
    {q : Store → Except SqlErr (α × Store)} {tx tx' : Tx} {a : α}
    (h : tx.run env name q = (.ok a, tx')) :
    env.fault name = false ∧ q tx.store = .ok (a, tx'.store) ∧ tx'.log = tx.log ++ [name] := by
  unfold Tx.run at h
  by_cases hf : env.fault name = true
  · simp [hf] at h
  · simp only [hf, if_false, Bool.false_eq_true] at h
    cases hq : q tx.store with
    | error e => rw [hq] at h; simp at h
    | ok p =>
      obtain ⟨b, s'⟩ := p
      rw [hq] at h
      simp only [Prod.mk.injEq, Except.ok.injEq] at h
      obtain ⟨h1, h2⟩ := h
      subst h1; subst h2
      exact ⟨by simpa using hf, rfl, rfl⟩

theorem Tx.run_log {α : Type} (env : Env) ( name : Query)
    (q : Store → Except SqlErr (α × Store)) (tx : Tx) :
    (tx.run env name q).2.log = tx.log ++ [name] := by
  unfold Tx.run
  by_cases hf : env.fault name = true
  · simp [hf]
  · simp only [hf, if_false, Bool.false_eq_true]
    cases q tx.store with
    | error e => rfl
    | ok p => rfl

theorem checkIfUserExistsUUID_ok {env : Env} {userId : PgUUID} {tx tx' : Tx}
    (h : checkIfUserExistsUUID env userId tx = (none, tx')) :
    tx'.store = tx.store ∧ userId ∈ tx.store.users := by
  unfold checkIfUserExistsUUID at h
  cases hr : tx.run env Query.UserExistsById (UserExistsById userId) with
  | mk r tx1 =>
    rw [hr] at h
    cases r with
    | error e => simp at h
    | ok b =>
      obtain ⟨_, hq, _⟩ := Tx.run_ok hr
      cases b with
      | false => simp at h
      | true =>
        simp only [Prod.mk.injEq, true_and] at h
        subst h
        simp only [UserExistsById, Except.ok.injEq, Prod.mk.injEq, decide_eq_true_eq] at hq
        exact ⟨hq.2.symm, hq.1⟩

theorem FindCryptoDataByUserId_ok {userId : PgUUID} {s s' : Store} {c : CryptoDatum}
    (h : FindCryptoDataByUserId userId s = .ok (c, s')) : s' = s ∧ c.UserID = userId := by
  unfold FindCryptoDataByUserId at h
  cases hf : s.cryptoData.find? (fun c => decide (c.UserID = userId)) with
  | none => rw [hf] at h; cases h
  | some c0 =>
    rw [hf] at h
    simp only [Except.ok.injEq, Prod.mk.injEq] at h
    obtain ⟨h1, h2⟩ := h
    subst h1
    exact ⟨h2.symm, by simpa using List.find?_some hf⟩

theorem CreateXMRCryptoData_addresses {env : Env} {arg : CreateXMRCryptoDataParams}
    {s s' : Store} {r : XmrCryptoDatum} (h : CreateXMRCryptoData env arg s = .ok (r, s')) :
    s'.cryptoAddresses = s.cryptoAddresses := by
  unfold CreateXMRCryptoData at h
  simp only at h
  split at h
  · cases h
  · simp only [Except.ok.injEq, Prod.mk.injEq] at h
    rw [← h.2]

theorem SetXMRCryptoDataByUserId_addresses {arg : SetXMRCryptoDataByUserIdParams}
    {s s' : Store} {r : CryptoDatum} (h : SetXMRCryptoDataByUserId arg s = .ok (r, s')) :
    s'.cryptoAddresses = s.cryptoAddresses := by
  unfold SetXMRCryptoDataByUserId at h
  split at h
  · cases h
  · split at h
    · cases h
    · simp only [Except.ok.injEq, Prod.mk.injEq] at h
      rw [← h.2]

theorem UpdateKeysXMRCryptoDataById_addresses {arg : UpdateKeysXMRCryptoDataByIdParams}
    {s s' : Store} {r : XmrCryptoDatum} (h : UpdateKeysXMRCryptoDataById arg s = .ok (r, s')) :
    s'.cryptoAddresses = s.cryptoAddresses := by
  unfold UpdateKeysXMRCryptoDataById at h
  split at h
  · cases h
  · split at h
    · cases h
    · simp only [Except.ok.injEq, Prod.mk.injEq] at h
      rw [← h.2]

theorem handleXmrCryptoDataUpdate_addresses {env : Env} {inp : XmrKeysUpdateRequest}
    {cd : CryptoDatum} {tx tx' : Tx}
    (h : handleXmrCryptoDataUpdate env inp cd tx = (none, tx')) :
    tx'.store.cryptoAddresses
      = tx.store.cryptoAddresses.filter
          (fun a => !decide (a.UserID = cd.UserID ∧ a.Coin = CoinTypeXMR)) := by
  unfold handleXmrCryptoDataUpdate at h
  split at h
  · simp at h
  · split at h
    · simp at h
    · cases hr : tx.run env Query.DeleteAllCryptoAddressByUserIdAndCoin
          (DeleteAllCryptoAddressByUserIdAndCoin ⟨CoinTypeXMR, cd.UserID⟩) with
      | mk r1 tx1 =>
        rw [hr] at h
        cases r1 with
        | error e => simp at h
        | ok rows =>
          obtain ⟨_, hq, _⟩ := Tx.run_ok hr
          have hdel : tx1.store.cryptoAddresses
              = tx.store.cryptoAddresses.filter
                (fun a => !decide (a.UserID = cd.UserID ∧ a.Coin = CoinTypeXMR)) := by
            simp only [DeleteAllCryptoAddressByUserIdAndCoin, Except.ok.injEq,
              Prod.mk.injEq] at hq
            rw [← hq.2]
          simp only at h
          split at h
          · cases hr2 : tx1.run env Query.CreateXMRCryptoData
                (CreateXMRCryptoData env ⟨inp.PrivViewKey, inp.PubSpendKey⟩) with
            | mk r2 tx2 =>
              rw [hr2] at h
              cases r2 with
              | error e => simp at h
              | ok xmrData =>
                obtain ⟨_, hq2, _⟩ := Tx.run_ok hr2
                simp only at h
                cases hr3 : tx2.run env Query.SetXMRCryptoDataByUserId
                    (SetXMRCryptoDataByUserId ⟨cd.UserID, xmrData.ID⟩) with
                | mk r3 tx3 =>
                  rw [hr3] at h
                  cases r3 with
                  | error e => simp at h
                  | ok row =>
                    obtain ⟨_, hq3, _⟩ := Tx.run_ok hr3
                    simp only [Prod.mk.injEq, true_and] at h
                    subst h
                    rw [SetXMRCryptoDataByUserId_addresses hq3,
                      CreateXMRCryptoData_addresses hq2, hdel]
          · cases hr2 : tx1.run env Query.UpdateKeysXMRCryptoDataById
                (UpdateKeysXMRCryptoDataById ⟨cd.XmrID, inp.PrivViewKey, inp.PubSpendKey⟩) with
            | mk r2 tx2 =>
              rw [hr2] at h
              cases r2 with
              | error e => simp at h
              | ok row =>
                obtain ⟨_, hq2, _⟩ := Tx.run_ok hr2
                simp only [Prod.mk.injEq, true_and] at h
                subst h
                rw [UpdateKeysXMRCryptoDataById_addresses hq2, hdel]

/-! ### C7: addresses under UpdateCryptoKeys -/

theorem updateCryptoKeys_addresses_cases (env : Env) (inp : UpdateCryptoKeysRequest)
    (db : Store) :
    (UpdateCryptoKeys env inp db).db.cryptoAddresses = db.cryptoAddresses ∨
    ∃ userId x, env.StringToPgUUID inp.UserId = some userId ∧ inp.XmrReq = some x ∧
      (UpdateCryptoKeys env inp db).db.cryptoAddresses
        = db.cryptoAddresses.filter
            (fun a => !decide (a.UserID = userId ∧ a.Coin = CoinTypeXMR)) := by
  by_cases hb : env.beginFails = true
  · left; simp [UpdateCryptoKeys, hb]
  cases hparse : env.StringToPgUUID inp.UserId with
  | none => left; simp [UpdateCryptoKeys, hb, hparse]
  | some userId =>
    cases hcheck : checkIfUserExistsUUID env userId ⟨db, []⟩ with
    | mk st tx1 =>
      cases st with
      | some st => left; simp [UpdateCryptoKeys, hb, hparse, hcheck]
      | none =>
        have h1 := (checkIfUserExistsUUID_ok hcheck).1
        simp only at h1
        cases hr : tx1.run env Query.FindCryptoDataByUserId (FindCryptoDataByUserId userId) with
        | mk r tx2 =>
          cases r with
          | error e => left; simp [UpdateCryptoKeys, hb, hparse, hcheck, hr]
          | ok cd =>
            obtain ⟨_, hq, _⟩ := Tx.run_ok hr
            obtain ⟨h2, hcd⟩ := FindCryptoDataByUserId_ok hq
            cases hx : inp.XmrReq with
            | none =>
              left
              simp only [UpdateCryptoKeys, hb, hparse, hcheck, hr, hx, Tx.commit]
              by_cases hc : env.commitFails = true
              · simp [hc]
              · simp [hc, h2, h1]
            | some x =>
              cases hh : handleXmrCryptoDataUpdate env x cd tx2 with
              | mk st tx3 =>
                cases st with
                | some st => left; simp [UpdateCryptoKeys, hb, hparse, hcheck, hr, hx, hh]
                | none =>
                  have h3 := handleXmrCryptoDataUpdate_addresses hh
                  by_cases hc : env.commitFails = true
                  · left
                    simp [UpdateCryptoKeys, hb, hparse, hcheck, hr, hx, hh, Tx.commit, hc]
                  · right
                    refine ⟨userId, x, rfl, rfl, ?_⟩
                    simp only [UpdateCryptoKeys, hb, hparse, hcheck, hr, hx, hh, Tx.commit, hc,
                      if_false, Bool.false_eq_true]
                    rw [h3, h2, h1, hcd]

/-- C7 (as amended): UpdateCryptoKeys without an XMR key submessage leaves the CryptoAddress rows
as they were; with an XMR key submessage, every address present before the call that is not an
XMR address of the user named in the request is still present afterwards. -/
theorem updateCryptoKeys_keeps_addresses (env : Env) (inp : UpdateCryptoKeysRequest)
    (db : Store) :
    (inp.XmrReq = none →
      (UpdateCryptoKeys env inp db).db.cryptoAddresses = db.cryptoAddresses) ∧
    (∀ a ∈ db.cryptoAddresses,
      (a.Coin ≠ CoinTypeXMR ∨ env.StringToPgUUID inp.UserId ≠ some a.UserID) →
      a ∈ (UpdateCryptoKeys env inp db).db.cryptoAddresses) := by
  rcases updateCryptoKeys_addresses_cases env inp db with h | ⟨userId, x, hu, hx, h⟩
  · exact ⟨fun _ => h, fun a ha _ => by rw [h]; exact ha⟩
  · refine ⟨fun hnone => absurd (hx.symm.trans hnone) (by simp), ?_⟩
    intro a ha hkeep
    rw [h, List.mem_filter]
    refine ⟨ha, ?_⟩
    simp only [Bool.not_eq_true', decide_eq_false_iff_not, not_and]
    intro hid hcoin
    rcases hkeep with hk | hk
    · exact hk hcoin
    · exact hk (by rw [hu, hid])

/-- Witness for C7: without an XMR submessage the two addresses of the sample store stay; with
one, the LTC address of the user stays. -/
theorem updateCryptoKeys_keeps_addresses_witness :
    (UpdateCryptoKeys env0 ⟨user1Str, none⟩ sampleStore).db.cryptoAddresses
      = sampleStore.cryptoAddresses ∧
    (⟨"A", CoinTypeLTC, true, PgUUID.ofByte 1⟩ : CryptoAddress)
      ∈ (UpdateCryptoKeys env0 ⟨user1Str, some sampleXmrKeys⟩ sampleStore).db.cryptoAddresses :=
  ⟨(updateCryptoKeys_keeps_addresses env0 ⟨user1Str, none⟩ sampleStore).1 rfl,
   (updateCryptoKeys_keeps_addresses env0 ⟨user1Str, some sampleXmrKeys⟩ sampleStore).2
      ⟨"A", CoinTypeLTC, true, PgUUID.ofByte 1⟩ (by decide) (Or.inl (by decide))⟩

/-- C7, counterexample to the claim as stated: UpdateCryptoKeys with a valid XMR key submessage
succeeds and the XMR address of the user, present before the call, is gone afterwards. -/
theorem updateCryptoKeys_deletes_xmr_addresses :
    (⟨"xmr-address", CoinTypeXMR, false, PgUUID.ofByte 1⟩ : CryptoAddress)
      ∈ sampleStore.cryptoAddresses ∧
    (UpdateCryptoKeys env0 ⟨user1Str, some sampleXmrKeys⟩ sampleStore).result = .ok ⟨⟩ ∧
    (⟨"xmr-address", CoinTypeXMR, false, PgUUID.ofByte 1⟩ : CryptoAddress)
      ∉ (UpdateCryptoKeys env0 ⟨user1Str, some sampleXmrKeys⟩ sampleStore).db.cryptoAddresses := by
  refine ⟨by decide, rfl, ?_⟩
  decide

/-! ### C8, C9, C10: RegisterUser -/

/-- RegisterUser called with a client-supplied user id that is a valid UUID but already belongs
to an existing user, on every store and in every environment: it fails with the Internal error
kind, carrying DefaultFailedSqlTxInitMsg when the transaction cannot be begun and
DefaultFailedSqlQueryMsg otherwise; it does not issue the crypto-data insertion and leaves the
committed store as it was, so no user and no crypto-data row is created. -/
theorem registerUser_existing_id (env : Env) (inp : RegisterUserRequest) (db : Store)
    (s : String) (id : PgUUID) (hs : inp.UserId = some s)
    (hp : env.StringToPgUUID s = some id) (hex : id ∈ db.users) :
    (env.beginFails = true → (RegisterUser env inp db).result
      = .error ⟨Code.Internal, DefaultFailedSqlTxInitMsg⟩) ∧
    (env.beginFails = false → (RegisterUser env inp db).result
      = .error ⟨Code.Internal, DefaultFailedSqlQueryMsg⟩) ∧
    Query.CreateCryptoData ∉ (RegisterUser env inp db).queries ∧
    (RegisterUser env inp db).db = db := by
  obtain ⟨uid⟩ := inp
  simp only at hs
  subst hs
  by_cases hb : env.beginFails = true
  · simp [RegisterUser, hb]
  · by_cases hf : env.fault Query.CreateUserWithId = true
    · simp [RegisterUser, hb, createUser, hp, Tx.run, hf]
    · simp [RegisterUser, hb, createUser, hp, Tx.run, hf, CreateUserWithId, hex]

/-- The theorem registerUser_existing_id on the sample store, whose user is PgUUID.ofByte 1. -/
theorem registerUser_existing_id_witness :
    (env0.beginFails = true → (RegisterUser env0 ⟨some user1Str⟩ sampleStore).result
      = .error ⟨Code.Internal, DefaultFailedSqlTxInitMsg⟩) ∧
    (env0.beginFails = false → (RegisterUser env0 ⟨some user1Str⟩ sampleStore).result
      = .error ⟨Code.Internal, DefaultFailedSqlQueryMsg⟩) ∧
    Query.CreateCryptoData ∉ (RegisterUser env0 ⟨some user1Str⟩ sampleStore).queries ∧
    (RegisterUser env0 ⟨some user1Str⟩ sampleStore).db = sampleStore :=
  registerUser_existing_id env0 ⟨some user1Str⟩ sampleStore user1Str (PgUUID.ofByte 1) rfl
    (by decide) (by decide)

/-- C8, the code at the failing input: the id of the existing user of the sample store is a
valid UUID, and RegisterUser with it fails with the Internal error kind and the message
DefaultFailedSqlQueryMsg, not with AlreadyExists and not with the message
InvalidUserIdUserExistsMsg that const.go declares for this case; the only query issued is
CreateUserWithId and the store is left as it was, so no user and no crypto-data row is
created. -/
theorem registerUser_existing_id_not_alreadyExists :
    env0.StringToPgUUID user1Str = some (PgUUID.ofByte 1) ∧
    PgUUID.ofByte 1 ∈ sampleStore.users ∧
    (RegisterUser env0 ⟨some user1Str⟩ sampleStore).result
      = .error ⟨Code.Internal, DefaultFailedSqlQueryMsg⟩ ∧
    (¬ ∃ msg, (RegisterUser env0 ⟨some user1Str⟩ sampleStore).result
      = .error ⟨Code.AlreadyExists, msg⟩) ∧
    (¬ ∃ code, (RegisterUser env0 ⟨some user1Str⟩ sampleStore).result
      = .error ⟨code, InvalidUserIdUserExistsMsg⟩) ∧
    (RegisterUser env0 ⟨some user1Str⟩ sampleStore).queries = [Query.CreateUserWithId] ∧
    (RegisterUser env0 ⟨some user1Str⟩ sampleStore).db = sampleStore := by
  have h : (RegisterUser env0 ⟨some user1Str⟩ sampleStore).result
      = .error ⟨Code.Internal, DefaultFailedSqlQueryMsg⟩ := rfl
  refine ⟨by decide, by decide, h, ?_, ?_, rfl, rfl⟩
  · rintro ⟨msg, hmsg⟩
    rw [h] at hmsg
    simp at hmsg
  · rintro ⟨code, hcode⟩
    rw [h] at hcode
    simp only [Except.error.injEq, Status.mk.injEq] at hcode
    exact absurd hcode.2 (by decide)

/-- C9 (as amended): RegisterUser called with a client-supplied user id that is not a valid UUID
string issues no query and leaves the store unchanged; it fails with InvalidArgument carrying
the message InvalidUserIdInvalidUUIDMsg when the transaction could be begun, and with Internal
carrying DefaultFailedSqlTxInitMsg when it could not. -/
theorem registerUser_invalid_uuid (env : Env) (inp : RegisterUserRequest) (db : Store)
    (s : String) (hs : inp.UserId = some s) (hp : env.StringToPgUUID s = none) :
    (RegisterUser env inp db).queries = [] ∧
    (RegisterUser env inp db).db = db ∧
    (env.beginFails = false → (RegisterUser env inp db).result
      = .error ⟨Code.InvalidArgument, InvalidUserIdInvalidUUIDMsg⟩) ∧
    (env.beginFails = true → (RegisterUser env inp db).result
      = .error ⟨Code.Internal, DefaultFailedSqlTxInitMsg⟩) := by
  obtain ⟨uid⟩ := inp
  simp only at hs
  subst hs
  by_cases hb : env.beginFails = true
  · simp [RegisterUser, hb]
  · simp [RegisterUser, hb, createUser, hp]

/-- Witness for C9 with the string "not-a-uuid" on the sample store. -/
theorem registerUser_invalid_uuid_witness :
    (RegisterUser env0 ⟨some "not-a-uuid"⟩ sampleStore).queries = [] ∧
    (RegisterUser env0 ⟨some "not-a-uuid"⟩ sampleStore).db = sampleStore ∧
    (env0.beginFails = false → (RegisterUser env0 ⟨some "not-a-uuid"⟩ sampleStore).result
      = .error ⟨Code.InvalidArgument, InvalidUserIdInvalidUUIDMsg⟩) ∧
    (env0.beginFails = true → (RegisterUser env0 ⟨some "not-a-uuid"⟩ sampleStore).result
      = .error ⟨Code.Internal, DefaultFailedSqlTxInitMsg⟩) :=
  registerUser_invalid_uuid env0 ⟨some "not-a-uuid"⟩ sampleStore "not-a-uuid" rfl (by decide)

/-- C9, counterexample to the claim as stated: when no transaction can be begun, RegisterUser
with the invalid id "not-a-uuid" fails with Internal, not with InvalidArgument. -/
theorem registerUser_invalid_uuid_no_begin :
    envNoBegin.StringToPgUUID "not-a-uuid" = none ∧
    (RegisterUser envNoBegin ⟨some "not-a-uuid"⟩ sampleStore).result
      = .error ⟨Code.Internal, DefaultFailedSqlTxInitMsg⟩ ∧
    (RegisterUser envNoBegin ⟨some "not-a-uuid"⟩ sampleStore).result
      ≠ .error ⟨Code.InvalidArgument, InvalidUserIdInvalidUUIDMsg⟩ := by
  have h : (RegisterUser envNoBegin ⟨some "not-a-uuid"⟩ sampleStore).result
      = .error ⟨Code.Internal, DefaultFailedSqlTxInitMsg⟩ := rfl
  refine ⟨by decide, h, ?_⟩
  rw [h]
  simp

theorem createUser_ok_mem {env : Env} {inp : RegisterUserRequest} {tx tx1 : Tx}
    {userId : PgUUID} (h : createUser env inp tx = (.ok userId, tx1)) :
    userId ∈ tx1.store.users := by
  unfold createUser at h
  split at h
  · cases hr : tx.run env Query.CreateUser (CreateUser env) with
    | mk r tx' =>
      rw [hr] at h
      cases r with
      | error e => simp at h
      | ok u =>
        simp only [Prod.mk.injEq, Except.ok.injEq] at h
        obtain ⟨h1, h2⟩ := h
        subst h1; subst h2
        obtain ⟨_, hq, _⟩ := Tx.run_ok hr
        unfold CreateUser at hq
        simp only at hq
        split at hq
        · cases hq
        · simp only [Except.ok.injEq, Prod.mk.injEq] at hq
          rw [← hq.2, ← hq.1]
          simp
  · split at h
    · simp at h
    · rename_i userIdReq _
      cases hr : tx.run env Query.CreateUserWithId (CreateUserWithId userIdReq) with
      | mk r tx' =>
        rw [hr] at h
        cases r with
        | error e => simp at h
        | ok u =>
          simp only [Prod.mk.injEq, Except.ok.injEq] at h
          obtain ⟨h1, h2⟩ := h
          subst h1; subst h2
          obtain ⟨_, hq, _⟩ := Tx.run_ok hr
          unfold CreateUserWithId at hq
          split at hq
          · cases hq
          · simp only [Except.ok.injEq, Prod.mk.injEq] at hq
            rw [← hq.2, ← hq.1]
            simp

/-- C10: if, in a RegisterUser call whose transaction was begun, createUser succeeded (the user
row is in the working copy of the transaction) and the crypto-data insertion then fails,
RegisterUser returns the Internal error kind and the committed store is identical to the store
before the call. -/
theorem registerUser_cryptoData_failure (env : Env) (inp : RegisterUserRequest) (db : Store)
    (userId : PgUUID) (tx1 tx2 : Tx) (e : SqlErr) (hb : env.beginFails = false)
    (hu : createUser env inp ⟨db, []⟩ = (.ok userId, tx1))
    (hc : tx1.run env Query.CreateCryptoData (CreateCryptoData { UserID := userId })
      = (.error e, tx2)) :
    userId ∈ tx1.store.users ∧
    (RegisterUser env inp db).result = .error ⟨Code.Internal, DefaultFailedSqlQueryMsg⟩ ∧
    (RegisterUser env inp db).db = db := by
  refine ⟨createUser_ok_mem hu, ?_, ?_⟩
  · simp [RegisterUser, hb, hu, hc]
  · simp [RegisterUser, hb, hu, hc]

/-- Witness for C10: on the empty store, with the crypto-data insertion hit by a storage failure,
the generated user is in the working copy, RegisterUser returns Internal and the committed store
is still empty. -/
theorem registerUser_cryptoData_failure_witness :
    PgUUID.ofByte 100 ∈ [PgUUID.ofByte 100] ∧
    (RegisterUser envCryptoDataFault ⟨none⟩ Store.empty).result
      = .error ⟨Code.Internal, DefaultFailedSqlQueryMsg⟩ ∧
    (RegisterUser envCryptoDataFault ⟨none⟩ Store.empty).db = Store.empty :=
  registerUser_cryptoData_failure envCryptoDataFault ⟨none⟩ Store.empty (PgUUID.ofByte 100)
    ⟨{ Store.empty with users := [PgUUID.ofByte 100] }, [Query.CreateUser]⟩
    ⟨{ Store.empty with users := [PgUUID.ofByte 100] },
      [Query.CreateUser, Query.CreateCryptoData]⟩
    SqlErr.connection rfl rfl rfl

/-! ### C17, C18: values outside the coin tables -/

/-- C17: for every int32 value that is not one of the wire coin numbers 0..41, PbCoinToDbCoin
fails with invalidProtoBufCoinTypeErr. -/
theorem pbCoinToDbCoin_out_of_range (c : PbCoinType) (hc : c < 0 ∨ 41 < c) :
    PbCoinToDbCoin c = .error MapErr.invalidProtoBufCoinTypeErr := by
  have h : ∀ k : Int, 0 ≤ k → k ≤ 41 → ¬ c = k := by
    intro k h0 h1 hk
    subst hk
    rcases hc with h | h
    · exact absurd h (not_lt.mpr h0)
    · exact absurd h (not_lt.mpr h1)
  unfold PbCoinToDbCoin
  rw [if_neg (h CoinType_XMR (by decide) (by decide)),
    if_neg (h CoinType_BTC (by decide) (by decide)),
    if_neg (h CoinType_LTC (by decide) (by decide)),
    if_neg (h CoinType_ETH (by decide) (by decide)),
    if_neg (h CoinType_TON (by decide) (by decide)),
    if_neg (h CoinType_USDT_ERC20 (by decide) (by decide)),
    if_neg (h CoinType_USDC_ERC20 (by decide) (by decide)),
    if_neg (h CoinType_DAI_ERC20 (by decide) (by decide)),
    if_neg (h CoinType_WBTC_ERC20 (by decide) (by decide)),
    if_neg (h CoinType_UNI_ERC20 (by decide) (by decide)),
    if_neg (h CoinType_LINK_ERC20 (by decide) (by decide)),
    if_neg (h CoinType_AAVE_ERC20 (by decide) (by decide)),
    if_neg (h CoinType_CRV_ERC20 (by decide) (by decide)),
    if_neg (h CoinType_MATIC_ERC20 (by decide) (by decide)),
    if_neg (h CoinType_SHIB_ERC20 (by decide) (by decide)),
    if_neg (h CoinType_BNB_ERC20 (by decide) (by decide)),
    if_neg (h CoinType_ATOM_ERC20 (by decide) (by decide)),
    if_neg (h CoinType_ARB_ERC20 (by decide) (by decide)),
    if_neg (h CoinType_BNB (by decide) (by decide)),
    if_neg (h CoinType_BSCUSD_BEP20 (by decide) (by decide)),
    if_neg (h CoinType_USDC_BEP20 (by decide) (by decide)),
    if_neg (h CoinType_DAI_BEP20 (by decide) (by decide)),
    if_neg (h CoinType_BUSD_BEP20 (by decide) (by decide)),
    if_neg (h CoinType_WBTC_BEP20 (by decide) (by decide)),
    if_neg (h CoinType_BTCB_BEP20 (by decide) (by decide)),
    if_neg (h CoinType_UNI_BEP20 (by decide) (by decide)),
    if_neg (h CoinType_LINK_BEP20 (by decide) (by decide)),
    if_neg (h CoinType_AAVE_BEP20 (by decide) (by decide)),
    if_neg (h CoinType_MATIC_BEP20 (by decide) (by decide)),
    if_neg (h CoinType_SHIB_BEP20 (by decide) (by decide)),
    if_neg (h CoinType_ATOM_BEP20 (by decide) (by decide)),
    if_neg (h CoinType_ARB_BEP20 (by decide) (by decide)),
    if_neg (h CoinType_ETH_BEP20 (by decide) (by decide)),
    if_neg (h CoinType_XRP_BEP20 (by decide) (by decide)),
    if_neg (h CoinType_ADA_BEP20 (by decide) (by decide)),
    if_neg (h CoinType_TRX_BEP20 (by decide) (by decide)),
    if_neg (h CoinType_DOGE_BEP20 (by decide) (by decide)),
    if_neg (h CoinType_LTC_BEP20 (by decide) (by decide)),
    if_neg (h CoinType_BCH_BEP20 (by decide) (by decide)),
    if_neg (h CoinType_TWT_BEP20 (by decide) (by decide)),
    if_neg (h CoinType_AVAX_BEP20 (by decide) (by decide)),
    if_neg (h CoinType_CAKE_BEP20 (by decide) (by decide))]

/-- Witness for C17 at math.MaxInt32. -/
theorem pbCoinToDbCoin_out_of_range_witness :
    PbCoinToDbCoin 2147483647 = .error MapErr.invalidProtoBufCoinTypeErr :=
  pbCoinToDbCoin_out_of_range 2147483647 (Or.inr (by decide))

/-- C18: for every storage coin string that is not one of the 42 storage coin values (the table
dbCoins), DbCoinToPbCoin fails with invalidDbCoinTypeErr. -/
theorem dbCoinToPbCoin_unknown (coin : DbCoinType) (hc : coin ∉ dbCoins) :
    DbCoinToPbCoin coin = .error MapErr.invalidDbCoinTypeErr := by
  have h : ∀ k : DbCoinType, k ∈ dbCoins → ¬ coin = k := by
    intro k hk hck
    exact hc (hck ▸ hk)
  unfold DbCoinToPbCoin
  rw [if_neg (h CoinTypeXMR (by decide)),
    if_neg (h CoinTypeBTC (by decide)),
    if_neg (h CoinTypeLTC (by decide)),
    if_neg (h CoinTypeETH (by decide)),
    if_neg (h CoinTypeTON (by decide)),
    if_neg (h CoinTypeUSDTERC20 (by decide)),
    if_neg (h CoinTypeUSDCERC20 (by decide)),
    if_neg (h CoinTypeDAIERC20 (by decide)),
    if_neg (h CoinTypeWBTCERC20 (by decide)),
    if_neg (h CoinTypeUNIERC20 (by decide)),
    if_neg (h CoinTypeLINKERC20 (by decide)),
    if_neg (h CoinTypeAAVEERC20 (by decide)),
    if_neg (h CoinTypeCRVERC20 (by decide)),
    if_neg (h CoinTypeMATICERC20 (by decide)),
    if_neg (h CoinTypeSHIBERC20 (by decide)),
    if_neg (h CoinTypeBNBERC20 (by decide)),
    if_neg (h CoinTypeATOMERC20 (by decide)),
    if_neg (h CoinTypeARBERC20 (by decide)),
    if_neg (h CoinTypeBNB (by decide)),
    if_neg (h CoinTypeBSCUSDBEP20 (by decide)),
    if_neg (h CoinTypeUSDCBEP20 (by decide)),
    if_neg (h CoinTypeDAIBEP20 (by decide)),
    if_neg (h CoinTypeBUSDBEP20 (by decide)),
    if_neg (h CoinTypeWBTCBEP20 (by decide)),
    if_neg (h CoinTypeBTCBBEP20 (by decide)),
    if_neg (h CoinTypeUNIBEP20 (by decide)),
    if_neg (h CoinTypeLINKBEP20 (by decide)),
    if_neg (h CoinTypeAAVEBEP20 (by decide)),
    if_neg (h CoinTypeMATICBEP20 (by decide)),
    if_neg (h CoinTypeSHIBBEP20 (by decide)),
    if_neg (h CoinTypeATOMBEP20 (by decide)),
    if_neg (h CoinTypeARBBEP20 (by decide)),
    if_neg (h CoinTypeETHBEP20 (by decide)),
    if_neg (h CoinTypeXRPBEP20 (by decide)),
    if_neg (h CoinTypeADABEP20 (by decide)),
    if_neg (h CoinTypeTRXBEP20 (by decide)),
    if_neg (h CoinTypeDOGEBEP20 (by decide)),
    if_neg (h CoinTypeLTCBEP20 (by decide)),
    if_neg (h CoinTypeBCHBEP20 (by decide)),
    if_neg (h CoinTypeTWTBEP20 (by decide)),
    if_neg (h CoinTypeAVAXBEP20 (by decide)),
    if_neg (h CoinTypeCAKEBEP20 (by decide))]

/-- Witness for C18 at a UUID string. -/
theorem dbCoinToPbCoin_unknown_witness :
    DbCoinToPbCoin "00000000-0000-0000-0000-000000000001"
      = .error MapErr.invalidDbCoinTypeErr :=
  dbCoinToPbCoin_unknown "00000000-0000-0000-0000-000000000001" (by decide)

/-! ### C20: invoice status mapping -/

/-- C20: DbInvoiceStatusToPbInvoiceStatus maps PENDING, PENDING_MEMPOOL, EXPIRED and CONFIRMED
to the wire statuses of the same names (position by position in the tables of the test), and
fails with invalidDbStatusTypeErr for every other storage status string. -/
theorem dbInvoiceStatusToPbInvoiceStatus_spec :
    DbInvoiceStatusToPbInvoiceStatus InvoiceStatusTypePENDING
      = .ok PbInvoiceStatusType.PENDING ∧
    DbInvoiceStatusToPbInvoiceStatus InvoiceStatusTypePENDINGMEMPOOL
      = .ok PbInvoiceStatusType.PENDING_MEMPOOL ∧
    DbInvoiceStatusToPbInvoiceStatus InvoiceStatusTypeEXPIRED
      = .ok PbInvoiceStatusType.EXPIRED ∧
    DbInvoiceStatusToPbInvoiceStatus InvoiceStatusTypeCONFIRMED
      = .ok PbInvoiceStatusType.CONFIRMED ∧
    dbInvoiceStatuses.map DbInvoiceStatusToPbInvoiceStatus
      = pbInvoiceStatuses.map Except.ok ∧
    ∀ status : DbInvoiceStatusType, status ∉ dbInvoiceStatuses →
      DbInvoiceStatusToPbInvoiceStatus status = .error MapErr.invalidDbStatusTypeErr := by
  refine ⟨rfl, rfl, rfl, rfl, rfl, ?_⟩
  intro status hs
  have h : ∀ k : DbInvoiceStatusType, k ∈ dbInvoiceStatuses → ¬ status = k := by
    intro k hk hsk
    exact hs (hsk ▸ hk)
  unfold DbInvoiceStatusToPbInvoiceStatus
  rw [if_neg (h InvoiceStatusTypePENDING (by decide)),
    if_neg (h InvoiceStatusTypePENDINGMEMPOOL (by decide)),
    if_neg (h InvoiceStatusTypeEXPIRED (by decide)),
    if_neg (h InvoiceStatusTypeCONFIRMED (by decide))]

/-- Witness for C20 at a UUID string, which is no storage status. -/
theorem dbInvoiceStatusToPbInvoiceStatus_spec_witness :
    DbInvoiceStatusToPbInvoiceStatus "00000000-0000-0000-0000-000000000001"
      = .error MapErr.invalidDbStatusTypeErr :=
  dbInvoiceStatusToPbInvoiceStatus_spec.2.2.2.2.2 "00000000-0000-0000-0000-000000000001"
    (by decide)

/-! ### C19: UUID round trip -/

theorem hexVal_hexDigit : ∀ n : Fin 16, hexVal (hexDigit n.val) = some n.val := by decide

theorem hexDigit_ne_dash : ∀ n : Fin 16, (hexDigit n.val != '-') = true := by decide

theorem hexOfBytes_cons (b : Nat) (bs : List Nat) :
    hexOfBytes (b :: bs) = hexDigit (b / 16) :: hexDigit (b % 16) :: hexOfBytes bs := rfl

theorem hexBytes_hexOfBytes :
    ∀ bs : List Nat, (∀ b ∈ bs, b < 256) → hexBytes (hexOfBytes bs) = some bs := by
  intro bs
  induction bs with
  | nil => intro _; rfl
  | cons b bs ih =>
    intro h
    have hb : b < 256 := h b (List.mem_cons_self _ _)
    have h1 := hexVal_hexDigit ⟨b / 16, by omega⟩
    have h2 := hexVal_hexDigit ⟨b % 16, by omega⟩
    simp only at h1 h2
    have ih' := ih (fun x hx => h x (List.mem_cons_of_mem _ hx))
    rw [hexOfBytes_cons]
    simp only [hexBytes, h1, h2, ih']
    have hdm : 16 * (b / 16) + b % 16 = b := Nat.div_add_mod b 16
    rw [hdm]

theorem filter_hexOfBytes :
    ∀ bs : List Nat, (∀ b ∈ bs, b < 256) →
      (hexOfBytes bs).filter (fun c => c != '-') = hexOfBytes bs := by
  intro bs h
  rw [List.filter_eq_self]
  intro c hc
  unfold hexOfBytes at hc
  rw [List.mem_flatMap] at hc
  obtain ⟨b, hb, hcb⟩ := hc
  have hlt := h b hb
  simp only [List.mem_cons, List.mem_singleton, List.not_mem_nil, or_false] at hcb
  rcases hcb with hcb | hcb
  · rw [hcb]; exact hexDigit_ne_dash ⟨b / 16, by omega⟩
  · rw [hcb]; exact hexDigit_ne_dash ⟨b % 16, by omega⟩

theorem list16_cases (P : List Nat → Prop)
    (h : ∀ b0 b1 b2 b3 b4 b5 b6 b7 b8 b9 b10 b11 b12 b13 b14 b15 : Nat, P [b0, b1, b2, b3, b4, b5, b6, b7, b8, b9, b10, b11, b12, b13, b14, b15]) :
    ∀ l : List Nat, l.length = 16 → P l := by
  intro l hlen
  rcases l with _ | ⟨b0, _ | ⟨b1, _ | ⟨b2, _ | ⟨b3, _ | ⟨b4, _ | ⟨b5, _ | ⟨b6, _ | ⟨b7, _ | ⟨b8, _ | ⟨b9, _ | ⟨b10, _ | ⟨b11, _ | ⟨b12, _ | ⟨b13, _ | ⟨b14, _ | ⟨b15, _ | ⟨b16, rest⟩⟩⟩⟩⟩⟩⟩⟩⟩⟩⟩⟩⟩⟩⟩⟩⟩
  all_goals try (simp at hlen; done)
  exact h b0 b1 b2 b3 b4 b5 b6 b7 b8 b9 b10 b11 b12 b13 b14 b15

/-- C19: for every UUID, given by its 16 bytes, StringToPgUUID applied to the canonical
lower-case string form succeeds with Valid = true and exactly these bytes, and PgUUIDToString
applied to that result returns the original string. -/
theorem stringToPgUUID_roundtrip (bytes : List Nat) (hlen : bytes.length = 16)
    (hb : ∀ b ∈ bytes, b < 256) :
    StringToPgUUID (uuidString bytes) = .ok ⟨bytes, true⟩ ∧
    PgUUIDToString ⟨bytes, true⟩ = uuidString bytes := by
  have hparse := hexBytes_hexOfBytes bytes hb
  revert hb hparse
  refine list16_cases (fun l => (∀ b ∈ l, b < 256) → hexBytes (hexOfBytes l) = some l →
    (StringToPgUUID (uuidString l) = .ok ⟨l, true⟩ ∧
      PgUUIDToString ⟨l, true⟩ = uuidString l)) ?_ bytes hlen
  intro b0 b1 b2 b3 b4 b5 b6 b7 b8 b9 b10 b11 b12 b13 b14 b15 hb hparse
  have h0 : b0 < 256 := hb b0 (by simp)
  have h1 : b1 < 256 := hb b1 (by simp)
  have h2 : b2 < 256 := hb b2 (by simp)
  have h3 : b3 < 256 := hb b3 (by simp)
  have h4 : b4 < 256 := hb b4 (by simp)
  have h5 : b5 < 256 := hb b5 (by simp)
  have h6 : b6 < 256 := hb b6 (by simp)
  have h7 : b7 < 256 := hb b7 (by simp)
  have h8 : b8 < 256 := hb b8 (by simp)
  have h9 : b9 < 256 := hb b9 (by simp)
  have h10 : b10 < 256 := hb b10 (by simp)
  have h11 : b11 < 256 := hb b11 (by simp)
  have h12 : b12 < 256 := hb b12 (by simp)
  have h13 : b13 < 256 := hb b13 (by simp)
  have h14 : b14 < 256 := hb b14 (by simp)
  have h15 : b15 < 256 := hb b15 (by simp)
  have hf1 := filter_hexOfBytes [b0, b1, b2, b3] (fun b h => by
      simp only [List.mem_cons, List.mem_singleton, List.not_mem_nil, or_false] at h
      rcases h with rfl | rfl | rfl | rfl
      all_goals first | exact h0 | exact h1 | exact h2 | exact h3)
  have hf2 := filter_hexOfBytes [b4, b5] (fun b h => by
      simp only [List.mem_cons, List.mem_singleton, List.not_mem_nil, or_false] at h
      rcases h with rfl | rfl
      all_goals first | exact h4 | exact h5)
  have hf3 := filter_hexOfBytes [b6, b7] (fun b h => by
      simp only [List.mem_cons, List.mem_singleton, List.not_mem_nil, or_false] at h
      rcases h with rfl | rfl
      all_goals first | exact h6 | exact h7)
  have hf4 := filter_hexOfBytes [b8, b9] (fun b h => by
      simp only [List.mem_cons, List.mem_singleton, List.not_mem_nil, or_false] at h
      rcases h with rfl | rfl
      all_goals first | exact h8 | exact h9)
  have hf5 := filter_hexOfBytes [b10, b11, b12, b13, b14, b15] (fun b h => by
      simp only [List.mem_cons, List.mem_singleton, List.not_mem_nil, or_false] at h
      rcases h with rfl | rfl | rfl | rfl | rfl | rfl
      all_goals first | exact h10 | exact h11 | exact h12 | exact h13 | exact h14 | exact h15)
  have hfilter : (hexOfBytes [b0, b1, b2, b3] ++ '-' :: (hexOfBytes [b4, b5] ++
      '-' :: (hexOfBytes [b6, b7] ++ '-' :: (hexOfBytes [b8, b9] ++
      '-' :: hexOfBytes [b10, b11, b12, b13, b14, b15])))).filter (fun c => c != '-')
      = hexOfBytes [b0, b1, b2, b3, b4, b5, b6, b7, b8, b9, b10, b11, b12, b13, b14, b15] := by
    simp only [List.filter_append, List.filter_cons, hf1, hf2, hf3, hf4, hf5]
    rfl
  refine ⟨?_, rfl⟩
  unfold StringToPgUUID parseUUID
  show (match (if _ then (match hexBytes (List.filter (fun c => c != '-')
      (hexOfBytes [b0, b1, b2, b3] ++ '-' :: (hexOfBytes [b4, b5] ++
      '-' :: (hexOfBytes [b6, b7] ++ '-' :: (hexOfBytes [b8, b9] ++
      '-' :: hexOfBytes [b10, b11, b12, b13, b14, b15]))))) with
      | some bs => if bs.length = 16 then some (PgUUID.mk bs true) else none
      | none => none) else none) with
    | some u => Except.ok u
    | none => Except.error "cannot parse UUID") = _
  rw [hfilter, hparse]
  rw [if_pos ⟨rfl, rfl, rfl, rfl, rfl⟩]
  rfl

/-- Witness for C19 at the UUID whose last byte is 1 and whose other bytes are 0. -/
theorem stringToPgUUID_roundtrip_witness :
    StringToPgUUID "00000000-0000-0000-0000-000000000001" = .ok (PgUUID.ofByte 1) ∧
    PgUUIDToString (PgUUID.ofByte 1) = "00000000-0000-0000-0000-000000000001" :=
  stringToPgUUID_roundtrip (PgUUID.ofByte 1).Bytes rfl (by decide)

/-! ### C12: key validation in handleXmrCryptoDataUpdate -/

/-- C12: handleXmrCryptoDataUpdate called with a private view key or a public spend key that is
not valid returns InvalidArgument and hands the transaction back untouched: no query is issued,
so no address is deleted, no key row is created or updated and the XMR reference of the user is
unchanged; the private view key is checked first. -/
theorem handleXmrCryptoDataUpdate_invalid_key (env : Env) (inp : XmrKeysUpdateRequest)
    (cryptData : CryptoDatum) (tx : Tx)
    (h : env.NewPrivateKey inp.PrivViewKey = false ∨ env.NewPublicKey inp.PubSpendKey = false) :
    (∃ msg, handleXmrCryptoDataUpdate env inp cryptData tx
      = (some ⟨Code.InvalidArgument, msg⟩, tx)) ∧
    (env.NewPrivateKey inp.PrivViewKey = false →
      handleXmrCryptoDataUpdate env inp cryptData tx
        = (some ⟨Code.InvalidArgument, "Invalid XMR private view key."⟩, tx)) ∧
    (env.NewPrivateKey inp.PrivViewKey = true → env.NewPublicKey inp.PubSpendKey = false →
      handleXmrCryptoDataUpdate env inp cryptData tx
        = (some ⟨Code.InvalidArgument, "Invalid XMR public spend key."⟩, tx)) := by
  have h1 : env.NewPrivateKey inp.PrivViewKey = false →
      handleXmrCryptoDataUpdate env inp cryptData tx
        = (some ⟨Code.InvalidArgument, "Invalid XMR private view key."⟩, tx) := by
    intro hp
    simp [handleXmrCryptoDataUpdate, hp]
  have h2 : env.NewPrivateKey inp.PrivViewKey = true → env.NewPublicKey inp.PubSpendKey = false →
      handleXmrCryptoDataUpdate env inp cryptData tx
        = (some ⟨Code.InvalidArgument, "Invalid XMR public spend key."⟩, tx) := by
    intro hp hs
    simp [handleXmrCryptoDataUpdate, hp, hs]
  refine ⟨?_, h1, h2⟩
  cases hp : env.NewPrivateKey inp.PrivViewKey with
  | false => exact ⟨_, h1 hp⟩
  | true =>
    rcases h with h | h
    · rw [hp] at h; cases h
    · exact ⟨_, h2 hp h⟩

/-- Witness for C12: a private view key of 3 characters is rejected by env0 before anything is
done in the transaction on the sample store. -/
theorem handleXmrCryptoDataUpdate_invalid_key_witness :
    (∃ msg, handleXmrCryptoDataUpdate env0 ⟨"abc", "def"⟩
        ⟨PgUUID.ofByte 1, PgUUID.null, PgUUID.null, PgUUID.null, PgUUID.null, PgUUID.null⟩
        ⟨sampleStore, []⟩
      = (some ⟨Code.InvalidArgument, msg⟩, ⟨sampleStore, []⟩)) ∧
    (env0.NewPrivateKey "abc" = false →
      handleXmrCryptoDataUpdate env0 ⟨"abc", "def"⟩
        ⟨PgUUID.ofByte 1, PgUUID.null, PgUUID.null, PgUUID.null, PgUUID.null, PgUUID.null⟩
        ⟨sampleStore, []⟩
        = (some ⟨Code.InvalidArgument, "Invalid XMR private view key."⟩, ⟨sampleStore, []⟩)) ∧
    (env0.NewPrivateKey "abc" = true → env0.NewPublicKey "def" = false →
      handleXmrCryptoDataUpdate env0 ⟨"abc", "def"⟩
        ⟨PgUUID.ofByte 1, PgUUID.null, PgUUID.null, PgUUID.null, PgUUID.null, PgUUID.null⟩
        ⟨sampleStore, []⟩
        = (some ⟨Code.InvalidArgument, "Invalid XMR public spend key."⟩, ⟨sampleStore, []⟩)) :=
  handleXmrCryptoDataUpdate_invalid_key env0 ⟨"abc", "def"⟩
    ⟨PgUUID.ofByte 1, PgUUID.null, PgUUID.null, PgUUID.null, PgUUID.null, PgUUID.null⟩
    ⟨sampleStore, []⟩ (Or.inl (by decide))

/-! ### C11: the rows of a registered user -/

theorem CreateCryptoData_ok {arg : CreateCryptoDataParams} {s s' : Store} {row : CryptoDatum}
    (h : CreateCryptoData arg s = .ok (row, s')) :
    row = ⟨arg.UserID, arg.XmrID, PgUUID.null, PgUUID.null, PgUUID.null, PgUUID.null⟩ ∧
    s'.users = s.users ∧ s'.cryptoData = s.cryptoData ++ [row] ∧
    s.cryptoData.filter (fun c => decide (c.UserID = arg.UserID)) = [] := by
  unfold CreateCryptoData at h
  split at h
  · cases h
  · split at h
    · cases h
    · split at h
      · cases h
      · rename_i hany
        simp only [Except.ok.injEq, Prod.mk.injEq] at h
        obtain ⟨h1, h2⟩ := h
        subst h1
        refine ⟨rfl, by rw [← h2], by rw [← h2], ?_⟩
        rw [List.filter_eq_nil_iff]
        intro c hc hcu
        exact hany (List.any_eq_true.mpr ⟨c, hc, hcu⟩)

theorem createUser_ok_fresh {env : Env} {inp : RegisterUserRequest} {tx tx1 : Tx}
    {userId : PgUUID} (h : createUser env inp tx = (.ok userId, tx1)) :
    userId ∉ tx.store.users ∧ tx1.store.cryptoData = tx.store.cryptoData := by
  unfold createUser at h
  split at h
  · cases hr : tx.run env Query.CreateUser (CreateUser env) with
    | mk r tx' =>
      rw [hr] at h
      cases r with
      | error e => simp at h
      | ok u =>
        simp only [Prod.mk.injEq, Except.ok.injEq] at h
        obtain ⟨h1, h2⟩ := h
        subst h1; subst h2
        obtain ⟨_, hq, _⟩ := Tx.run_ok hr
        unfold CreateUser at hq
        simp only at hq
        split at hq
        · cases hq
        · rename_i hnot
          simp only [Except.ok.injEq, Prod.mk.injEq] at hq
          rw [← hq.2, ← hq.1]
          exact ⟨hnot, rfl⟩
  · split at h
    · simp at h
    · rename_i userIdReq _
      cases hr : tx.run env Query.CreateUserWithId (CreateUserWithId userIdReq) with
      | mk r tx' =>
        rw [hr] at h
        cases r with
        | error e => simp at h
        | ok u =>
          simp only [Prod.mk.injEq, Except.ok.injEq] at h
          obtain ⟨h1, h2⟩ := h
          subst h1; subst h2
          obtain ⟨_, hq, _⟩ := Tx.run_ok hr
          unfold CreateUserWithId at hq
          split at hq
          · cases hq
          · rename_i hnot
            simp only [Except.ok.injEq, Prod.mk.injEq] at hq
            rw [← hq.2, ← hq.1]
            exact ⟨hnot, rfl⟩

/-- When the commit goes through, a successful RegisterUser leaves the created user row, whose
id is the one returned, and exactly one crypto-data row of that user, all of whose key
references are null. -/
theorem registerUser_success_committed (env : Env) (inp : RegisterUserRequest) (db : Store)
    (resp : RegisterUserResponse) (hc : env.commitFails = false)
    (h : (RegisterUser env inp db).result = .ok resp) :
    ∃ userId, resp.UserId = env.PgUUIDToString userId ∧ userId ∉ db.users ∧
      userId ∈ (RegisterUser env inp db).db.users ∧
      (RegisterUser env inp db).db.cryptoData.filter (fun c => decide (c.UserID = userId))
        = [⟨userId, PgUUID.null, PgUUID.null, PgUUID.null, PgUUID.null, PgUUID.null⟩] := by
  by_cases hb : env.beginFails = true
  · simp [RegisterUser, hb] at h
  cases hu : createUser env inp ⟨db, []⟩ with
  | mk r tx1 =>
    cases r with
    | error st => simp [RegisterUser, hb, hu] at h
    | ok userId =>
      cases hr : tx1.run env Query.CreateCryptoData (CreateCryptoData { UserID := userId }) with
      | mk r2 tx2 =>
        cases r2 with
        | error e => simp [RegisterUser, hb, hu, hr] at h
        | ok row =>
          obtain ⟨_, hq, _⟩ := Tx.run_ok hr
          obtain ⟨hrow, husers, hcd, hnone⟩ := CreateCryptoData_ok hq
          have hmem := createUser_ok_mem hu
          have hfresh := (createUser_ok_fresh hu).1
          simp only [RegisterUser, hb, hu, hr, Except.ok.injEq, Bool.false_eq_true,
            if_false] at h
          refine ⟨userId, by rw [← h], hfresh, ?_, ?_⟩
          · simp only [RegisterUser, hb, hu, hr, Tx.commit, hc, Bool.false_eq_true, if_false]
            rw [husers]; exact hmem
          · simp only [RegisterUser, hb, hu, hr, Tx.commit, hc, Bool.false_eq_true, if_false]
            rw [hcd, List.filter_append, hnone, hrow]
            simp

/-- C11, the code at the failing input: when tx.Commit fails, RegisterUser still returns a
success response carrying a user id, and the committed store holds neither a user row nor a
crypto-data row for it. -/
theorem registerUser_success_without_rows :
    (RegisterUser envCommitFails ⟨none⟩ Store.empty).result
      = .ok ⟨"00000000-0000-0000-0000-000000000064"⟩ ∧
    envCommitFails.StringToPgUUID "00000000-0000-0000-0000-000000000064"
      = some (PgUUID.ofByte 100) ∧
    (RegisterUser envCommitFails ⟨none⟩ Store.empty).db.users = [] ∧
    (RegisterUser envCommitFails ⟨none⟩ Store.empty).db.cryptoData.filter
      (fun c => decide (c.UserID = PgUUID.ofByte 100)) = [] := by
  refine ⟨?_, by decide, rfl, rfl⟩
  show Except.ok (RegisterUserResponse.mk (formatUUID (PgUUID.ofByte 100))) = _
  have hf : formatUUID (PgUUID.ofByte 100) = "00000000-0000-0000-0000-000000000064" := by
    decide
  rw [hf]

/-! ### C13, C14, C15: address allocation -/

theorem Tx.run_error {α : Type} {env : Env} {name : Query}
    {q : Store → Except SqlErr (α × Store)} {tx tx' : Tx} {e : SqlErr}
    (h : tx.run env name q = (.error e, tx')) : tx'.store = tx.store := by
  unfold Tx.run at h
  by_cases hf : env.fault name = true
  · simp only [hf, if_true, Prod.mk.injEq] at h
    rw [← h.2]
  · simp only [hf, if_false, Bool.false_eq_true] at h
    cases hq : q tx.store with
    | error e' =>
      rw [hq] at h
      simp only [Prod.mk.injEq] at h
      rw [← h.2]
    | ok p =>
      rw [hq] at h
      simp at h

theorem incrementedIndices_ok_next {major minor a b : Int}
    (h : incrementedIndices major minor = .ok (a, b)) : nextCursor major minor = (a, b) := by
  unfold incrementedIndices at h
  unfold nextCursor
  by_cases hm : minor = INT32_MAX
  · simp only [if_pos hm] at h
    have hlt : ¬ minor < INT32_MAX := by rw [hm]; exact lt_irrefl _
    rw [if_neg hlt]
    split at h
    · simp only [Except.ok.injEq] at h
      exact h
    · cases h
  · simp only [if_neg hm] at h
    split at h
    · rename_i hin
      simp only [Except.ok.injEq] at h
      simp only [Bool.and_eq_true] at hin
      have h2 := (inInt32_iff _).mp hin.2
      have hlt : minor < INT32_MAX := by
        simp only [INT32_MAX]
        omega
      rw [if_pos hlt]
      exact h
    · cases h

theorem bumpMasterKeyRow_ok (id : PgUUID) :
    ∀ (rows rows' : List MasterKeyDatum) (r' : MasterKeyDatum),
      bumpMasterKeyRow id rows = .ok (r', rows') → cursorAdvancedOnce id rows rows' := by
  intro rows
  induction rows with
  | nil => intro rows' r' h; simp [bumpMasterKeyRow] at h
  | cons x xs ih =>
    intro rows' r' h
    unfold bumpMasterKeyRow at h
    by_cases hx : x.ID = id
    · rw [if_pos hx] at h
      cases hinc : incrementedIndices x.LastMajorIndex x.LastMinorIndex with
      | error e => rw [hinc] at h; cases h
      | ok ab =>
        obtain ⟨a, b⟩ := ab
        rw [hinc] at h
        simp only [Except.ok.injEq, Prod.mk.injEq] at h
        have hnext := incrementedIndices_ok_next hinc
        refine ⟨[], x, xs, rfl, ?_, hx, ?_⟩
        · intro y hy
          cases hy
        · rw [← h.2, hnext]
          rfl
    · rw [if_neg hx] at h
      cases hrec : bumpMasterKeyRow id xs with
      | error e => rw [hrec] at h; cases h
      | ok p =>
        obtain ⟨r1, rs1⟩ := p
        rw [hrec] at h
        simp only [Except.ok.injEq, Prod.mk.injEq] at h
        obtain ⟨pre, r, post, hb, hpre, hid, ha⟩ := ih rs1 r1 hrec
        refine ⟨x :: pre, r, post, ?_, ?_, hid, ?_⟩
        · rw [hb]
          rfl
        · intro y hy
          rcases List.mem_cons.mp hy with hy | hy
          · rw [hy]
            exact hx
          · exact hpre y hy
        · rw [← h.2, ha]
          rfl

theorem FindKeysLTC_ok {id : PgUUID} {s s' : Store} {r : MasterKeyDatum}
    (h : FindKeysAndIncrementedIndicesLTCCryptoDataById id s = .ok (r, s')) :
    s'.cryptoAddresses = s.cryptoAddresses ∧ s'.users = s.users ∧
      s'.bnbCryptoData = s.bnbCryptoData ∧
      cursorAdvancedOnce id s.ltcCryptoData s'.ltcCryptoData := by
  unfold FindKeysAndIncrementedIndicesLTCCryptoDataById at h
  cases hb : bumpMasterKeyRow id s.ltcCryptoData with
  | error e => rw [hb] at h; cases h
  | ok p =>
    obtain ⟨r1, rows⟩ := p
    rw [hb] at h
    simp only [Except.ok.injEq, Prod.mk.injEq] at h
    obtain ⟨h1, h2⟩ := h
    subst h1; subst h2
    exact ⟨rfl, rfl, rfl, bumpMasterKeyRow_ok id _ _ _ hb⟩

theorem FindKeysBNB_ok {id : PgUUID} {s s' : Store} {r : MasterKeyDatum}
    (h : FindKeysAndIncrementedIndicesBNBCryptoDataById id s = .ok (r, s')) :
    s'.cryptoAddresses = s.cryptoAddresses ∧ s'.users = s.users ∧
      s'.ltcCryptoData = s.ltcCryptoData ∧
      cursorAdvancedOnce id s.bnbCryptoData s'.bnbCryptoData := by
  unfold FindKeysAndIncrementedIndicesBNBCryptoDataById at h
  cases hb : bumpMasterKeyRow id s.bnbCryptoData with
  | error e => rw [hb] at h; cases h
  | ok p =>
    obtain ⟨r1, rows⟩ := p
    rw [hb] at h
    simp only [Except.ok.injEq, Prod.mk.injEq] at h
    obtain ⟨h1, h2⟩ := h
    subst h1; subst h2
    exact ⟨rfl, rfl, rfl, bumpMasterKeyRow_ok id _ _ _ hb⟩

theorem CreateCryptoAddress_ok {arg : CreateCryptoAddressParams} {s s' : Store}
    {row : CryptoAddress} (h : CreateCryptoAddress arg s = .ok (row, s')) :
    row = ⟨arg.Address, arg.Coin, arg.IsOccupied, arg.UserID⟩ ∧
    s'.cryptoAddresses = s.cryptoAddresses ++ [row] ∧
    s'.ltcCryptoData = s.ltcCryptoData ∧ s'.bnbCryptoData = s.bnbCryptoData := by
  unfold CreateCryptoAddress at h
  split at h
  · cases h
  · split at h
    · cases h
    · simp only [Except.ok.injEq, Prod.mk.injEq] at h
      obtain ⟨h1, h2⟩ := h
      subst h1
      rw [← h2]
      exact ⟨rfl, rfl, rfl, rfl⟩

theorem FindCryptoDataByUserId_mem {userId : PgUUID} {s s' : Store} {c : CryptoDatum}
    (h : FindCryptoDataByUserId userId s = .ok (c, s')) : c ∈ s.cryptoData := by
  unfold FindCryptoDataByUserId at h
  cases hf : s.cryptoData.find? (fun c => decide (c.UserID = userId)) with
  | none => rw [hf] at h; cases h
  | some c0 =>
    rw [hf] at h
    simp only [Except.ok.injEq, Prod.mk.injEq] at h
    rw [← h.1]
    exact List.mem_of_find?_eq_some hf

/-- The three ways a run of generateNextLTCAddressHandler can end: an error other than a
key-derivation error, with the store of the transaction untouched; an error after the cursor
query, with the cursor of the key record of the user advanced once and no address inserted;
success, with that cursor advanced once and the returned row inserted. The BNB key table is
never touched. -/
theorem generateNextLTCAddressHandler_cases (env : Env) (kc : Keychain)
    (data : generateNextAddressHandlerData) (tx : Tx) :
    ((∃ e, (generateNextLTCAddressHandler env kc data tx).1 = .error e ∧
        e ≠ HandlerErr.keychain) ∧
      (generateNextLTCAddressHandler env kc data tx).2.store = tx.store) ∨
    ((∃ e, (generateNextLTCAddressHandler env kc data tx).1 = .error e) ∧
      (generateNextLTCAddressHandler env kc data tx).2.store.cryptoAddresses
        = tx.store.cryptoAddresses ∧
      (generateNextLTCAddressHandler env kc data tx).2.store.bnbCryptoData
        = tx.store.bnbCryptoData ∧
      userCursorAdvancedOnce data.userId (fun cd => cd.LtcID) tx.store tx.store.ltcCryptoData
        (generateNextLTCAddressHandler env kc data tx).2.store.ltcCryptoData) ∨
    (∃ a, (generateNextLTCAddressHandler env kc data tx).1
        = .ok ⟨a, CoinTypeLTC, true, data.userId⟩ ∧
      (generateNextLTCAddressHandler env kc data tx).2.store.cryptoAddresses
        = tx.store.cryptoAddresses ++ [⟨a, CoinTypeLTC, true, data.userId⟩] ∧
      (generateNextLTCAddressHandler env kc data tx).2.store.bnbCryptoData
        = tx.store.bnbCryptoData ∧
      userCursorAdvancedOnce data.userId (fun cd => cd.LtcID) tx.store tx.store.ltcCryptoData
        (generateNextLTCAddressHandler env kc data tx).2.store.ltcCryptoData) := by
  cases hnet : ltcChainParams data.network with
  | none =>
    left
    have hres : generateNextLTCAddressHandler env kc data tx
        = (.error HandlerErr.InvalidNetworkTypeErr, tx) := by
      simp [generateNextLTCAddressHandler, hnet]
    rw [hres]
    exact ⟨⟨_, rfl, by decide⟩, rfl⟩
  | some net =>
  cases hr1 : tx.run env Query.FindCryptoDataByUserId (FindCryptoDataByUserId data.userId) with
  | mk r1 tx1 =>
  cases r1 with
  | error e =>
    left
    have hres : generateNextLTCAddressHandler env kc data tx = (.error (HandlerErr.sql e), tx1) := by
      simp [generateNextLTCAddressHandler, hnet, hr1]
    rw [hres]
    exact ⟨⟨_, rfl, by simp⟩, Tx.run_error hr1⟩
  | ok cd =>
  obtain ⟨_, hq1, _⟩ := Tx.run_ok hr1
  have hs1 := (FindCryptoDataByUserId_ok hq1).1
  have hcdu := (FindCryptoDataByUserId_ok hq1).2
  have hcdm := FindCryptoDataByUserId_mem hq1
  rw [hs1] at hq1
  cases hr2 : tx1.run env Query.FindKeysAndIncrementedIndicesLTCCryptoDataById
      (FindKeysAndIncrementedIndicesLTCCryptoDataById cd.LtcID) with
  | mk r2 tx2 =>
  cases r2 with
  | error e =>
    left
    have hres : generateNextLTCAddressHandler env kc data tx = (.error (HandlerErr.sql e), tx2) := by
      simp [generateNextLTCAddressHandler, hnet, hr1, hr2]
    rw [hres]
    exact ⟨⟨_, rfl, by simp⟩, (Tx.run_error hr2).trans hs1⟩
  | ok k =>
  obtain ⟨_, hq2, _⟩ := Tx.run_ok hr2
  obtain ⟨hA, _, hB, hC⟩ := FindKeysLTC_ok hq2
  rw [hs1] at hA hB hC
  have hU : userCursorAdvancedOnce data.userId (fun cd => cd.LtcID) tx.store
      tx.store.ltcCryptoData tx2.store.ltcCryptoData := ⟨cd, hcdm, hcdu, hq1, hC⟩
  right
  cases hk1 : kc.NewKeyFromString k.MasterPubKey with
  | none =>
    left
    have hres : generateNextLTCAddressHandler env kc data tx = (.error HandlerErr.keychain, tx2) := by
      simp [generateNextLTCAddressHandler, hnet, hr1, hr2, hk1]
    rw [hres]
    exact ⟨⟨_, rfl⟩, hA, hB, hU⟩
  | some mPub =>
  cases hk2 : kc.Derive mPub (uint32 k.LastMajorIndex) with
  | none =>
    left
    have hres : generateNextLTCAddressHandler env kc data tx = (.error HandlerErr.keychain, tx2) := by
      simp [generateNextLTCAddressHandler, hnet, hr1, hr2, hk1, hk2]
    rw [hres]
    exact ⟨⟨_, rfl⟩, hA, hB, hU⟩
  | some majMPub =>
  cases hk3 : kc.Derive majMPub (uint32 k.LastMinorIndex) with
  | none =>
    left
    have hres : generateNextLTCAddressHandler env kc data tx = (.error HandlerErr.keychain, tx2) := by
      simp [generateNextLTCAddressHandler, hnet, hr1, hr2, hk1, hk2, hk3]
    rw [hres]
    exact ⟨⟨_, rfl⟩, hA, hB, hU⟩
  | some minMPub =>
  cases hk4 : kc.ECPubKey minMPub with
  | none =>
    left
    have hres : generateNextLTCAddressHandler env kc data tx = (.error HandlerErr.keychain, tx2) := by
      simp [generateNextLTCAddressHandler, hnet, hr1, hr2, hk1, hk2, hk3, hk4]
    rw [hres]
    exact ⟨⟨_, rfl⟩, hA, hB, hU⟩
  | some pubKey =>
  cases hk5 : kc.witnessPubKeyHashAddress pubKey net with
  | none =>
    left
    have hres : generateNextLTCAddressHandler env kc data tx = (.error HandlerErr.keychain, tx2) := by
      simp [generateNextLTCAddressHandler, hnet, hr1, hr2, hk1, hk2, hk3, hk4, hk5]
    rw [hres]
    exact ⟨⟨_, rfl⟩, hA, hB, hU⟩
  | some newAddr =>
  cases hr3 : tx2.run env Query.CreateCryptoAddress
      (CreateCryptoAddress ⟨newAddr, CoinTypeLTC, true, data.userId⟩) with
  | mk r3 tx3 =>
  cases r3 with
  | error e =>
    left
    have h3 := Tx.run_error hr3
    have hres : generateNextLTCAddressHandler env kc data tx = (.error (HandlerErr.sql e), tx3) := by
      simp [generateNextLTCAddressHandler, hnet, hr1, hr2, hk1, hk2, hk3, hk4, hk5, hr3]
    rw [hres]
    refine ⟨⟨_, rfl⟩, ?_, ?_, ?_⟩
    · show tx3.store.cryptoAddresses = _
      rw [h3, hA]
    · show tx3.store.bnbCryptoData = _
      rw [h3, hB]
    · show userCursorAdvancedOnce _ _ _ _ tx3.store.ltcCryptoData
      rw [h3]
      exact hU
  | ok addr =>
    right
    obtain ⟨_, hq3, _⟩ := Tx.run_ok hr3
    obtain ⟨hrow, hadd, hl, hbn⟩ := CreateCryptoAddress_ok hq3
    simp only at hrow
    have hres : generateNextLTCAddressHandler env kc data tx = (.ok addr, tx3) := by
      simp [generateNextLTCAddressHandler, hnet, hr1, hr2, hk1, hk2, hk3, hk4, hk5, hr3]
    rw [hres]
    refine ⟨newAddr, ?_, ?_, ?_, ?_⟩
    · show Except.ok addr = _
      rw [hrow]
    · show tx3.store.cryptoAddresses = _
      rw [hadd, hA, hrow]
    · show tx3.store.bnbCryptoData = _
      rw [hbn, hB]
    · show userCursorAdvancedOnce _ _ _ _ tx3.store.ltcCryptoData
      rw [hl]
      exact hU

/-- The three ways a run of generateNextBNBAddressHandler can end (as for LTC). The LTC key table
is never touched. -/
theorem generateNextBNBAddressHandler_cases (env : Env) (kc : Keychain)
    (data : generateNextAddressHandlerData) (tx : Tx) :
    ((∃ e, (generateNextBNBAddressHandler env kc data tx).1 = .error e ∧
        e ≠ HandlerErr.keychain) ∧
      (generateNextBNBAddressHandler env kc data tx).2.store = tx.store) ∨
    ((∃ e, (generateNextBNBAddressHandler env kc data tx).1 = .error e) ∧
      (generateNextBNBAddressHandler env kc data tx).2.store.cryptoAddresses
        = tx.store.cryptoAddresses ∧
      (generateNextBNBAddressHandler env kc data tx).2.store.ltcCryptoData
        = tx.store.ltcCryptoData ∧
      userCursorAdvancedOnce data.userId (fun cd => cd.BnbID) tx.store tx.store.bnbCryptoData
        (generateNextBNBAddressHandler env kc data tx).2.store.bnbCryptoData) ∨
    (∃ a, (generateNextBNBAddressHandler env kc data tx).1
        = .ok ⟨a, CoinTypeBNB, true, data.userId⟩ ∧
      (generateNextBNBAddressHandler env kc data tx).2.store.cryptoAddresses
        = tx.store.cryptoAddresses ++ [⟨a, CoinTypeBNB, true, data.userId⟩] ∧
      (generateNextBNBAddressHandler env kc data tx).2.store.ltcCryptoData
        = tx.store.ltcCryptoData ∧
      userCursorAdvancedOnce data.userId (fun cd => cd.BnbID) tx.store tx.store.bnbCryptoData
        (generateNextBNBAddressHandler env kc data tx).2.store.bnbCryptoData) := by
  cases hr1 : tx.run env Query.FindCryptoDataByUserId (FindCryptoDataByUserId data.userId) with
  | mk r1 tx1 =>
  cases r1 with
  | error e =>
    left
    have hres : generateNextBNBAddressHandler env kc data tx = (.error (HandlerErr.sql e), tx1) := by
      simp [generateNextBNBAddressHandler, hr1]
    rw [hres]
    exact ⟨⟨_, rfl, by simp⟩, Tx.run_error hr1⟩
  | ok cd =>
  obtain ⟨_, hq1, _⟩ := Tx.run_ok hr1
  have hs1 := (FindCryptoDataByUserId_ok hq1).1
  have hcdu := (FindCryptoDataByUserId_ok hq1).2
  have hcdm := FindCryptoDataByUserId_mem hq1
  rw [hs1] at hq1
  cases hr2 : tx1.run env Query.FindKeysAndIncrementedIndicesBNBCryptoDataById
      (FindKeysAndIncrementedIndicesBNBCryptoDataById cd.BnbID) with
  | mk r2 tx2 =>
  cases r2 with
  | error e =>
    left
    have hres : generateNextBNBAddressHandler env kc data tx = (.error (HandlerErr.sql e), tx2) := by
      simp [generateNextBNBAddressHandler, hr1, hr2]
    rw [hres]
    exact ⟨⟨_, rfl, by simp⟩, (Tx.run_error hr2).trans hs1⟩
  | ok k =>
  obtain ⟨_, hq2, _⟩ := Tx.run_ok hr2
  obtain ⟨hA, _, hB, hC⟩ := FindKeysBNB_ok hq2
  rw [hs1] at hA hB hC
  have hU : userCursorAdvancedOnce data.userId (fun cd => cd.BnbID) tx.store
      tx.store.bnbCryptoData tx2.store.bnbCryptoData := ⟨cd, hcdm, hcdu, hq1, hC⟩
  right
  cases hk1 : kc.deriveNextETHBasedECPubKeyHelper (uint32 k.LastMajorIndex)
      (uint32 k.LastMinorIndex) k.MasterPubKey with
  | none =>
    left
    have hres : generateNextBNBAddressHandler env kc data tx = (.error HandlerErr.keychain, tx2) := by
      simp [generateNextBNBAddressHandler, hr1, hr2, hk1]
    rw [hres]
    exact ⟨⟨_, rfl⟩, hA, hB, hU⟩
  | some pubKey =>
  cases hr3 : tx2.run env Query.CreateCryptoAddress
      (CreateCryptoAddress ⟨kc.pubkeyToAddressHex pubKey, CoinTypeBNB, true, data.userId⟩) with
  | mk r3 tx3 =>
  cases r3 with
  | error e =>
    left
    have h3 := Tx.run_error hr3
    have hres : generateNextBNBAddressHandler env kc data tx = (.error (HandlerErr.sql e), tx3) := by
      simp [generateNextBNBAddressHandler, hr1, hr2, hk1, hr3]
    rw [hres]
    refine ⟨⟨_, rfl⟩, ?_, ?_, ?_⟩
    · show tx3.store.cryptoAddresses = _
      rw [h3, hA]
    · show tx3.store.ltcCryptoData = _
      rw [h3, hB]
    · show userCursorAdvancedOnce _ _ _ _ tx3.store.bnbCryptoData
      rw [h3]
      exact hU
  | ok addr =>
    right
    obtain ⟨_, hq3, _⟩ := Tx.run_ok hr3
    obtain ⟨hrow, hadd, hl, hbn⟩ := CreateCryptoAddress_ok hq3
    simp only at hrow
    have hres : generateNextBNBAddressHandler env kc data tx = (.ok addr, tx3) := by
      simp [generateNextBNBAddressHandler, hr1, hr2, hk1, hr3]
    rw [hres]
    refine ⟨kc.pubkeyToAddressHex pubKey, ?_, ?_, ?_, ?_⟩
    · show Except.ok addr = _
      rw [hrow]
    · show tx3.store.cryptoAddresses = _
      rw [hadd, hA, hrow]
    · show tx3.store.ltcCryptoData = _
      rw [hl, hB]
    · show userCursorAdvancedOnce _ _ _ _ tx3.store.bnbCryptoData
      rw [hbn]
      exact hU

/-- C13: generateNextLTCAddressHandler called with a network that is none of mainnet, testnet,
signet or regtest returns the invalid-network error and hands the transaction back untouched: no
query is issued, the derivation cursor is not advanced and no address is inserted. -/
theorem generateNextLTCAddressHandler_invalid_network (env : Env) (kc : Keychain)
    (data : generateNextAddressHandlerData) (tx : Tx)
    (h : data.network ≠ NetworkType.MainnetLTC ∧ data.network ≠ NetworkType.TestnetLTC ∧
      data.network ≠ NetworkType.SignetLTC ∧ data.network ≠ NetworkType.RegtestLTC) :
    generateNextLTCAddressHandler env kc data tx
      = (.error HandlerErr.InvalidNetworkTypeErr, tx) := by
  obtain ⟨h1, h2, h3, h4⟩ := h
  have hnet : ltcChainParams data.network = none := by
    cases hn : data.network with
    | MainnetLTC => exact absurd hn h1
    | TestnetLTC => exact absurd hn h2
    | SignetLTC => exact absurd hn h3
    | RegtestLTC => exact absurd hn h4
    | other t => rfl
  simp [generateNextLTCAddressHandler, hnet]

/-- Witness for C13: an unknown network value on the store keyStore. -/
theorem generateNextLTCAddressHandler_invalid_network_witness :
    generateNextLTCAddressHandler env0 kc0 ⟨PgUUID.ofByte 1, NetworkType.other 7⟩ ⟨keyStore, []⟩
      = (.error HandlerErr.InvalidNetworkTypeErr, ⟨keyStore, []⟩) :=
  generateNextLTCAddressHandler_invalid_network env0 kc0 ⟨PgUUID.ofByte 1, NetworkType.other 7⟩
    ⟨keyStore, []⟩ (by decide)

/-- C14 (as amended): in every run of generateNextLTCAddressHandler and of
generateNextBNBAddressHandler, a run that returns an address has inserted exactly that address
and advanced the derivation cursor of the key record of the user (the record the crypto-data row
of data.userId references) exactly once; a run that returns an error inserts no address, and has
advanced that cursor either not at all or exactly once, in the transaction it was given; a run
that fails in key parsing, child derivation or address encoding has advanced it exactly once.
No other record of the key table changes, and the key table of the other chain is untouched. -/
theorem generateNextAddress_cursor_and_insertion (env : Env) (kc : Keychain)
    (data : generateNextAddressHandlerData) (tx : Tx) :
    ((∀ addr, (generateNextLTCAddressHandler env kc data tx).1 = .ok addr →
        (generateNextLTCAddressHandler env kc data tx).2.store.cryptoAddresses
          = tx.store.cryptoAddresses ++ [addr] ∧
        userCursorAdvancedOnce data.userId (fun cd => cd.LtcID) tx.store tx.store.ltcCryptoData
          (generateNextLTCAddressHandler env kc data tx).2.store.ltcCryptoData) ∧
      (∀ e, (generateNextLTCAddressHandler env kc data tx).1 = .error e →
        (generateNextLTCAddressHandler env kc data tx).2.store.cryptoAddresses
          = tx.store.cryptoAddresses ∧
        ((generateNextLTCAddressHandler env kc data tx).2.store.ltcCryptoData
            = tx.store.ltcCryptoData ∨
          userCursorAdvancedOnce data.userId (fun cd => cd.LtcID) tx.store
            tx.store.ltcCryptoData
            (generateNextLTCAddressHandler env kc data tx).2.store.ltcCryptoData) ∧
        (e = HandlerErr.keychain →
          userCursorAdvancedOnce data.userId (fun cd => cd.LtcID) tx.store
            tx.store.ltcCryptoData
            (generateNextLTCAddressHandler env kc data tx).2.store.ltcCryptoData)) ∧
      (generateNextLTCAddressHandler env kc data tx).2.store.bnbCryptoData
        = tx.store.bnbCryptoData) ∧
    ((∀ addr, (generateNextBNBAddressHandler env kc data tx).1 = .ok addr →
        (generateNextBNBAddressHandler env kc data tx).2.store.cryptoAddresses
          = tx.store.cryptoAddresses ++ [addr] ∧
        userCursorAdvancedOnce data.userId (fun cd => cd.BnbID) tx.store tx.store.bnbCryptoData
          (generateNextBNBAddressHandler env kc data tx).2.store.bnbCryptoData) ∧
      (∀ e, (generateNextBNBAddressHandler env kc data tx).1 = .error e →
        (generateNextBNBAddressHandler env kc data tx).2.store.cryptoAddresses
          = tx.store.cryptoAddresses ∧
        ((generateNextBNBAddressHandler env kc data tx).2.store.bnbCryptoData
            = tx.store.bnbCryptoData ∨
          userCursorAdvancedOnce data.userId (fun cd => cd.BnbID) tx.store
            tx.store.bnbCryptoData
            (generateNextBNBAddressHandler env kc data tx).2.store.bnbCryptoData) ∧
        (e = HandlerErr.keychain →
          userCursorAdvancedOnce data.userId (fun cd => cd.BnbID) tx.store
            tx.store.bnbCryptoData
            (generateNextBNBAddressHandler env kc data tx).2.store.bnbCryptoData)) ∧
      (generateNextBNBAddressHandler env kc data tx).2.store.ltcCryptoData
        = tx.store.ltcCryptoData) := by
  refine ⟨⟨?_, ?_, ?_⟩, ⟨?_, ?_, ?_⟩⟩
  · intro addr hok
    rcases generateNextLTCAddressHandler_cases env kc data tx with
      ⟨⟨e, he, _⟩, _⟩ | ⟨⟨e, he⟩, _⟩ | ⟨a, ha, hadd, _, hc⟩
    · rw [hok] at he; cases he
    · rw [hok] at he; cases he
    · rw [hok] at ha
      simp only [Except.ok.injEq] at ha
      rw [ha]
      exact ⟨hadd, hc⟩
  · intro e herr
    rcases generateNextLTCAddressHandler_cases env kc data tx with
      ⟨⟨e1, he1, hne⟩, hs⟩ | ⟨_, hadd, _, hc⟩ | ⟨a, ha, _⟩
    · rw [hs]
      refine ⟨rfl, Or.inl rfl, ?_⟩
      intro hk
      rw [herr] at he1
      simp only [Except.error.injEq] at he1
      rw [← he1, hk] at hne
      exact absurd rfl hne
    · exact ⟨hadd, Or.inr hc, fun _ => hc⟩
    · rw [herr] at ha; cases ha
  · rcases generateNextLTCAddressHandler_cases env kc data tx with
      ⟨_, hs⟩ | ⟨_, _, hb, _⟩ | ⟨a, _, _, hb, _⟩
    · rw [hs]
    · exact hb
    · exact hb
  · intro addr hok
    rcases generateNextBNBAddressHandler_cases env kc data tx with
      ⟨⟨e, he, _⟩, _⟩ | ⟨⟨e, he⟩, _⟩ | ⟨a, ha, hadd, _, hc⟩
    · rw [hok] at he; cases he
    · rw [hok] at he; cases he
    · rw [hok] at ha
      simp only [Except.ok.injEq] at ha
      rw [ha]
      exact ⟨hadd, hc⟩
  · intro e herr
    rcases generateNextBNBAddressHandler_cases env kc data tx with
      ⟨⟨e1, he1, hne⟩, hs⟩ | ⟨_, hadd, _, hc⟩ | ⟨a, ha, _⟩
    · rw [hs]
      refine ⟨rfl, Or.inl rfl, ?_⟩
      intro hk
      rw [herr] at he1
      simp only [Except.error.injEq] at he1
      rw [← he1, hk] at hne
      exact absurd rfl hne
    · exact ⟨hadd, Or.inr hc, fun _ => hc⟩
    · rw [herr] at ha; cases ha
  · rcases generateNextBNBAddressHandler_cases env kc data tx with
      ⟨_, hs⟩ | ⟨_, _, hb, _⟩ | ⟨a, _, _, hb, _⟩
    · rw [hs]
    · exact hb
    · exact hb

/-- Witness for C14: on keyStoreTwoUsers, where the key record of user 2 comes first in the key
table, the LTC run for user 1 returns the address at (0, 1), inserts it and advances the cursor
of the key record 7 of user 1 once, leaving the record 9 of user 2 as it was; on keyStoreTaken
the BNB run fails in the address insertion and inserts nothing; on keyStoreBadKey the LTC run
fails in key parsing, with the cursor of the key record of user 1 advanced once. -/
theorem generateNextAddress_cursor_and_insertion_witness :
    ((generateNextLTCAddressHandler env0 kc0 ⟨PgUUID.ofByte 1, NetworkType.MainnetLTC⟩
        ⟨keyStoreTwoUsers, []⟩).2.store.cryptoAddresses
      = keyStoreTwoUsers.cryptoAddresses
          ++ [⟨"ltc1Ltub//i", CoinTypeLTC, true, PgUUID.ofByte 1⟩] ∧
      userCursorAdvancedOnce (PgUUID.ofByte 1) (fun cd => cd.LtcID) keyStoreTwoUsers
        keyStoreTwoUsers.ltcCryptoData
        (generateNextLTCAddressHandler env0 kc0 ⟨PgUUID.ofByte 1, NetworkType.MainnetLTC⟩
          ⟨keyStoreTwoUsers, []⟩).2.store.ltcCryptoData) ∧
    FindCryptoDataByUserId (PgUUID.ofByte 1) keyStoreTwoUsers
      = .ok (user1KeyCryptoData, keyStoreTwoUsers) ∧
    (generateNextLTCAddressHandler env0 kc0 ⟨PgUUID.ofByte 1, NetworkType.MainnetLTC⟩
      ⟨keyStoreTwoUsers, []⟩).2.store.ltcCryptoData
      = [⟨PgUUID.ofByte 9, "Ltub2", 0, 0⟩, ⟨PgUUID.ofByte 7, "Ltub", 0, 1⟩] ∧
    ((generateNextBNBAddressHandler env0 kc0 ⟨PgUUID.ofByte 1, NetworkType.MainnetLTC⟩
        ⟨keyStoreTaken, []⟩).2.store.cryptoAddresses = keyStoreTaken.cryptoAddresses ∧
      ((generateNextBNBAddressHandler env0 kc0 ⟨PgUUID.ofByte 1, NetworkType.MainnetLTC⟩
          ⟨keyStoreTaken, []⟩).2.store.bnbCryptoData = keyStoreTaken.bnbCryptoData ∨
        userCursorAdvancedOnce (PgUUID.ofByte 1) (fun cd => cd.BnbID) keyStoreTaken
          keyStoreTaken.bnbCryptoData
          (generateNextBNBAddressHandler env0 kc0 ⟨PgUUID.ofByte 1, NetworkType.MainnetLTC⟩
            ⟨keyStoreTaken, []⟩).2.store.bnbCryptoData)) ∧
    ((generateNextLTCAddressHandler env0 kc0 ⟨PgUUID.ofByte 1, NetworkType.MainnetLTC⟩
        ⟨keyStoreBadKey, []⟩).1 = .error HandlerErr.keychain ∧
      userCursorAdvancedOnce (PgUUID.ofByte 1) (fun cd => cd.LtcID) keyStoreBadKey
        keyStoreBadKey.ltcCryptoData
        (generateNextLTCAddressHandler env0 kc0 ⟨PgUUID.ofByte 1, NetworkType.MainnetLTC⟩
          ⟨keyStoreBadKey, []⟩).2.store.ltcCryptoData) :=
  ⟨(generateNextAddress_cursor_and_insertion env0 kc0
      ⟨PgUUID.ofByte 1, NetworkType.MainnetLTC⟩ ⟨keyStoreTwoUsers, []⟩).1.1
      ⟨"ltc1Ltub//i", CoinTypeLTC, true, PgUUID.ofByte 1⟩ rfl,
   rfl, rfl,
   ⟨((generateNextAddress_cursor_and_insertion env0 kc0
      ⟨PgUUID.ofByte 1, NetworkType.MainnetLTC⟩ ⟨keyStoreTaken, []⟩).2.2.1
      (HandlerErr.sql SqlErr.uniqueViolation) rfl).1,
    ((generateNextAddress_cursor_and_insertion env0 kc0
      ⟨PgUUID.ofByte 1, NetworkType.MainnetLTC⟩ ⟨keyStoreTaken, []⟩).2.2.1
      (HandlerErr.sql SqlErr.uniqueViolation) rfl).2.1⟩,
   ⟨rfl, ((generateNextAddress_cursor_and_insertion env0 kc0
      ⟨PgUUID.ofByte 1, NetworkType.MainnetLTC⟩ ⟨keyStoreBadKey, []⟩).1.2.1
      HandlerErr.keychain rfl).2.2 rfl⟩⟩

/-- C14, counterexample to the claim as stated: on keyStoreTaken, where the address derived at
the next indices is already registered, the LTC run and the BNB run both return an error and
insert no address, yet the cursor of the key row has moved from (0, 0) to (0, 1) in the
transaction. -/
theorem generateNextAddress_cursor_advanced_without_address :
    keyStoreTaken.ltcCryptoData = [⟨PgUUID.ofByte 7, "Ltub", 0, 0⟩] ∧
    (generateNextLTCAddressHandler env0 kc0 ⟨PgUUID.ofByte 1, NetworkType.MainnetLTC⟩
      ⟨keyStoreTaken, []⟩).1 = .error (HandlerErr.sql SqlErr.uniqueViolation) ∧
    (generateNextLTCAddressHandler env0 kc0 ⟨PgUUID.ofByte 1, NetworkType.MainnetLTC⟩
      ⟨keyStoreTaken, []⟩).2.store.cryptoAddresses = keyStoreTaken.cryptoAddresses ∧
    (generateNextLTCAddressHandler env0 kc0 ⟨PgUUID.ofByte 1, NetworkType.MainnetLTC⟩
      ⟨keyStoreTaken, []⟩).2.store.ltcCryptoData = [⟨PgUUID.ofByte 7, "Ltub", 0, 1⟩] ∧
    keyStoreTaken.bnbCryptoData = [⟨PgUUID.ofByte 8, "xpub", 0, 0⟩] ∧
    (generateNextBNBAddressHandler env0 kc0 ⟨PgUUID.ofByte 1, NetworkType.MainnetLTC⟩
      ⟨keyStoreTaken, []⟩).1 = .error (HandlerErr.sql SqlErr.uniqueViolation) ∧
    (generateNextBNBAddressHandler env0 kc0 ⟨PgUUID.ofByte 1, NetworkType.MainnetLTC⟩
      ⟨keyStoreTaken, []⟩).2.store.cryptoAddresses = keyStoreTaken.cryptoAddresses ∧
    (generateNextBNBAddressHandler env0 kc0 ⟨PgUUID.ofByte 1, NetworkType.MainnetLTC⟩
      ⟨keyStoreTaken, []⟩).2.store.bnbCryptoData = [⟨PgUUID.ofByte 8, "xpub", 0, 1⟩] :=
  ⟨rfl, rfl, rfl, rfl, rfl, rfl, rfl, rfl⟩

/-- C15: whenever generateNextLTCAddressHandler (respectively generateNextBNBAddressHandler)
returns without error, the CryptoAddress row it returned is in the address table of the
transaction and has IsOccupied = true, Coin = LTC (respectively BNB) and UserID equal to the id
of the requesting user. -/
theorem generateNextAddress_row (env : Env) (kc : Keychain)
    (data : generateNextAddressHandlerData) (tx : Tx) :
    (∀ addr, (generateNextLTCAddressHandler env kc data tx).1 = .ok addr →
      addr.IsOccupied = true ∧ addr.Coin = CoinTypeLTC ∧ addr.UserID = data.userId ∧
      addr ∈ (generateNextLTCAddressHandler env kc data tx).2.store.cryptoAddresses) ∧
    (∀ addr, (generateNextBNBAddressHandler env kc data tx).1 = .ok addr →
      addr.IsOccupied = true ∧ addr.Coin = CoinTypeBNB ∧ addr.UserID = data.userId ∧
      addr ∈ (generateNextBNBAddressHandler env kc data tx).2.store.cryptoAddresses) := by
  refine ⟨?_, ?_⟩
  · intro addr hok
    rcases generateNextLTCAddressHandler_cases env kc data tx with
      ⟨⟨e, he, _⟩, _⟩ | ⟨⟨e, he⟩, _⟩ | ⟨a, ha, hadd, _⟩
    · rw [hok] at he; cases he
    · rw [hok] at he; cases he
    · rw [hok] at ha
      simp only [Except.ok.injEq] at ha
      rw [hadd, ha]
      exact ⟨rfl, rfl, rfl, by simp⟩
  · intro addr hok
    rcases generateNextBNBAddressHandler_cases env kc data tx with
      ⟨⟨e, he, _⟩, _⟩ | ⟨⟨e, he⟩, _⟩ | ⟨a, ha, hadd, _⟩
    · rw [hok] at he; cases he
    · rw [hok] at he; cases he
    · rw [hok] at ha
      simp only [Except.ok.injEq] at ha
      rw [hadd, ha]
      exact ⟨rfl, rfl, rfl, by simp⟩

/-- Witness for C15: the rows returned on keyStore for LTC and for BNB. -/
theorem generateNextAddress_row_witness :
    ((⟨"ltc1Ltub//i", CoinTypeLTC, true, PgUUID.ofByte 1⟩ : CryptoAddress).IsOccupied = true ∧
      (⟨"ltc1Ltub//i", CoinTypeLTC, true, PgUUID.ofByte 1⟩ : CryptoAddress).Coin = CoinTypeLTC ∧
      (⟨"ltc1Ltub//i", CoinTypeLTC, true, PgUUID.ofByte 1⟩ : CryptoAddress).UserID
        = PgUUID.ofByte 1 ∧
      (⟨"ltc1Ltub//i", CoinTypeLTC, true, PgUUID.ofByte 1⟩ : CryptoAddress)
        ∈ (generateNextLTCAddressHandler env0 kc0 ⟨PgUUID.ofByte 1, NetworkType.MainnetLTC⟩
            ⟨keyStore, []⟩).2.store.cryptoAddresses) ∧
    ((⟨"0xxpub//i", CoinTypeBNB, true, PgUUID.ofByte 1⟩ : CryptoAddress).IsOccupied = true ∧
      (⟨"0xxpub//i", CoinTypeBNB, true, PgUUID.ofByte 1⟩ : CryptoAddress).Coin = CoinTypeBNB ∧
      (⟨"0xxpub//i", CoinTypeBNB, true, PgUUID.ofByte 1⟩ : CryptoAddress).UserID
        = PgUUID.ofByte 1 ∧
      (⟨"0xxpub//i", CoinTypeBNB, true, PgUUID.ofByte 1⟩ : CryptoAddress)
        ∈ (generateNextBNBAddressHandler env0 kc0 ⟨PgUUID.ofByte 1, NetworkType.MainnetLTC⟩
            ⟨keyStore, []⟩).2.store.cryptoAddresses) :=
  ⟨(generateNextAddress_row env0 kc0 ⟨PgUUID.ofByte 1, NetworkType.MainnetLTC⟩
      ⟨keyStore, []⟩).1 ⟨"ltc1Ltub//i", CoinTypeLTC, true, PgUUID.ofByte 1⟩ rfl,
   (generateNextAddress_row env0 kc0 ⟨PgUUID.ofByte 1, NetworkType.MainnetLTC⟩
      ⟨keyStore, []⟩).2 ⟨"0xxpub//i", CoinTypeBNB, true, PgUUID.ofByte 1⟩ rfl⟩

/-! ### Reload of the pending invoices: the run without failure -/

theorem loadPersistedPendingInvoices_succeeds {σ : Type} (env : Env)
    (order : Nat → List (CryptoProcessor σ)) (db : Store) (w : σ)
    (hb : env.beginFails = false)
    (hf1 : env.fault Query.ShiftExpiresAtForNonConfirmedInvoices = false)
    (hf2 : env.fault Query.FindAllPendingInvoices = false) :
    (loadPersistedPendingInvoices env order db w).err = none ∧
    (env.commitFails = false →
      (loadPersistedPendingInvoices env order db w).db.invoices
        = db.invoices.map (fun i =>
            if i.Status = InvoiceStatusTypeCONFIRMED then i
            else { i with ExpiresAt := i.ExpiresAt + persist_cache_timeout })) := by
  constructor
  · simp [loadPersistedPendingInvoices, hb, Tx.run, hf1, hf2,
      ShiftExpiresAtForNonConfirmedInvoices, FindAllPendingInvoices]
  · intro hc
    simp [loadPersistedPendingInvoices, hb, Tx.run, hf1, hf2,
      ShiftExpiresAtForNonConfirmedInvoices, FindAllPendingInvoices, Tx.commit, hc]

/-! ### C16: the processors NewPaymentProcessor builds -/

theorem nativeCoin_injective (a b : Chain) (h : nativeCoin a = nativeCoin b) : a = b := by
  cases a <;> cases b <;> first | rfl | exact absurd h (by decide)

theorem mem_mapInsert {σ : Type} (k k' : DbCoinType) (v v' : CryptoProcessor σ)
    (m : List (DbCoinType × CryptoProcessor σ)) :
    (k, v) ∈ mapInsert k' v' m ↔ ((k, v) ∈ m ∧ k ≠ k') ∨ (k = k' ∧ v = v') := by
  unfold mapInsert
  simp only [List.mem_append, List.mem_filter, List.mem_singleton, Prod.mk.injEq,
    Bool.not_eq_true', decide_eq_false_iff_not]

theorem buildProcessors_ok {σ : Type} (ctors : Constructors σ) (c : DaemonsConfig) :
    ∀ (chs : List Chain) (m : List (DbCoinType × CryptoProcessor σ)),
      chs.Nodup →
      (∀ ch p, ctors.of ch c = .ok p → p.coin = nativeCoin ch) →
      (∀ ch ∈ chs, (c.of ch).Url ≠ "" → ∃ p, ctors.of ch c = .ok p) →
      ∃ m', buildProcessors ctors c chs m = .ok m' ∧
        ∀ k v, (k, v) ∈ m' ↔
          ((∃ ch ∈ chs, (c.of ch).Url ≠ "" ∧ ctors.of ch c = .ok v ∧ k = nativeCoin ch) ∨
            ((k, v) ∈ m ∧ ∀ ch ∈ chs, (c.of ch).Url ≠ "" → k ≠ nativeCoin ch)) := by
  intro chs
  induction chs with
  | nil =>
    intro m _ _ _
    exact ⟨m, rfl, fun k v => by simp⟩
  | cons ch rest ih =>
    intro m hnd hkey hall
    have hnd' := (List.nodup_cons.mp hnd).2
    have hnotin := (List.nodup_cons.mp hnd).1
    have hall' : ∀ x ∈ rest, (c.of x).Url ≠ "" → ∃ p, ctors.of x c = .ok p :=
      fun x hx => hall x (List.mem_cons_of_mem _ hx)
    by_cases hurl : (c.of ch).Url ≠ ""
    · obtain ⟨p, hp⟩ := hall ch (List.mem_cons_self _ _) hurl
      have hpk := hkey ch p hp
      obtain ⟨m', hb, hm'⟩ := ih (mapInsert p.coin p m) hnd' hkey hall'
      refine ⟨m', ?_, ?_⟩
      · simp only [buildProcessors, hurl, if_true, hp, ne_eq, not_false_eq_true]
        exact hb
      · intro k v
        rw [hm', mem_mapInsert, hpk]
        constructor
        · rintro (⟨x, hx, hxu, hxv, hxk⟩ | ⟨(⟨hmem, hne⟩ | ⟨hk, hv⟩), hrest⟩)
          · exact Or.inl ⟨x, List.mem_cons_of_mem _ hx, hxu, hxv, hxk⟩
          · right
            refine ⟨hmem, ?_⟩
            intro x hx hxu
            rcases List.mem_cons.mp hx with hx | hx
            · rw [hx]; exact hne
            · exact hrest x hx hxu
          · left
            exact ⟨ch, List.mem_cons_self _ _, hurl, by rw [hv]; exact hp, hk⟩
        · rintro (⟨x, hx, hxu, hxv, hxk⟩ | ⟨hmem, hrest⟩)
          · rcases List.mem_cons.mp hx with hx | hx
            · right
              subst hx
              have hv : v = p := by
                rw [hp] at hxv
                simp only [Except.ok.injEq] at hxv
                exact hxv.symm
              refine ⟨Or.inr ⟨hxk, hv⟩, ?_⟩
              intro y hy _ hky
              rw [hxk] at hky
              have := nativeCoin_injective _ _ hky
              rw [this] at hnotin
              exact hnotin hy
            · exact Or.inl ⟨x, hx, hxu, hxv, hxk⟩
          · right
            refine ⟨Or.inl ⟨hmem, hrest ch (List.mem_cons_self _ _) hurl⟩, ?_⟩
            intro x hx hxu
            exact hrest x (List.mem_cons_of_mem _ hx) hxu
    · obtain ⟨m', hb, hm'⟩ := ih m hnd' hkey hall'
      refine ⟨m', ?_, ?_⟩
      · simp only [buildProcessors, hurl, if_false]
        exact hb
      · intro k v
        rw [hm']
        constructor
        · rintro (⟨x, hx, hxu, hxv, hxk⟩ | ⟨hmem, hrest⟩)
          · exact Or.inl ⟨x, List.mem_cons_of_mem _ hx, hxu, hxv, hxk⟩
          · right
            refine ⟨hmem, ?_⟩
            intro x hx hxu
            rcases List.mem_cons.mp hx with hx | hx
            · rw [hx] at hxu; exact absurd hxu hurl
            · exact hrest x hx hxu
        · rintro (⟨x, hx, hxu, hxv, hxk⟩ | ⟨hmem, hrest⟩)
          · rcases List.mem_cons.mp hx with hx | hx
            · rw [hx] at hxu; exact absurd hxu hurl
            · exact Or.inl ⟨x, hx, hxu, hxv, hxk⟩
          · exact Or.inr ⟨hmem, fun x hx hxu => hrest x (List.mem_cons_of_mem _ hx) hxu⟩

theorem buildProcessors_error {σ : Type} (ctors : Constructors σ) (c : DaemonsConfig)
    (ch : Chain) (post : List Chain) (e : String)
    (hurl : (c.of ch).Url ≠ "") (herr : ctors.of ch c = .error e) :
    ∀ (pre : List Chain) (m : List (DbCoinType × CryptoProcessor σ)),
      (∀ x ∈ pre, (c.of x).Url ≠ "" → ∃ p, ctors.of x c = .ok p) →
      buildProcessors ctors c (pre ++ ch :: post) m = .error e := by
  intro pre
  induction pre with
  | nil =>
    intro m _
    simp only [List.nil_append, buildProcessors, hurl, herr, ne_eq, not_false_eq_true, if_true]
  | cons x rest ih =>
    intro m hall
    have hall' : ∀ y ∈ rest, (c.of y).Url ≠ "" → ∃ p, ctors.of y c = .ok p :=
      fun y hy => hall y (List.mem_cons_of_mem _ hy)
    by_cases hx : (c.of x).Url ≠ ""
    · obtain ⟨p, hp⟩ := hall x (List.mem_cons_self _ _) hx
      simp only [List.cons_append, buildProcessors, hx, hp, ne_eq, not_false_eq_true, if_true]
      exact ih _ hall'
    · simp only [List.cons_append, buildProcessors, hx, if_false]
      exact ih _ hall'

theorem Constructors.of_coin {σ : Type} (ctors : Constructors σ) (c : DaemonsConfig) :
    ∀ ch p, ctors.of ch c = .ok p → p.coin = nativeCoin ch := by
  intro ch p h
  unfold Constructors.of at h
  cases ho : ctors.outcome ch c with
  | error e => rw [ho] at h; cases h
  | ok q =>
    rw [ho] at h
    simp only [Except.ok.injEq] at h
    rw [← h]

theorem Constructors.of_load {σ : Type} (ctors : Constructors σ) (c : DaemonsConfig)
    (ch : Chain) (p : CryptoProcessor σ) (h : ctors.of ch c = .ok p) :
    ∃ q, ctors.outcome ch c = .ok q ∧ p.load = q.load := by
  unfold Constructors.of at h
  cases ho : ctors.outcome ch c with
  | error e => rw [ho] at h; cases h
  | ok q =>
    rw [ho] at h
    simp only [Except.ok.injEq] at h
    exact ⟨q, rfl, by rw [← h]⟩

theorem loadAll_none {σ : Type} :
    ∀ (l : List (CryptoProcessor σ)), (∀ p ∈ l, ∀ w, (p.load w).1 = none) →
      ∀ w, (loadAll l w).1 = none := by
  intro l
  induction l with
  | nil => intro _ w; rfl
  | cons v rest ih =>
    intro hall w
    have hv := hall v (List.mem_cons_self _ _) w
    have hrest : ∀ p ∈ rest, ∀ w, (p.load w).1 = none :=
      fun p hp => hall p (List.mem_cons_of_mem _ hp)
    unfold loadAll
    cases hl : v.load w with
    | mk r w1 =>
      rw [hl] at hv
      simp only at hv
      subst hv
      exact ih hrest w1

theorem PaymentProcessor.load_none {σ : Type} (env : Env)
    (order : List (CryptoProcessor σ) → Nat → List (CryptoProcessor σ))
    (loadOrder : List (CryptoProcessor σ) → List (CryptoProcessor σ))
    (pp : PaymentProcessor σ) (db : Store) (w : σ)
    (hb : env.beginFails = false)
    (hf1 : env.fault Query.ShiftExpiresAtForNonConfirmedInvoices = false)
    (hf2 : env.fault Query.FindAllPendingInvoices = false)
    (hl : ∀ p ∈ loadOrder (pp.cryptoProcessors.map (fun e => e.2)), ∀ w1, (p.load w1).1 = none) :
    (pp.load env order loadOrder db w).1 = none := by
  unfold PaymentProcessor.load
  simp only
  rw [(loadPersistedPendingInvoices_succeeds env _ db w hb hf1 hf2).1]
  simp only
  have h := loadAll_none _ hl
    (loadPersistedPendingInvoices env (order (pp.cryptoProcessors.map (fun e => e.2))) db w).world
  cases hla : loadAll (loadOrder (pp.cryptoProcessors.map (fun e => e.2)))
      (loadPersistedPendingInvoices env (order (pp.cryptoProcessors.map (fun e => e.2)))
        db w).world with
  | mk r w1 =>
    rw [hla] at h
    simp only at h
    subst h
    rfl

theorem PaymentProcessor.load_error {σ : Type} (env : Env)
    (order : List (CryptoProcessor σ) → Nat → List (CryptoProcessor σ))
    (loadOrder : List (CryptoProcessor σ) → List (CryptoProcessor σ))
    (pp : PaymentProcessor σ) (db : Store) (w : σ) (e : InitErr)
    (h : (pp.load env order loadOrder db w).1 = some e) : ∀ s, e ≠ InitErr.ctor s := by
  intro s hs
  subst hs
  unfold PaymentProcessor.load at h
  simp only at h
  split at h
  · simp at h
  · split at h
    · simp at h
    · simp at h

theorem NewPaymentProcessor_of_build {σ : Type} (env : Env) (ctors : Constructors σ)
    (order : List (CryptoProcessor σ) → Nat → List (CryptoProcessor σ))
    (loadOrder : List (CryptoProcessor σ) → List (CryptoProcessor σ))
    (c : DaemonsConfig) (db : Store) (w : σ) (m : List (DbCoinType × CryptoProcessor σ))
    (hb : buildProcessors ctors c allChains [] = .ok m) :
    (NewPaymentProcessor env ctors order loadOrder c db w).result
      = (match ((⟨m⟩ : PaymentProcessor σ).load env order loadOrder db w).1 with
        | none => .ok ⟨m⟩
        | some e => .error e) := by
  unfold NewPaymentProcessor
  rw [hb]
  simp only
  cases hl : (⟨m⟩ : PaymentProcessor σ).load env order loadOrder db w with
  | mk r rest =>
    obtain ⟨db1, w1⟩ := rest
    cases r <;> rfl

/-- C16: if the constructor of every chain with a non-empty URL succeeds, NewPaymentProcessor
builds a registry m that has a processor for a chain among XMR, BTC, LTC, ETH, BNB if and only if
the URL of that chain is non-empty, that processor being the one the constructor of the chain
returned, and no other entry; it returns the PaymentProcessor holding exactly m, or the error of
the load that follows, never the error of a constructor; and it does return the PaymentProcessor
holding m when the transaction of the reload can be begun, its two queries succeed and every
constructed processor loads without error. If the constructor of a chain with a non-empty URL
fails, all constructors invoked before it having succeeded, NewPaymentProcessor returns that
error and no PaymentProcessor. -/
theorem newPaymentProcessor_registry {σ : Type} (env : Env) (ctors : Constructors σ)
    (order : List (CryptoProcessor σ) → Nat → List (CryptoProcessor σ))
    (loadOrder : List (CryptoProcessor σ) → List (CryptoProcessor σ))
    (c : DaemonsConfig) (db : Store) (w : σ) :
    ((∀ ch, (c.of ch).Url ≠ "" → ∃ p, ctors.of ch c = .ok p) →
      ∃ m, buildProcessors ctors c allChains [] = .ok m ∧
        (∀ ch, (∃ p, (nativeCoin ch, p) ∈ m) ↔ (c.of ch).Url ≠ "") ∧
        (∀ ch p, (nativeCoin ch, p) ∈ m ↔ ((c.of ch).Url ≠ "" ∧ ctors.of ch c = .ok p)) ∧
        (∀ k p, (k, p) ∈ m → ∃ ch, k = nativeCoin ch) ∧
        (∀ pp, (NewPaymentProcessor env ctors order loadOrder c db w).result = .ok pp →
          pp.cryptoProcessors = m) ∧
        ((NewPaymentProcessor env ctors order loadOrder c db w).result = .ok ⟨m⟩ ∨
          ∃ e, (NewPaymentProcessor env ctors order loadOrder c db w).result = .error e ∧
            ∀ s, e ≠ InitErr.ctor s) ∧
        (env.beginFails = false →
          env.fault Query.ShiftExpiresAtForNonConfirmedInvoices = false →
          env.fault Query.FindAllPendingInvoices = false →
          (∀ ch p, ctors.of ch c = .ok p → ∀ w1, (p.load w1).1 = none) →
          (∀ l, ∀ p ∈ loadOrder l, p ∈ l) →
          (NewPaymentProcessor env ctors order loadOrder c db w).result = .ok ⟨m⟩)) ∧
    (∀ pre ch post e, allChains = pre ++ ch :: post → (c.of ch).Url ≠ "" →
      ctors.of ch c = .error e →
      (∀ x ∈ pre, (c.of x).Url ≠ "" → ∃ p, ctors.of x c = .ok p) →
      (NewPaymentProcessor env ctors order loadOrder c db w).result
        = .error (InitErr.ctor e)) := by
  refine ⟨?_, ?_⟩
  · intro hall
    obtain ⟨m, hb, hm⟩ := buildProcessors_ok ctors c allChains [] (by decide)
      (Constructors.of_coin ctors c) (fun ch _ => hall ch)
    have hall_mem : ∀ ch : Chain, ch ∈ allChains := by
      intro ch; cases ch <;> decide
    have hres := NewPaymentProcessor_of_build env ctors order loadOrder c db w m hb
    have hentry : ∀ ch p, (nativeCoin ch, p) ∈ m ↔ ((c.of ch).Url ≠ "" ∧ ctors.of ch c = .ok p) := by
      intro ch p
      constructor
      · intro hp
        rcases (hm _ _).mp hp with ⟨x, _, hxu, hxv, hxk⟩ | ⟨hnil, _⟩
        · rw [nativeCoin_injective _ _ hxk]
          exact ⟨hxu, hxv⟩
        · cases hnil
      · rintro ⟨hurl, hp⟩
        exact (hm _ _).mpr (Or.inl ⟨ch, hall_mem ch, hurl, hp, rfl⟩)
    have hkeys : ∀ k p, (k, p) ∈ m → ∃ ch, k = nativeCoin ch := by
      intro k p hp
      rcases (hm _ _).mp hp with ⟨x, _, _, _, hxk⟩ | ⟨hnil, _⟩
      · exact ⟨x, hxk⟩
      · cases hnil
    refine ⟨m, hb, ?_, hentry, hkeys, ?_, ?_, ?_⟩
    · intro ch
      constructor
      · rintro ⟨p, hp⟩
        exact ((hentry ch p).mp hp).1
      · intro hurl
        obtain ⟨p, hp⟩ := hall ch hurl
        exact ⟨p, (hentry ch p).mpr ⟨hurl, hp⟩⟩
    · intro pp hpp
      rw [hres] at hpp
      cases hl : ((⟨m⟩ : PaymentProcessor σ).load env order loadOrder db w).1 with
      | none =>
        rw [hl] at hpp
        simp only [Except.ok.injEq] at hpp
        rw [← hpp]
      | some e =>
        rw [hl] at hpp
        cases hpp
    · rw [hres]
      cases hl : ((⟨m⟩ : PaymentProcessor σ).load env order loadOrder db w).1 with
      | none => exact Or.inl rfl
      | some e =>
        exact Or.inr ⟨e, rfl, PaymentProcessor.load_error env order loadOrder ⟨m⟩ db w e hl⟩
    · intro hbeg hf1 hf2 hloads hvisit
      rw [hres]
      have hl : ((⟨m⟩ : PaymentProcessor σ).load env order loadOrder db w).1 = none := by
        apply PaymentProcessor.load_none env order loadOrder ⟨m⟩ db w hbeg hf1 hf2
        intro p hp w1
        have hp2 := hvisit _ p hp
        simp only [List.mem_map] at hp2
        obtain ⟨⟨k, q⟩, hkq, hq⟩ := hp2
        simp only at hq
        subst hq
        obtain ⟨ch, hch⟩ := hkeys k q hkq
        subst hch
        exact hloads ch q ((hentry ch q).mp hkq).2 w1
      rw [hl]
  · intro pre ch post e hsplit hurl herr hpre
    have hb := buildProcessors_error ctors c ch post e hurl herr pre [] hpre
    rw [← hsplit] at hb
    unfold NewPaymentProcessor
    rw [hb]

/-- Witness for C16: with the XMR and LTC URLs set, NewPaymentProcessor returns the
PaymentProcessor whose registry holds a processor exactly for XMR and LTC, under the keys XMR
and LTC; with the XMR and BTC URLs set and the BTC daemon unreachable, the error of
newBtcProcessor is returned. -/
theorem newPaymentProcessor_registry_witness :
    (∃ m, (∀ ch, (∃ p, (nativeCoin ch, p) ∈ m) ↔ (configXmrLtc.of ch).Url ≠ "") ∧
      (NewPaymentProcessor env0 sampleConstructors (fun procs _ => procs)
        (fun procs => procs) configXmrLtc sampleStore []).result = .ok ⟨m⟩) ∧
    (match (NewPaymentProcessor env0 sampleConstructors (fun procs _ => procs)
        (fun procs => procs) configXmrLtc sampleStore []).result with
      | .ok pp => pp.cryptoProcessors.map (fun e => e.1)
      | .error _ => []) = [CoinTypeXMR, CoinTypeLTC] ∧
    (NewPaymentProcessor env0 sampleConstructors (fun procs _ => procs) (fun procs => procs)
        configXmrBtc sampleStore []).result
      = .error (InitErr.ctor "dial tcp: connection refused") := by
  refine ⟨?_, rfl, ?_⟩
  · obtain ⟨m, _, h1, _, _, _, _, h6⟩ :=
      (newPaymentProcessor_registry env0 sampleConstructors (fun procs _ => procs)
        (fun procs => procs) configXmrLtc sampleStore []).1
        (by
          intro ch hurl
          cases ch
          · exact ⟨_, rfl⟩
          · exact absurd rfl hurl
          · exact ⟨_, rfl⟩
          · exact absurd rfl hurl
          · exact absurd rfl hurl)
    refine ⟨m, h1, h6 rfl rfl rfl ?_ (fun _ _ hp => hp)⟩
    intro ch p hp w1
    obtain ⟨q, hq, hload⟩ := Constructors.of_load sampleConstructors configXmrLtc ch p hp
    rw [hload]
    cases ch
    · simp only [Constructors.outcome, sampleConstructors, Except.ok.injEq] at hq
      rw [← hq]
      rfl
    · simp only [Constructors.outcome, sampleConstructors] at hq
      cases hq
    · simp only [Constructors.outcome, sampleConstructors, Except.ok.injEq] at hq
      rw [← hq]
      rfl
    · simp only [Constructors.outcome, sampleConstructors, Except.ok.injEq] at hq
      rw [← hq]
      rfl
    · simp only [Constructors.outcome, sampleConstructors, Except.ok.injEq] at hq
      rw [← hq]
      rfl
  · exact (newPaymentProcessor_registry env0 sampleConstructors (fun procs _ => procs)
      (fun procs => procs) configXmrBtc sampleStore []).2
      [Chain.XMR] Chain.BTC [Chain.LTC, Chain.ETH, Chain.BNB] "dial tcp: connection refused"
      rfl (by decide) rfl
      (by
        intro x hx _
        simp only [List.mem_singleton] at hx
        subst hx
        exact ⟨_, rfl⟩)

/-! ### C27: the generated enum tables -/

theorem lookup_some_mem {α β : Type} [BEq α] [LawfulBEq α] (a : α) (b : β) :
    ∀ l : List (α × β), l.lookup a = some b → (a, b) ∈ l := by
  intro l
  induction l with
  | nil => intro h; simp [List.lookup] at h
  | cons x xs ih =>
    intro h
    obtain ⟨k, v⟩ := x
    by_cases hk : a == k
    · simp only [List.lookup, hk, Option.some.injEq] at h
      have hak : a = k := by simpa using hk
      rw [hak, ← h]
      exact List.mem_cons_self _ _
    · have hk' : (a == k) = false := by simpa using hk
      simp only [List.lookup, hk'] at h
      exact List.mem_cons_of_mem _ (ih h)

/-- C27: the tables CoinType_name and CoinType_value are inverse bijections between the numbers
0..41 and 42 pairwise distinct names, and the declared CoinType constants are exactly the numbers
0..41, in order, with no gap and no duplicate. -/
theorem coinType_tables_inverse :
    (∀ n : Int, 0 ≤ n → n ≤ 41 →
      ∃ s, CoinType_name.lookup n = some s ∧ CoinType_value.lookup s = some n) ∧
    (∀ s n, CoinType_value.lookup s = some n → CoinType_name.lookup n = some s) ∧
    CoinType_name.length = 42 ∧ CoinType_value.length = 42 ∧
    (CoinType_name.map Prod.fst).Nodup ∧ (CoinType_name.map Prod.snd).Nodup ∧
    (CoinType_value.map Prod.fst).Nodup ∧ (CoinType_value.map Prod.snd).Nodup ∧
    coinTypeConstants = (List.range 42).map Int.ofNat := by
  refine ⟨?_, ?_, rfl, rfl, by decide, by decide, by decide, by decide, by decide⟩
  · intro n h0 h1
    interval_cases n <;> exact ⟨_, rfl, rfl⟩
  · intro s n h
    have hmem := lookup_some_mem s n CoinType_value h
    have hall : ∀ p ∈ CoinType_value, CoinType_name.lookup p.2 = some p.1 := by decide
    exact hall (s, n) hmem

/-- Witness for C27 at the number 18 and the name BNB. -/
theorem coinType_tables_inverse_witness :
    (∃ s, CoinType_name.lookup 18 = some s ∧ CoinType_value.lookup s = some 18) ∧
    CoinType_name.lookup 18 = some "BNB" :=
  ⟨coinType_tables_inverse.1 18 (by decide) (by decide),
   coinType_tables_inverse.2.1 "BNB" 18 rfl⟩

/-! ### C23: outputs with several addresses, outputs matching twice -/

theorem verifyLTCTxHandler_eq_fold {α : Type} [Add α] [Zero α] (tx : LTCTx α)
    (invoice : Invoice) :
    verifyLTCTxHandler tx invoice
      = (((tx.Vout.filter (fun o => voutPays o invoice.CryptoAddress)).map
          (fun o => o.Value)).foldl (fun acc v => acc + v) 0, none) := by
  unfold verifyLTCTxHandler
  rw [verifyLTCTxLoop_eq tx.Vout invoice.CryptoAddress tx.Vout.length 0 0 (by simp),
    List.drop_zero]

/-- C23: in verifyLTCTxHandler an output whose Addresses list has two or more entries and whose
Address field is not the invoice address is not credited, whatever the list holds: the amount is
the one of the transaction without that output. An output that satisfies both matching
conditions at once adds its Value exactly once to the amount of the outputs before it. -/
theorem verifyLTCTxHandler_multi_and_double {α : Type} [Add α] [Zero α]
    (pre post : List (Vout α)) (o : Vout α) (invoice : Invoice) :
    (2 ≤ o.ScriptPubKey.Addresses.length → o.ScriptPubKey.Address ≠ invoice.CryptoAddress →
      voutPays o invoice.CryptoAddress = false ∧
      verifyLTCTxHandler ⟨pre ++ o :: post⟩ invoice = verifyLTCTxHandler ⟨pre ++ post⟩ invoice) ∧
    (o.ScriptPubKey.Address = invoice.CryptoAddress →
      o.ScriptPubKey.Addresses = [invoice.CryptoAddress] →
      verifyLTCTxHandler ⟨pre ++ [o]⟩ invoice
        = ((verifyLTCTxHandler ⟨pre⟩ invoice).1 + o.Value, none)) := by
  refine ⟨?_, ?_⟩
  · intro hlen hne
    have hp : voutPays o invoice.CryptoAddress = false := by
      unfold voutPays
      have h1 : ¬ o.ScriptPubKey.Addresses.length = 1 := by omega
      simp [hne, h1]
    refine ⟨hp, ?_⟩
    rw [verifyLTCTxHandler_eq_fold, verifyLTCTxHandler_eq_fold]
    simp only [List.filter_append, List.filter_cons, hp, Bool.false_eq_true, if_false]
  · intro haddr _
    have hp : voutPays o invoice.CryptoAddress = true := by
      unfold voutPays
      simp [haddr]
    rw [verifyLTCTxHandler_eq_fold, verifyLTCTxHandler_eq_fold]
    simp only [List.filter_append, List.filter_cons, hp, if_true, List.filter_nil,
      List.map_append, List.map_cons, List.map_nil, List.foldl_append, List.foldl_cons,
      List.foldl_nil]

/-- Witness for C23: in the sample transaction the output to the addresses A and B is not
credited, and an output that names A in both fields adds its value 3 once to the 12 before it. -/
theorem verifyLTCTxHandler_multi_and_double_witness :
    (voutPays (⟨11, ⟨"", ["A", "B"]⟩⟩ : Vout Int) ltcInvoice.CryptoAddress = false ∧
      verifyLTCTxHandler
          (⟨[⟨5, ⟨"A", []⟩⟩, ⟨7, ⟨"", ["A"]⟩⟩] ++ ⟨11, ⟨"", ["A", "B"]⟩⟩ :: [⟨13, ⟨"B", []⟩⟩]⟩ :
            LTCTx Int) ltcInvoice
        = verifyLTCTxHandler
          (⟨[⟨5, ⟨"A", []⟩⟩, ⟨7, ⟨"", ["A"]⟩⟩] ++ [⟨13, ⟨"B", []⟩⟩]⟩ : LTCTx Int) ltcInvoice) ∧
    verifyLTCTxHandler (⟨ltcTxSample.Vout ++ [⟨3, ⟨"A", ["A"]⟩⟩]⟩ : LTCTx Int) ltcInvoice
      = ((verifyLTCTxHandler (⟨ltcTxSample.Vout⟩ : LTCTx Int) ltcInvoice).1 + 3, none) :=
  ⟨(verifyLTCTxHandler_multi_and_double [⟨5, ⟨"A", []⟩⟩, ⟨7, ⟨"", ["A"]⟩⟩] [⟨13, ⟨"B", []⟩⟩]
      ⟨11, ⟨"", ["A", "B"]⟩⟩ ltcInvoice).1 (by decide) (by decide),
   (verifyLTCTxHandler_multi_and_double ltcTxSample.Vout [] ⟨3, ⟨"A", ["A"]⟩⟩ ltcInvoice).2
      rfl rfl⟩

/-! ### C24: the uint32 child index -/

/-- C24: for every int32 cursor value v, the uint32 child index passed to key derivation equals
v and is below 2^31 if and only if v ≥ 0; for a negative v the conversion yields v + 2^32, which
is at least 2^31. -/
theorem uint32_child_index (v : Int) (hv : inInt32 v = true) :
    ((((uint32 v : Nat) : Int) = v ∧ uint32 v < 2147483648) ↔ 0 ≤ v) ∧
    (v < 0 → ((uint32 v : Nat) : Int) = v + 4294967296 ∧ 2147483648 ≤ uint32 v) := by
  rw [inInt32_iff] at hv
  have hcast : ((uint32 v : Nat) : Int) = v % 4294967296 := by
    unfold uint32
    exact Int.toNat_of_nonneg (Int.emod_nonneg v (by decide))
  refine ⟨?_, ?_⟩
  · constructor
    · rintro ⟨h1, _⟩
      rw [hcast] at h1
      omega
    · intro h0
      refine ⟨by rw [hcast]; omega, ?_⟩
      have : ((uint32 v : Nat) : Int) < 2147483648 := by rw [hcast]; omega
      exact_mod_cast this
  · intro hneg
    refine ⟨by rw [hcast]; omega, ?_⟩
    have : (2147483648 : Int) ≤ ((uint32 v : Nat) : Int) := by rw [hcast]; omega
    exact_mod_cast this

/-- Witness for C24 at the cursor values 5 and -1. -/
theorem uint32_child_index_witness :
    (((((uint32 5 : Nat) : Int) = 5 ∧ uint32 5 < 2147483648) ↔ (0 : Int) ≤ 5) ∧
      ((5 : Int) < 0 → ((uint32 5 : Nat) : Int) = 5 + 4294967296 ∧ 2147483648 ≤ uint32 5)) ∧
    (((uint32 (-1) : Nat) : Int) = -1 + 4294967296 ∧ 2147483648 ≤ uint32 (-1)) :=
  ⟨uint32_child_index 5 (by decide), (uint32_child_index (-1) (by decide)).2 (by decide)⟩

/-! ### C22: shift before fetch -/

theorem loadPersistedPendingInvoices_handled_eq {σ : Type} (env : Env)
    (order : Nat → List (CryptoProcessor σ)) (db : Store) (w : σ)
    (hb : env.beginFails = false)
    (hf1 : env.fault Query.ShiftExpiresAtForNonConfirmedInvoices = false)
    (hf2 : env.fault Query.FindAllPendingInvoices = false) :
    (loadPersistedPendingInvoices env order db w).handled
      = (handlePending order 0
          ((db.invoices.map (fun i =>
              if i.Status = InvoiceStatusTypeCONFIRMED then i
              else { i with ExpiresAt := i.ExpiresAt + persist_cache_timeout })).filter
            (fun i => decide (i.Status = InvoiceStatusTypePENDING ∨
              i.Status = InvoiceStatusTypePENDINGMEMPOOL))) w).2 ∧
    (loadPersistedPendingInvoices env order db w).queries
      = [Query.ShiftExpiresAtForNonConfirmedInvoices, Query.FindAllPendingInvoices] := by
  constructor <;>
    simp [loadPersistedPendingInvoices, hb, Tx.run, hf1, hf2,
      ShiftExpiresAtForNonConfirmedInvoices, FindAllPendingInvoices]

theorem loadPersistedPendingInvoices_failed {σ : Type} (env : Env)
    (order : Nat → List (CryptoProcessor σ)) (db : Store) (w : σ)
    (h : env.beginFails = true ∨ env.fault Query.ShiftExpiresAtForNonConfirmedInvoices = true ∨
      env.fault Query.FindAllPendingInvoices = true) :
    (loadPersistedPendingInvoices env order db w).handled = [] := by
  by_cases hb : env.beginFails = true
  · simp [loadPersistedPendingInvoices, hb]
  by_cases hf1 : env.fault Query.ShiftExpiresAtForNonConfirmedInvoices = true
  · simp [loadPersistedPendingInvoices, hb, Tx.run, hf1]
  by_cases hf2 : env.fault Query.FindAllPendingInvoices = true
  · simp [loadPersistedPendingInvoices, hb, Tx.run, hf1, hf2,
      ShiftExpiresAtForNonConfirmedInvoices]
  · rcases h with h | h | h
    · exact absurd h hb
    · exact absurd h hf1
    · exact absurd h hf2

/-- C22: in loadPersistedPendingInvoices the expiry shift is the first query of the transaction
and the fetch of the pending invoices the second. When the transaction can be begun and both
queries succeed, the function returns no error, has issued exactly these two queries in this
order, has handed every pending invoice of the store, with its expires-at already shifted by the
grace window, to every configured processor that accepts its coin, and (the commit succeeding)
has left the shifted expires-at in the store. Every invoice handed to a processor is a pending
invoice of the store with its expires-at already shifted. If the shift query or the fetch query
fails, the function returns that error, handleInvoice is called on no processor, the failing
query was the last one issued and the store is left as it was. -/
theorem loadPersistedPendingInvoices_shift_then_fetch {σ : Type} (env : Env)
    (procs : List (CryptoProcessor σ)) (order : Nat → List (CryptoProcessor σ))
    (db : Store) (w : σ) (hvisit : ∀ i, (order i).Perm procs) :
    ((loadPersistedPendingInvoices env order db w).queries = [] ∨
      (loadPersistedPendingInvoices env order db w).queries
        = [Query.ShiftExpiresAtForNonConfirmedInvoices] ∨
      (loadPersistedPendingInvoices env order db w).queries
        = [Query.ShiftExpiresAtForNonConfirmedInvoices, Query.FindAllPendingInvoices]) ∧
    (env.beginFails = false →
      env.fault Query.ShiftExpiresAtForNonConfirmedInvoices = false →
      env.fault Query.FindAllPendingInvoices = false →
      (loadPersistedPendingInvoices env order db w).err = none ∧
      (loadPersistedPendingInvoices env order db w).queries
        = [Query.ShiftExpiresAtForNonConfirmedInvoices, Query.FindAllPendingInvoices] ∧
      (∀ inv0 ∈ db.invoices,
        (inv0.Status = InvoiceStatusTypePENDING ∨
          inv0.Status = InvoiceStatusTypePENDINGMEMPOOL) →
        ∀ cp ∈ procs, cp.supportsCoin inv0.Coin = true →
          (cp.coin, { inv0 with ExpiresAt := inv0.ExpiresAt + persist_cache_timeout })
            ∈ (loadPersistedPendingInvoices env order db w).handled) ∧
      (env.commitFails = false →
        (loadPersistedPendingInvoices env order db w).db.invoices
          = db.invoices.map (fun i =>
              if i.Status = InvoiceStatusTypeCONFIRMED then i
              else { i with ExpiresAt := i.ExpiresAt + persist_cache_timeout }))) ∧
    (∀ c inv, (c, inv) ∈ (loadPersistedPendingInvoices env order db w).handled →
      (loadPersistedPendingInvoices env order db w).queries
        = [Query.ShiftExpiresAtForNonConfirmedInvoices, Query.FindAllPendingInvoices] ∧
      (∃ inv0 ∈ db.invoices,
        (inv0.Status = InvoiceStatusTypePENDING ∨
          inv0.Status = InvoiceStatusTypePENDINGMEMPOOL) ∧
        inv = { inv0 with ExpiresAt := inv0.ExpiresAt + persist_cache_timeout }) ∧
      ∃ cp ∈ procs, cp.coin = c ∧ cp.supportsCoin inv.Coin = true) ∧
    (env.beginFails = false →
      ∀ e tx1, (⟨db, []⟩ : Tx).run env Query.ShiftExpiresAtForNonConfirmedInvoices
          ShiftExpiresAtForNonConfirmedInvoices = (.error e, tx1) →
        (loadPersistedPendingInvoices env order db w).err = some e ∧
        (loadPersistedPendingInvoices env order db w).handled = [] ∧
        (loadPersistedPendingInvoices env order db w).queries
          = [Query.ShiftExpiresAtForNonConfirmedInvoices] ∧
        (loadPersistedPendingInvoices env order db w).db = db) ∧
    (env.beginFails = false →
      ∀ rows tx1 e tx2, (⟨db, []⟩ : Tx).run env Query.ShiftExpiresAtForNonConfirmedInvoices
          ShiftExpiresAtForNonConfirmedInvoices = (.ok rows, tx1) →
        tx1.run env Query.FindAllPendingInvoices FindAllPendingInvoices = (.error e, tx2) →
        (loadPersistedPendingInvoices env order db w).err = some e ∧
        (loadPersistedPendingInvoices env order db w).handled = [] ∧
        (loadPersistedPendingInvoices env order db w).queries
          = [Query.ShiftExpiresAtForNonConfirmedInvoices, Query.FindAllPendingInvoices] ∧
        (loadPersistedPendingInvoices env order db w).db = db) := by
  refine ⟨?_, ?_, ?_, ?_, ?_⟩
  · by_cases hb : env.beginFails = true
    · left; simp [loadPersistedPendingInvoices, hb]
    by_cases hf1 : env.fault Query.ShiftExpiresAtForNonConfirmedInvoices = true
    · right; left; simp [loadPersistedPendingInvoices, hb, Tx.run, hf1]
    by_cases hf2 : env.fault Query.FindAllPendingInvoices = true
    · right; right
      simp [loadPersistedPendingInvoices, hb, Tx.run, hf1, hf2,
        ShiftExpiresAtForNonConfirmedInvoices]
    · right; right
      exact (loadPersistedPendingInvoices_handled_eq env order db w (by simpa using hb)
        (by simpa using hf1) (by simpa using hf2)).2
  · intro hb hf1 hf2
    obtain ⟨hh, hq⟩ := loadPersistedPendingInvoices_handled_eq env order db w hb hf1 hf2
    obtain ⟨herr, hdb⟩ := loadPersistedPendingInvoices_succeeds env order db w hb hf1 hf2
    refine ⟨herr, hq, ?_, hdb⟩
    intro inv0 hinv0 hst cp hcp hsup
    rw [hh, handlePending_mem]
    have hnc : ¬ inv0.Status = InvoiceStatusTypeCONFIRMED := by
      intro hc
      rw [hc] at hst
      exact absurd hst (by decide)
    have hin : ({ inv0 with ExpiresAt := inv0.ExpiresAt + persist_cache_timeout } : Invoice)
        ∈ (db.invoices.map (fun i =>
              if i.Status = InvoiceStatusTypeCONFIRMED then i
              else { i with ExpiresAt := i.ExpiresAt + persist_cache_timeout })).filter
            (fun i => decide (i.Status = InvoiceStatusTypePENDING ∨
              i.Status = InvoiceStatusTypePENDINGMEMPOOL)) := by
      rw [List.mem_filter, List.mem_map]
      refine ⟨⟨inv0, hinv0, ?_⟩, ?_⟩
      · rw [if_neg hnc]
      · simp only [decide_eq_true_eq]
        exact hst
    obtain ⟨k, hk⟩ := List.get?_of_mem hin
    exact ⟨k, hk, cp, ((hvisit (0 + k)).mem_iff).mpr hcp, rfl, hsup⟩
  · intro c inv hmem
    by_cases hfail : env.beginFails = true ∨
        env.fault Query.ShiftExpiresAtForNonConfirmedInvoices = true ∨
        env.fault Query.FindAllPendingInvoices = true
    · rw [loadPersistedPendingInvoices_failed env order db w hfail] at hmem
      cases hmem
    · simp only [not_or, Bool.not_eq_true] at hfail
      obtain ⟨hb, hf1, hf2⟩ := hfail
      obtain ⟨hh, hq⟩ := loadPersistedPendingInvoices_handled_eq env order db w hb hf1 hf2
      rw [hh, handlePending_mem] at hmem
      obtain ⟨k, hk, cp, hcp, hc, hsup⟩ := hmem
      refine ⟨hq, ?_, cp, ((hvisit (0 + k)).mem_iff).mp hcp, hc, hsup⟩
      have hin := List.get?_mem hk
      rw [List.mem_filter, List.mem_map] at hin
      obtain ⟨⟨inv0, hinv0, hshift⟩, hst⟩ := hin
      simp only [decide_eq_true_eq] at hst
      by_cases hconf : inv0.Status = InvoiceStatusTypeCONFIRMED
      · rw [if_pos hconf] at hshift
        rw [← hshift, hconf] at hst
        exact absurd hst (by decide)
      · rw [if_neg hconf] at hshift
        refine ⟨inv0, hinv0, ?_, hshift.symm⟩
        rw [← hshift] at hst
        exact hst
  · intro hb e tx1 hrun
    have hf1 : env.fault Query.ShiftExpiresAtForNonConfirmedInvoices = true := by
      by_contra hf
      simp [Tx.run, hf, ShiftExpiresAtForNonConfirmedInvoices] at hrun
    have hlog := Tx.run_log env Query.ShiftExpiresAtForNonConfirmedInvoices
      ShiftExpiresAtForNonConfirmedInvoices ⟨db, []⟩
    rw [hrun] at hlog
    simp only [List.nil_append] at hlog
    simp [loadPersistedPendingInvoices, hb, hrun, hlog]
  · intro hb rows tx1 e tx2 hrun1 hrun2
    have hlog1 := Tx.run_log env Query.ShiftExpiresAtForNonConfirmedInvoices
      ShiftExpiresAtForNonConfirmedInvoices ⟨db, []⟩
    rw [hrun1] at hlog1
    simp only [List.nil_append] at hlog1
    have hlog2 := Tx.run_log env Query.FindAllPendingInvoices FindAllPendingInvoices tx1
    rw [hrun2] at hlog2
    simp only at hlog2
    rw [hlog1] at hlog2
    simp [loadPersistedPendingInvoices, hb, hrun1, hrun2, hlog2]

/-- Witness for C22: on the sample store with an LTC processor the function returns no error
after the two queries, the LTC invoice is handed with expires-at 3600 + 60 and to nobody else,
and the store holds the shifted invoice; with the shift query failing, and with the fetch query
failing, the error is returned, nothing is handed and the store is unchanged. -/
theorem loadPersistedPendingInvoices_shift_then_fetch_witness :
    ((loadPersistedPendingInvoices env0 (fun _ => [sampleProcessor CoinTypeLTC]) sampleStore
        []).err = none ∧
      (loadPersistedPendingInvoices env0 (fun _ => [sampleProcessor CoinTypeLTC]) sampleStore
        []).queries
        = [Query.ShiftExpiresAtForNonConfirmedInvoices, Query.FindAllPendingInvoices] ∧
      ((sampleProcessor CoinTypeLTC).coin,
          ({ ltcInvoice with ExpiresAt := ltcInvoice.ExpiresAt + persist_cache_timeout }
            : Invoice))
        ∈ (loadPersistedPendingInvoices env0 (fun _ => [sampleProcessor CoinTypeLTC])
            sampleStore []).handled ∧
      (loadPersistedPendingInvoices env0 (fun _ => [sampleProcessor CoinTypeLTC]) sampleStore
        []).db.invoices
        = sampleStore.invoices.map (fun i =>
            if i.Status = InvoiceStatusTypeCONFIRMED then i
            else { i with ExpiresAt := i.ExpiresAt + persist_cache_timeout })) ∧
    (loadPersistedPendingInvoices env0 (fun _ => [sampleProcessor CoinTypeLTC]) sampleStore
      []).handled = [(CoinTypeLTC, { ltcInvoice with ExpiresAt := 3660 })] ∧
    ((loadPersistedPendingInvoices envShiftFault (fun _ => [sampleProcessor CoinTypeLTC])
        sampleStore []).err = some SqlErr.connection ∧
      (loadPersistedPendingInvoices envShiftFault (fun _ => [sampleProcessor CoinTypeLTC])
        sampleStore []).handled = [] ∧
      (loadPersistedPendingInvoices envShiftFault (fun _ => [sampleProcessor CoinTypeLTC])
        sampleStore []).queries = [Query.ShiftExpiresAtForNonConfirmedInvoices] ∧
      (loadPersistedPendingInvoices envShiftFault (fun _ => [sampleProcessor CoinTypeLTC])
        sampleStore []).db = sampleStore) ∧
    ((loadPersistedPendingInvoices envFetchFault (fun _ => [sampleProcessor CoinTypeLTC])
        sampleStore []).err = some SqlErr.connection ∧
      (loadPersistedPendingInvoices envFetchFault (fun _ => [sampleProcessor CoinTypeLTC])
        sampleStore []).handled = [] ∧
      (loadPersistedPendingInvoices envFetchFault (fun _ => [sampleProcessor CoinTypeLTC])
        sampleStore []).queries
        = [Query.ShiftExpiresAtForNonConfirmedInvoices, Query.FindAllPendingInvoices] ∧
      (loadPersistedPendingInvoices envFetchFault (fun _ => [sampleProcessor CoinTypeLTC])
        sampleStore []).db = sampleStore) :=
  ⟨⟨((loadPersistedPendingInvoices_shift_then_fetch env0 [sampleProcessor CoinTypeLTC]
        (fun _ => [sampleProcessor CoinTypeLTC]) sampleStore [] (fun _ => List.Perm.refl _)).2.1
        rfl rfl rfl).1,
     ((loadPersistedPendingInvoices_shift_then_fetch env0 [sampleProcessor CoinTypeLTC]
        (fun _ => [sampleProcessor CoinTypeLTC]) sampleStore [] (fun _ => List.Perm.refl _)).2.1
        rfl rfl rfl).2.1,
     ((loadPersistedPendingInvoices_shift_then_fetch env0 [sampleProcessor CoinTypeLTC]
        (fun _ => [sampleProcessor CoinTypeLTC]) sampleStore [] (fun _ => List.Perm.refl _)).2.1
        rfl rfl rfl).2.2.1 ltcInvoice (List.mem_singleton.mpr rfl) (Or.inl rfl)
        (sampleProcessor CoinTypeLTC) (List.mem_singleton.mpr rfl) (by decide),
     ((loadPersistedPendingInvoices_shift_then_fetch env0 [sampleProcessor CoinTypeLTC]
        (fun _ => [sampleProcessor CoinTypeLTC]) sampleStore [] (fun _ => List.Perm.refl _)).2.1
        rfl rfl rfl).2.2.2 rfl⟩,
   rfl,
   (loadPersistedPendingInvoices_shift_then_fetch envShiftFault [sampleProcessor CoinTypeLTC]
      (fun _ => [sampleProcessor CoinTypeLTC]) sampleStore [] (fun _ => List.Perm.refl _)).2.2.2.1
      rfl SqlErr.connection ⟨sampleStore, [Query.ShiftExpiresAtForNonConfirmedInvoices]⟩ rfl,
   (loadPersistedPendingInvoices_shift_then_fetch envFetchFault [sampleProcessor CoinTypeLTC]
      (fun _ => [sampleProcessor CoinTypeLTC]) sampleStore [] (fun _ => List.Perm.refl _)).2.2.2.2
      rfl _ _ SqlErr.connection _ rfl rfl⟩

/-! ### C25: success without commit -/

/-- C25, the code at the failing input: when tx.Commit fails, RegisterUser with the
client-supplied id of user 1 on the empty store returns the success response carrying that id,
and the committed store is still empty: the user is not in it. -/
theorem registerUser_success_not_durable :
    envCommitFails.StringToPgUUID user1Str = some (PgUUID.ofByte 1) ∧
    (RegisterUser envCommitFails ⟨some user1Str⟩ Store.empty).result = .ok ⟨user1Str⟩ ∧
    (RegisterUser envCommitFails ⟨some user1Str⟩ Store.empty).queries
      = [Query.CreateUserWithId, Query.CreateCryptoData] ∧
    (RegisterUser envCommitFails ⟨some user1Str⟩ Store.empty).db = Store.empty ∧
    PgUUID.ofByte 1 ∉ (RegisterUser envCommitFails ⟨some user1Str⟩ Store.empty).db.users := by
  have hp : envCommitFails.StringToPgUUID user1Str = some (PgUUID.ofByte 1) := by decide
  have hf : formatUUID (PgUUID.ofByte 1) = user1Str := by decide
  refine ⟨hp, ?_, rfl, rfl, by decide⟩
  show Except.ok (RegisterUserResponse.mk (formatUUID (PgUUID.ofByte 1))) = _
  rw [hf]

/-! ### C26: storing valid XMR keys -/

theorem DeleteAllCryptoAddress_tables {arg : DeleteAllCryptoAddressByUserIdAndCoinParams}
    {s s' : Store} {rows : List CryptoAddress}
    (h : DeleteAllCryptoAddressByUserIdAndCoin arg s = .ok (rows, s')) :
    s'.xmrCryptoData = s.xmrCryptoData ∧ s'.cryptoData = s.cryptoData := by
  simp only [DeleteAllCryptoAddressByUserIdAndCoin, Except.ok.injEq, Prod.mk.injEq] at h
  rw [← h.2]
  exact ⟨rfl, rfl⟩

theorem CreateXMRCryptoData_tables {env : Env} {arg : CreateXMRCryptoDataParams}
    {s s' : Store} {r : XmrCryptoDatum} (h : CreateXMRCryptoData env arg s = .ok (r, s')) :
    s'.xmrCryptoData = s.xmrCryptoData ++ [r] ∧ s'.cryptoData = s.cryptoData ∧
      r.PrivViewKey = arg.PrivViewKey ∧ r.PubSpendKey = arg.PubSpendKey ∧
      ∀ x ∈ s.xmrCryptoData, x.ID ≠ r.ID := by
  unfold CreateXMRCryptoData at h
  simp only at h
  split at h
  · cases h
  · rename_i hany
    simp only [Except.ok.injEq, Prod.mk.injEq] at h
    obtain ⟨h1, h2⟩ := h
    subst h1
    rw [← h2]
    refine ⟨rfl, rfl, rfl, rfl, ?_⟩
    intro x hx hid
    apply hany
    rw [List.any_eq_true]
    exact ⟨x, hx, by simp [hid]⟩

theorem SetXMRCryptoDataByUserId_tables {arg : SetXMRCryptoDataByUserIdParams}
    {s s' : Store} {r : CryptoDatum} (h : SetXMRCryptoDataByUserId arg s = .ok (r, s')) :
    s'.xmrCryptoData = s.xmrCryptoData ∧ r.XmrID = arg.XmrID ∧
      (∃ d ∈ s'.cryptoData, d.UserID = arg.UserID) ∧
      (∀ d ∈ s'.cryptoData, d.UserID = arg.UserID → d.XmrID = arg.XmrID) ∧
      s'.cryptoData.length = s.cryptoData.length := by
  unfold SetXMRCryptoDataByUserId at h
  split at h
  · cases h
  · rename_i c hfind
    split at h
    · cases h
    · simp only [Except.ok.injEq, Prod.mk.injEq] at h
      obtain ⟨h1, h2⟩ := h
      subst h1
      rw [← h2]
      have hc := List.find?_some hfind
      have hcm := List.mem_of_find?_eq_some hfind
      simp only [decide_eq_true_eq] at hc
      refine ⟨rfl, rfl, ?_, ?_, by simp⟩
      · refine ⟨{ c with XmrID := arg.XmrID }, ?_, hc⟩
        simp only [List.mem_map]
        exact ⟨c, hcm, by simp [hc]⟩
      · intro d hd hdu
        simp only [List.mem_map] at hd
        obtain ⟨d0, _, hd0⟩ := hd
        by_cases h0 : d0.UserID = arg.UserID
        · rw [if_pos h0] at hd0
          rw [← hd0]
        · rw [if_neg h0] at hd0
          rw [hd0] at h0
          exact absurd hdu h0

theorem UpdateKeysXMRCryptoDataById_tables {arg : UpdateKeysXMRCryptoDataByIdParams}
    {s s' : Store} {r : XmrCryptoDatum} (h : UpdateKeysXMRCryptoDataById arg s = .ok (r, s')) :
    s'.cryptoData = s.cryptoData ∧
      s'.xmrCryptoData.map (fun x => x.ID) = s.xmrCryptoData.map (fun x => x.ID) ∧
      (∃ x ∈ s'.xmrCryptoData, x.ID = arg.ID) ∧
      (∀ x ∈ s'.xmrCryptoData, x.ID = arg.ID →
        x.PrivViewKey = arg.PrivViewKey ∧ x.PubSpendKey = arg.PubSpendKey) ∧
      (∀ x ∈ s'.xmrCryptoData, x.ID ≠ arg.ID → x ∈ s.xmrCryptoData) := by
  unfold UpdateKeysXMRCryptoDataById at h
  split at h
  · cases h
  · rename_i r0 hfind
    split at h
    · cases h
    · simp only [Except.ok.injEq, Prod.mk.injEq] at h
      obtain ⟨_, h2⟩ := h
      rw [← h2]
      have hc := List.find?_some hfind
      have hcm := List.mem_of_find?_eq_some hfind
      simp only [decide_eq_true_eq] at hc
      refine ⟨rfl, ?_, ?_, ?_, ?_⟩
      · simp only [List.map_map]
        apply List.map_congr_left
        intro x _
        by_cases hx : x.ID = arg.ID <;> simp [hx]
      · refine ⟨{ r0 with PrivViewKey := arg.PrivViewKey, PubSpendKey := arg.PubSpendKey }, ?_,
          hc⟩
        simp only [List.mem_map]
        exact ⟨r0, hcm, by simp [hc]⟩
      · intro x hx hid
        simp only [List.mem_map] at hx
        obtain ⟨x0, _, hx0⟩ := hx
        by_cases h0 : x0.ID = arg.ID
        · rw [if_pos h0] at hx0
          rw [← hx0]
          exact ⟨rfl, rfl⟩
        · rw [if_neg h0] at hx0
          rw [hx0] at h0
          exact absurd hid h0
      · intro x hx hid
        simp only [List.mem_map] at hx
        obtain ⟨x0, hx0m, hx0⟩ := hx
        by_cases h0 : x0.ID = arg.ID
        · rw [if_pos h0] at hx0
          rw [← hx0] at hid
          exact absurd h0 hid
        · rw [if_neg h0] at hx0
          rw [← hx0]
          exact hx0m

/-- C26: handleXmrCryptoDataUpdate with valid keys, when its queries succeed. If the XMR
reference of the CryptoData is null, it returns nil, exactly one XMR key row is added, with a new
id and the given keys, and the crypto-data row of the user references that row. Otherwise it
returns nil, the keys of the referenced row are replaced in place, no row is created (the ids of
the key table are the same and every other row is as before) and the crypto-data table, with the
reference, is unchanged. -/
theorem handleXmrCryptoDataUpdate_valid_keys (env : Env) (inp : XmrKeysUpdateRequest)
    (cd : CryptoDatum) (tx : Tx)
    (hpriv : env.NewPrivateKey inp.PrivViewKey = true)
    (hpub : env.NewPublicKey inp.PubSpendKey = true) :
    (cd.XmrID.Valid = false → ∀ rows tx1 xmrData tx2 row tx3,
      tx.run env Query.DeleteAllCryptoAddressByUserIdAndCoin
        (DeleteAllCryptoAddressByUserIdAndCoin ⟨CoinTypeXMR, cd.UserID⟩) = (.ok rows, tx1) →
      tx1.run env Query.CreateXMRCryptoData
        (CreateXMRCryptoData env ⟨inp.PrivViewKey, inp.PubSpendKey⟩) = (.ok xmrData, tx2) →
      tx2.run env Query.SetXMRCryptoDataByUserId
        (SetXMRCryptoDataByUserId ⟨cd.UserID, xmrData.ID⟩) = (.ok row, tx3) →
      handleXmrCryptoDataUpdate env inp cd tx = (none, tx3) ∧
      tx3.store.xmrCryptoData = tx.store.xmrCryptoData ++ [xmrData] ∧
      xmrData.PrivViewKey = inp.PrivViewKey ∧ xmrData.PubSpendKey = inp.PubSpendKey ∧
      (∀ x ∈ tx.store.xmrCryptoData, x.ID ≠ xmrData.ID) ∧
      (∃ d ∈ tx3.store.cryptoData, d.UserID = cd.UserID) ∧
      (∀ d ∈ tx3.store.cryptoData, d.UserID = cd.UserID → d.XmrID = xmrData.ID)) ∧
    (cd.XmrID.Valid = true → ∀ rows tx1 row tx2,
      tx.run env Query.DeleteAllCryptoAddressByUserIdAndCoin
        (DeleteAllCryptoAddressByUserIdAndCoin ⟨CoinTypeXMR, cd.UserID⟩) = (.ok rows, tx1) →
      tx1.run env Query.UpdateKeysXMRCryptoDataById
        (UpdateKeysXMRCryptoDataById ⟨cd.XmrID, inp.PrivViewKey, inp.PubSpendKey⟩)
        = (.ok row, tx2) →
      handleXmrCryptoDataUpdate env inp cd tx = (none, tx2) ∧
      tx2.store.cryptoData = tx.store.cryptoData ∧
      tx2.store.xmrCryptoData.map (fun x => x.ID) = tx.store.xmrCryptoData.map (fun x => x.ID) ∧
      (∃ x ∈ tx2.store.xmrCryptoData, x.ID = cd.XmrID) ∧
      (∀ x ∈ tx2.store.xmrCryptoData, x.ID = cd.XmrID →
        x.PrivViewKey = inp.PrivViewKey ∧ x.PubSpendKey = inp.PubSpendKey) ∧
      (∀ x ∈ tx2.store.xmrCryptoData, x.ID ≠ cd.XmrID → x ∈ tx.store.xmrCryptoData)) := by
  refine ⟨?_, ?_⟩
  · intro hnull rows tx1 xmrData tx2 row tx3 h1 h2 h3
    obtain ⟨_, hq1, _⟩ := Tx.run_ok h1
    obtain ⟨_, hq2, _⟩ := Tx.run_ok h2
    obtain ⟨_, hq3, _⟩ := Tx.run_ok h3
    obtain ⟨hx1, hc1⟩ := DeleteAllCryptoAddress_tables hq1
    obtain ⟨hx2, hc2, hk1, hk2, hnew⟩ := CreateXMRCryptoData_tables hq2
    obtain ⟨hx3, _, hex, hall, _⟩ := SetXMRCryptoDataByUserId_tables hq3
    simp only at hk1 hk2 hex hall
    refine ⟨?_, ?_, hk1, hk2, ?_, hex, hall⟩
    · simp [handleXmrCryptoDataUpdate, hpriv, hpub, h1, hnull, h2, h3]
    · rw [hx3, hx2, hx1]
    · rw [← hx1]; exact hnew
  · intro hvalid rows tx1 row tx2 h1 h2
    obtain ⟨_, hq1, _⟩ := Tx.run_ok h1
    obtain ⟨_, hq2, _⟩ := Tx.run_ok h2
    obtain ⟨hx1, hc1⟩ := DeleteAllCryptoAddress_tables hq1
    obtain ⟨hc2, hids, hex, hkeys, hother⟩ := UpdateKeysXMRCryptoDataById_tables hq2
    simp only at hex hkeys hother
    refine ⟨?_, ?_, ?_, hex, hkeys, ?_⟩
    · simp [handleXmrCryptoDataUpdate, hpriv, hpub, h1, hvalid, h2]
    · rw [hc2, hc1]
    · rw [hids, hx1]
    · intro x hx hne
      rw [← hx1]
      exact hother x hx hne

/-- Witness for C26: on sampleStore, where user 1 has no XMR keys, the key row 101 is created and
referenced; on xmrKeyStore, where user 1 references the key row 5, the keys of that row are
replaced and the crypto-data table is unchanged. -/
theorem handleXmrCryptoDataUpdate_valid_keys_witness :
    ((handleXmrCryptoDataUpdate env0 sampleXmrKeys user1CryptoData ⟨sampleStore, []⟩).1 = none ∧
      (handleXmrCryptoDataUpdate env0 sampleXmrKeys user1CryptoData
          ⟨sampleStore, []⟩).2.store.xmrCryptoData
        = sampleStore.xmrCryptoData ++
          [⟨PgUUID.ofByte 101, sampleXmrKeys.PrivViewKey, sampleXmrKeys.PubSpendKey, 0, 0⟩] ∧
      ∀ d ∈ (handleXmrCryptoDataUpdate env0 sampleXmrKeys user1CryptoData
          ⟨sampleStore, []⟩).2.store.cryptoData,
        d.UserID = PgUUID.ofByte 1 → d.XmrID = PgUUID.ofByte 101) ∧
    ((handleXmrCryptoDataUpdate env0 sampleXmrKeys user1CryptoDataXmr ⟨xmrKeyStore, []⟩).1
        = none ∧
      (handleXmrCryptoDataUpdate env0 sampleXmrKeys user1CryptoDataXmr
          ⟨xmrKeyStore, []⟩).2.store.cryptoData = xmrKeyStore.cryptoData ∧
      ∀ x ∈ (handleXmrCryptoDataUpdate env0 sampleXmrKeys user1CryptoDataXmr
          ⟨xmrKeyStore, []⟩).2.store.xmrCryptoData,
        x.ID = PgUUID.ofByte 5 →
          x.PrivViewKey = sampleXmrKeys.PrivViewKey ∧
          x.PubSpendKey = sampleXmrKeys.PubSpendKey) := by
  obtain ⟨h1, h2, _, _, _, _, h3⟩ :=
    (handleXmrCryptoDataUpdate_valid_keys env0 sampleXmrKeys user1CryptoData ⟨sampleStore, []⟩
      (by decide) (by decide)).1 rfl _ _ _ _ _ _ rfl rfl rfl
  obtain ⟨g1, g2, _, _, g3, _⟩ :=
    (handleXmrCryptoDataUpdate_valid_keys env0 sampleXmrKeys user1CryptoDataXmr
      ⟨xmrKeyStore, []⟩ (by decide) (by decide)).2 rfl _ _ _ _ rfl rfl
  refine ⟨⟨?_, ?_, ?_⟩, ⟨?_, ?_, ?_⟩⟩
  · rw [h1]
  · rw [h1]; exact h2
  · rw [h1]; exact h3
  · rw [g1]
  · rw [g1]
  · rw [g1]; exact g3

/-! ### Typed concurrent map -/

theorem syncMapLoad_delete_self {K V : Type} [DecidableEq K] (k : K)
    (l : List (K × AnyValue V)) : syncMapLoad k (syncMapDelete k l) = none := by
  induction l with
  | nil => rfl
  | cons e rest ih =>
    unfold syncMapDelete at ih ⊢
    by_cases h : e.1 = k
    · simp only [List.filter_cons, h, decide_True, Bool.not_true]
      exact ih
    · simp only [List.filter_cons, h, decide_False, Bool.not_false, if_true]
      unfold syncMapLoad
      rw [if_neg h]
      exact ih

theorem syncMapLoad_delete_ne {K V : Type} [DecidableEq K] (k k' : K) (hne : k' ≠ k)
    (l : List (K × AnyValue V)) : syncMapLoad k' (syncMapDelete k l) = syncMapLoad k' l := by
  induction l with
  | nil => rfl
  | cons e rest ih =>
    unfold syncMapDelete at ih ⊢
    by_cases h : e.1 = k
    · have h' : ¬ e.1 = k' := fun h2 => hne (h2.symm.trans h)
      simp only [List.filter_cons, h, decide_True, Bool.not_true]
      rw [syncMapLoad, if_neg h']
      exact ih
    · simp only [List.filter_cons, h, decide_False, Bool.not_false, if_true]
      by_cases h2 : e.1 = k'
      · rw [syncMapLoad, if_pos h2, syncMapLoad, if_pos h2]
      · rw [syncMapLoad, if_neg h2, syncMapLoad, if_neg h2]
        exact ih

theorem syncMapLoad_store_self {K V : Type} [DecidableEq K] (k : K) (a : AnyValue V)
    (l : List (K × AnyValue V)) : syncMapLoad k (syncMapStore k a l) = some a := by
  unfold syncMapStore
  rw [syncMapLoad, if_pos rfl]

theorem syncMapLoad_store_ne {K V : Type} [DecidableEq K] (k k' : K) (hne : k' ≠ k)
    (a : AnyValue V) (l : List (K × AnyValue V)) :
    syncMapLoad k' (syncMapStore k a l) = syncMapLoad k' l := by
  unfold syncMapStore
  rw [syncMapLoad, if_neg (fun h => hne h.symm)]
  exact syncMapLoad_delete_ne k k' hne l

theorem syncMapLoad_mem {K V : Type} [DecidableEq K] (k : K) (a : AnyValue V)
    (l : List (K × AnyValue V)) (h : syncMapLoad k l = some a) : (k, a) ∈ l := by
  induction l with
  | nil => simp [syncMapLoad] at h
  | cons e rest ih =>
    rw [syncMapLoad] at h
    by_cases h2 : e.1 = k
    · rw [if_pos h2] at h
      have h3 : e = (k, a) := by
        cases e with
        | mk e1 e2 =>
          simp only at h2
          simp only [Option.some.injEq] at h
          rw [h2, h]
      rw [h3]
      exact List.mem_cons_self _ _
    · rw [if_neg h2] at h
      exact List.mem_cons_of_mem _ (ih h)

theorem syncMapDelete_absent {K V : Type} [DecidableEq K] (k : K)
    (l : List (K × AnyValue V)) (h : syncMapLoad k l = none) : syncMapDelete k l = l := by
  induction l with
  | nil => rfl
  | cons e rest ih =>
    rw [syncMapLoad] at h
    by_cases h2 : e.1 = k
    · rw [if_pos h2] at h
      cases h
    · rw [if_neg h2] at h
      unfold syncMapDelete at ih ⊢
      simp only [List.filter_cons, h2, decide_False, Bool.not_false, if_true]
      rw [ih h]

theorem assertType_toAny {V : Type} (T : GoValueType V) (v : V) :
    assertType (toAny T v) = if T.isNilInterface v then none else some v := by
  unfold toAny
  by_cases h : T.isNilInterface v = true
  · rw [if_pos h, if_pos h]
    rfl
  · rw [if_neg h, if_neg h]
    rfl

/-- The result of Load in terms of the entry found under the key. -/
theorem SyncMapTypeSafe.Load_present {K V : Type} [DecidableEq K] (T : GoValueType V)
    (m : SyncMapTypeSafe K V) (k : K) (w : V) (h : syncMapLoad k m.m = some (toAny T w)) :
    m.Load T k = if T.isNilInterface w then none else some (w, true) := by
  unfold SyncMapTypeSafe.Load
  rw [h]
  simp only
  rw [assertType_toAny]
  by_cases hn : T.isNilInterface w = true
  · rw [if_pos hn, if_pos hn]
  · rw [if_neg hn, if_neg hn]

theorem SyncMapTypeSafe.Load_absent {K V : Type} [DecidableEq K] (T : GoValueType V)
    (m : SyncMapTypeSafe K V) (k : K) (h : syncMapLoad k m.m = none) :
    m.Load T k = some (T.zero, false) := by
  unfold SyncMapTypeSafe.Load
  rw [h]

/-- Load depends on the map only through the entry of the key. -/
theorem SyncMapTypeSafe.Load_congr {K V : Type} [DecidableEq K] (T : GoValueType V)
    (m m' : SyncMapTypeSafe K V) (k : K) (h : syncMapLoad k m'.m = syncMapLoad k m.m) :
    m'.Load T k = m.Load T k := by
  unfold SyncMapTypeSafe.Load
  rw [h]

/-- For a value that is not a nil interface value, Load after Store returns the value. -/
theorem SyncMapTypeSafe.Load_Store_typed {K V : Type} [DecidableEq K] (T : GoValueType V)
    (m : SyncMapTypeSafe K V) (k : K) (v : V) (hv : T.isNilInterface v = false) :
    (m.Store T k v).Load T k = some (v, true) := by
  rw [SyncMapTypeSafe.Load_present T (m.Store T k v) k v (syncMapLoad_store_self k _ _), hv]
  rfl

/-- For a value type that is not an interface type, as the one the subscriber registry uses,
Load after Store returns the stored value for every value. -/
theorem SyncMapTypeSafe.Load_Store_chan (m : SyncMapTypeSafe String Nat) (k : String) (v : Nat) :
    (m.Store chanType k v).Load chanType k = some (v, true) :=
  SyncMapTypeSafe.Load_Store_typed chanType m k v rfl

/-- Store, Delete and Load on any map: Load after Store returns the stored value, or panics
when that value is a nil interface value; Load after Delete reports the key as missing; Load of
every other key is unchanged by either. -/
theorem SyncMapTypeSafe.Store_Delete_Load {K V : Type} [DecidableEq K] (T : GoValueType V)
    (m : SyncMapTypeSafe K V) (k : K) (v : V) :
    (m.Store T k v).Load T k = (if T.isNilInterface v then none else some (v, true)) ∧
    (∀ k', k' ≠ k → (m.Store T k v).Load T k' = m.Load T k') ∧
    (m.Delete k).Load T k = some (T.zero, false) ∧
    (∀ k', k' ≠ k → (m.Delete k).Load T k' = m.Load T k') := by
  refine ⟨?_, ?_, ?_, ?_⟩
  · exact SyncMapTypeSafe.Load_present T (m.Store T k v) k v (syncMapLoad_store_self k _ _)
  · intro k' hne
    exact SyncMapTypeSafe.Load_congr T m (m.Store T k v) k' (syncMapLoad_store_ne k k' hne _ _)
  · exact SyncMapTypeSafe.Load_absent T (m.Delete k) k (syncMapLoad_delete_self k _)
  · intro k' hne
    exact SyncMapTypeSafe.Load_congr T m (m.Delete k) k' (syncMapLoad_delete_ne k k' hne _)

/-- Load and LoadAndDelete of a missing key return the zero value and false, and the map is
left as it was. -/
theorem SyncMapTypeSafe.absent_key {K V : Type} [DecidableEq K] (T : GoValueType V)
    (m : SyncMapTypeSafe K V) (k : K) (h : syncMapLoad k m.m = none) :
    m.Load T k = some (T.zero, false) ∧ m.LoadAndDelete T k = (some (T.zero, false), m) := by
  refine ⟨SyncMapTypeSafe.Load_absent T m k h, ?_⟩
  unfold SyncMapTypeSafe.LoadAndDelete
  rw [h, syncMapDelete_absent k m.m h]

/-- LoadAndDelete of a present key on a map modified only through the typed methods: the entry
is the conversion of some value w; the call returns (w, true), or panics when w is a nil
interface value, and the key is missing afterwards. -/
theorem SyncMapTypeSafe.LoadAndDelete_present {K V : Type} [DecidableEq K] (T : GoValueType V)
    (m : SyncMapTypeSafe K V) (k : K) (a : AnyValue V) (ht : m.typedOnly T)
    (h : syncMapLoad k m.m = some a) :
    ∃ w : V, a = toAny T w ∧
      (m.LoadAndDelete T k).1 = (if T.isNilInterface w then none else some (w, true)) ∧
      (m.LoadAndDelete T k).2.Load T k = some (T.zero, false) := by
  obtain ⟨w, hw⟩ := ht (k, a) (syncMapLoad_mem k a m.m h)
  simp only at hw
  refine ⟨w, hw, ?_, ?_⟩
  · unfold SyncMapTypeSafe.LoadAndDelete
    rw [h, hw]
    simp only
    rw [assertType_toAny]
    by_cases hn : T.isNilInterface w = true
    · rw [if_pos hn, if_pos hn]
    · rw [if_neg hn, if_neg hn]
  · have hmap : (m.LoadAndDelete T k).2 = ⟨syncMapDelete k m.m⟩ := by
      unfold SyncMapTypeSafe.LoadAndDelete
      rw [h]
      simp only
      cases assertType a <;> rfl
    rw [hmap]
    exact SyncMapTypeSafe.Load_absent T _ k (syncMapLoad_delete_self k _)

/-- LoadOrStore on a present key: the call returns (w, true), or panics when the entry is a nil
interface value, and the map is unchanged. -/
theorem SyncMapTypeSafe.LoadOrStore_present {K V : Type} [DecidableEq K] (T : GoValueType V)
    (m : SyncMapTypeSafe K V) (k : K) (v w : V) (h : syncMapLoad k m.m = some (toAny T w)) :
    m.LoadOrStore T k v = (if T.isNilInterface w then none else some (w, true), m) := by
  unfold SyncMapTypeSafe.LoadOrStore
  rw [h]
  simp only
  rw [assertType_toAny]
  by_cases hn : T.isNilInterface w = true
  · rw [if_pos hn, if_pos hn]
  · rw [if_neg hn, if_neg hn]

/-- LoadOrStore on a missing key: the value is stored; the call returns (v, false) and a later
Load returns (v, true), or both panic when v is a nil interface value. -/
theorem SyncMapTypeSafe.LoadOrStore_absent {K V : Type} [DecidableEq K] (T : GoValueType V)
    (m : SyncMapTypeSafe K V) (k : K) (v : V) (h : syncMapLoad k m.m = none) :
    (m.LoadOrStore T k v).1 = (if T.isNilInterface v then none else some (v, false)) ∧
    (m.LoadOrStore T k v).2 = m.Store T k v ∧
    (m.LoadOrStore T k v).2.Load T k = (if T.isNilInterface v then none else some (v, true)) := by
  have hmap : (m.LoadOrStore T k v).2 = m.Store T k v := by
    unfold SyncMapTypeSafe.LoadOrStore SyncMapTypeSafe.Store
    rw [h]
    simp only
    cases assertType (toAny T v) <;> rfl
  refine ⟨?_, hmap, ?_⟩
  · unfold SyncMapTypeSafe.LoadOrStore
    rw [h]
    simp only
    rw [assertType_toAny]
    by_cases hn : T.isNilInterface v = true
    · rw [if_pos hn, if_pos hn]
    · rw [if_neg hn, if_neg hn]
  · rw [hmap]
    exact SyncMapTypeSafe.Load_present T (m.Store T k v) k v (syncMapLoad_store_self k _ _)

/-- The map after LoadOrStore holds an entry under the key. -/
theorem SyncMapTypeSafe.LoadOrStore_map {K V : Type} [DecidableEq K] (T : GoValueType V)
    (m : SyncMapTypeSafe K V) (k : K) (v : V) :
    (∃ a, syncMapLoad k m.m = some a ∧ (m.LoadOrStore T k v).2 = m) ∨
    (syncMapLoad k m.m = none ∧ (m.LoadOrStore T k v).2 = m.Store T k v) := by
  cases h : syncMapLoad k m.m with
  | none =>
    refine Or.inr ⟨rfl, ?_⟩
    unfold SyncMapTypeSafe.LoadOrStore SyncMapTypeSafe.Store
    rw [h]
    simp only
    cases assertType (toAny T v) <;> rfl
  | some a =>
    refine Or.inl ⟨a, rfl, ?_⟩
    unfold SyncMapTypeSafe.LoadOrStore
    rw [h]
    simp only
    cases assertType a <;> rfl

/-- Calling LoadOrStore twice in a row gives the same map as calling it once. -/
theorem SyncMapTypeSafe.LoadOrStore_twice {K V : Type} [DecidableEq K] (T : GoValueType V)
    (m : SyncMapTypeSafe K V) (k : K) (v : V) :
    ((m.LoadOrStore T k v).2.LoadOrStore T k v).2 = (m.LoadOrStore T k v).2 := by
  rcases SyncMapTypeSafe.LoadOrStore_map T (m.LoadOrStore T k v).2 k v with h | h
  · exact h.choose_spec.2
  · exfalso
    rcases SyncMapTypeSafe.LoadOrStore_map T m k v with g | g
    · obtain ⟨a, ha, hm⟩ := g
      rw [hm, ha] at h
      cases h.1
    · rw [g.2] at h
      have := syncMapLoad_store_self k (toAny T v) m.m
      unfold SyncMapTypeSafe.Store at h
      rw [this] at h
      cases h.1

/-- C28, the code at the failing input: in a map with values of the interface type error, after
Store of the nil error under a key, Load of that key panics instead of returning (nil, true);
with a non-nil error it returns the stored value. -/
theorem syncMap_load_after_store_nil_panics :
    ((SyncMapTypeSafe.empty : SyncMapTypeSafe String (Option String)).Store errorType "k"
      none).Load errorType "k" = none ∧
    ((SyncMapTypeSafe.empty : SyncMapTypeSafe String (Option String)).Store errorType "k"
      (some "e")).Load errorType "k" = some (some "e", true) := by
  exact ⟨by decide, by decide⟩

/-- C29, the code at the failing input: the map obtained from the empty map by the typed Store
of the nil error under a key has that key present, and LoadAndDelete of the key panics instead
of returning (nil, true); the key is missing afterwards. -/
theorem syncMap_loadAndDelete_nil_panics :
    syncMapLoad "k" ((SyncMapTypeSafe.empty : SyncMapTypeSafe String (Option String)).Store
      errorType "k" none).m = some AnyValue.nilInterface ∧
    (((SyncMapTypeSafe.empty : SyncMapTypeSafe String (Option String)).Store errorType "k"
      none).LoadAndDelete errorType "k").1 = none ∧
    syncMapLoad "k" (((SyncMapTypeSafe.empty : SyncMapTypeSafe String (Option String)).Store
      errorType "k" none).LoadAndDelete errorType "k").2.m = none := by
  exact ⟨by decide, by decide, by decide⟩

/-- C30, the code at the failing input: on the empty map with values of the interface type
error, LoadOrStore of the nil error under a key panics instead of returning (nil, false), the
nil value is stored all the same, and a later Load of the key panics; LoadOrStore on a key
present with the nil error panics instead of returning (nil, true). -/
theorem syncMap_loadOrStore_nil_panics :
    ((SyncMapTypeSafe.empty : SyncMapTypeSafe String (Option String)).LoadOrStore errorType "k"
      none).1 = none ∧
    syncMapLoad "k" ((SyncMapTypeSafe.empty : SyncMapTypeSafe String (Option String)).LoadOrStore
      errorType "k" none).2.m = some AnyValue.nilInterface ∧
    ((SyncMapTypeSafe.empty : SyncMapTypeSafe String (Option String)).LoadOrStore errorType "k"
      none).2.Load errorType "k" = none ∧
    (((SyncMapTypeSafe.empty : SyncMapTypeSafe String (Option String)).Store errorType "k"
      none).LoadOrStore errorType "k" (some "e")).1 = none := by
  exact ⟨by decide, by decide, by decide, by decide⟩

end Goipay
